import Mathlib

/-!
# GoofScript evaluator (`src/eval.c`)

A shallow embedding of the tree-walking evaluator of GoofScript and the
properties of its dynamic semantics.

Modelling conventions

* `double` payloads are kept abstract: every definition is generic in a type
  `D` carrying the operations the C code applies to doubles (`DoubleOps`).
  Every theorem therefore holds for IEEE-754 doubles in particular; the
  instance on `Int` at the end of the definitions only serves to run examples.
* C strings are `String`s whose characters stand for the (non-NUL) `char`s.
* The process state the evaluator touches is explicit: the variable table of
  `env_t`, the text written to `stdout` and `stderr`, and the unread `stdin`.
* Every error helper ends the process, so a run is a `Res`: a value with the
  state reached, or the error raised with the state at the point of failure.
* Recursion through `eval_expr` / `eval` is tied with a fuel counter; each C
  function is one definition that receives the recursive callee as `ev`/`run`.
-/

namespace GoofScript

/-! ## Values -/

/-- Operations on `double` used by `eval.c`: the literal `0`, the C operators
`+ - * /`, `pow`, the comparisons `== > >= < <=`, the conversion from `size_t`
(`value_num(strlen(..))`), `double_to_str` and `sscanf(buf, "%lf", ..)`. -/
class DoubleOps (D : Type) where
  zero : D
  add : D → D → D
  sub : D → D → D
  mul : D → D → D
  div : D → D → D
  pow : D → D → D
  eq : D → D → Bool
  gt : D → D → Bool
  ge : D → D → Bool
  lt : D → D → Bool
  le : D → D → Bool
  of_size : Nat → D
  double_to_str : D → String
  sscanf_lf : String → Option D

/-- The type tags of `value_t` (`value.type`). -/
inductive value_type_t
  | VALUE_TYPE_NIL
  | VALUE_TYPE_BOOL
  | VALUE_TYPE_NUM
  | VALUE_TYPE_STR
  deriving DecidableEq, Repr

/-- A runtime value: the tag together with the payload the tag selects. -/
inductive value_t (D : Type)
  | nil
  | bool_ (b : Bool)
  | num (x : D)
  | str (s : String)
  deriving DecidableEq, Repr

/-- The `type` field of a value. -/
def value_t.type {D : Type} : value_t D → value_type_t
  | .nil => .VALUE_TYPE_NIL
  | .bool_ _ => .VALUE_TYPE_BOOL
  | .num _ => .VALUE_TYPE_NUM
  | .str _ => .VALUE_TYPE_STR

/-! ## Syntax trees -/

/-- Source location of a node (`where_t`). -/
structure where_t where
  path : String
  row : Int
  col : Int
  deriving DecidableEq, Repr

/-- Binary operator kinds, in the order of the dispatch in `eval_expr_bin_op`. -/
inductive bin_op_type_t
  | BIN_OP_EQUALS
  | BIN_OP_NOT_EQUALS
  | BIN_OP_GREATER
  | BIN_OP_GREATER_EQU
  | BIN_OP_LESS
  | BIN_OP_LESS_EQU
  | BIN_OP_ASSIGN
  | BIN_OP_INC
  | BIN_OP_DEC
  | BIN_OP_XINC
  | BIN_OP_XDEC
  | BIN_OP_ADD
  | BIN_OP_SUB
  | BIN_OP_MUL
  | BIN_OP_DIV
  | BIN_OP_POW
  deriving DecidableEq, Repr

/-- Expression nodes. Only the location of a call is read by the code under
`src/` itself (by `builtin_panic`); the other locations only reach the error
helpers and are left out. -/
inductive expr_t (D : Type)
  | call (where_ : where_t) (name : String) (args : List (expr_t D))
  | id (name : String)
  | val (v : value_t D)
  | bin_op (op : bin_op_type_t) (left right : expr_t D)

mutual
/-- Statement nodes; a statement sequence (the `next` chain) is a list. -/
inductive stmt_t (D : Type)
  | expr (e : expr_t D)
  | let_ (name : String) (val : expr_t D)
  | if_ (i : stmt_if_t D)
  | while_ (cond : expr_t D) (body : List (stmt_t D))
  | for_ (init : List (stmt_t D)) (cond : expr_t D) (step : List (stmt_t D))
      (body : List (stmt_t D))
/-- An `if` node: condition, body, the chained else-if node (`next`, possibly
`NULL`) and the else body. -/
inductive stmt_if_t (D : Type)
  | mk (cond : expr_t D) (body : List (stmt_t D)) (next : Option (stmt_if_t D))
      (else_ : List (stmt_t D))
end

/-! ## Process state and outcomes -/

/-- One slot of the variable table: `name` is `none` for a `NULL` name. -/
structure var_t (D : Type) where
  name : Option String
  val : value_t D
  deriving DecidableEq, Repr

/-- The state the evaluator reads and writes: the slots of `env_t` (its length
is `VARS_CAPACITY`), the text written so far to standard output and standard
error, and the unread standard input. -/
structure State (D : Type) where
  vars : List (var_t D)
  stdout : String
  stderr : String
  stdin : List Char
  deriving DecidableEq, Repr

/-- Modelled from the spec: the error helpers `error`, `undefined`,
`wrong_type` and `wrong_arg_count` (declared outside `src/`) report a
diagnostic and end the process; an error is identified by its kind (spec §7).
`TypeMismatch` keeps the tag handed to `wrong_type`, `ExpectedVariable` is the
structural error of an assignment whose left side is no identifier, and
`ExplicitPanic` is the `exit(EXIT_FAILURE)` of `builtin_panic`. -/
inductive Error
  | UndefinedVariable (name : String)
  | RedeclaredVariable (name : String)
  | VariableCapacityExceeded
  | TypeMismatch (type : value_type_t)
  | UnknownFunction (name : String)
  | WrongArgCount (got expected : Nat)
  | DivisionByZero
  | ExpectedVariable (op : String)
  | ExplicitPanic
  deriving DecidableEq, Repr

/-- Outcome of running a piece of the program: it returned `a` in state `s`,
it ended the process with error `e` in state `s`, or the fuel of the model ran
out before either happened. -/
inductive Res (D : Type) (α : Type)
  | ok (a : α) (s : State D)
  | fail (e : Error) (s : State D)
  | out_of_fuel
  deriving DecidableEq, Repr

/-- Sequencing: continue with `f` when the first part returned. -/
def Res.bind {D α β : Type} (r : Res D α) (f : α → State D → Res D β) : Res D β :=
  match r with
  | .ok a s => f a s
  | .fail e s => .fail e s
  | .out_of_fuel => .out_of_fuel

/-- The two output streams. -/
inductive FILE
  | stdout
  | stderr
  deriving DecidableEq, Repr

/-- Writing text to a stream (`fprintf(file, "%s", t)`). -/
def fputs {D : Type} (t : String) (file : FILE) (s : State D) : State D :=
  match file with
  | .stdout => { s with stdout := s.stdout ++ t }
  | .stderr => { s with stderr := s.stderr ++ t }

/-- Writing one character to a stream. -/
def fputc {D : Type} (c : Char) (file : FILE) (s : State D) : State D :=
  fputs (String.singleton c) file s

/-- Writing one character to standard output. -/
def putchar {D : Type} (c : Char) (s : State D) : State D :=
  fputc c .stdout s

/-- Reading a line with `fgets(buf, size, stdin)` into a zeroed buffer: at most
`size - 1` characters, stopping after a newline; nothing at end of input.
Returns the buffer contents and the unread input. -/
def fgets : Nat → List Char → List Char × List Char
  | 0, inp => ([], inp)
  | 1, inp => ([], inp)
  | _ + 2, [] => ([], [])
  | n + 2, c :: cs =>
    if c = '\n' then ([c], cs)
    else (c :: (fgets (n + 1) cs).1, (fgets (n + 1) cs).2)

/-- Evaluator handed to a function that evaluates sub-expressions. -/
abbrev Ev (D : Type) := expr_t D → State D → Res D (value_t D)

/-- Statement runner handed to a function that runs statement lists. -/
abbrev Run (D : Type) := List (stmt_t D) → State D → Res D Unit

section Evaluator

variable {D : Type} [DoubleOps D]

/-! ## Built-in functions -/

/-- Function `fprint_value`: writes the rendering of a value to a stream. -/
def fprint_value (value : value_t D) (file : FILE) (s : State D) : State D :=
  match value with
  | .nil => fputs "(nil)" file s
  | .str t => fputs t file s
  | .bool_ b => fputs (if b then "true" else "false") file s
  | .num x => fputs (DoubleOps.double_to_str x) file s

/-- The argument loop of `builtin_print`, from argument index `i` on. -/
def builtin_print_loop (ev : Ev D) : List (expr_t D) → Nat → State D → Res D Unit
  | [], _, s => .ok () s
  | arg :: rest, i, s =>
    (ev arg (if i > 0 then putchar ' ' s else s)).bind fun value s1 =>
      builtin_print_loop ev rest (i + 1) (fprint_value value .stdout s1)

/-- Function `builtin_print`. -/
def builtin_print (ev : Ev D) (args : List (expr_t D)) (s : State D) : Res D (value_t D) :=
  (builtin_print_loop ev args 0 s).bind fun _ s1 => .ok .nil s1

/-- Function `builtin_println`. -/
def builtin_println (ev : Ev D) (args : List (expr_t D)) (s : State D) : Res D (value_t D) :=
  (builtin_print ev args s).bind fun _ s1 => .ok .nil (putchar '\n' s1)

/-- The argument loop of `builtin_panic`. -/
def builtin_panic_loop (ev : Ev D) : List (expr_t D) → State D → Res D Unit
  | [], s => .ok () s
  | arg :: rest, s =>
    (ev arg (fputc ' ' .stderr s)).bind fun value s1 =>
      builtin_panic_loop ev rest (fprint_value value .stderr s1)

/-- Function `builtin_panic`: the colour changes of the terminal write no
text of the diagnostic and are left out. -/
def builtin_panic (ev : Ev D) (where_ : where_t) (args : List (expr_t D)) (s : State D) :
    Res D (value_t D) :=
  (builtin_panic_loop ev args
    (fputs "panic():" .stderr
      (fputs (where_.path ++ ":" ++ toString where_.row ++ ":" ++ toString where_.col ++ ": ")
        .stderr s))).bind fun _ s1 =>
    .fail .ExplicitPanic (fputc '\n' .stderr s1)

/-- Function `builtin_len`. -/
def builtin_len (ev : Ev D) (args : List (expr_t D)) (s : State D) : Res D (value_t D) :=
  match args with
  | [arg] =>
    (ev arg s).bind fun val s1 =>
      match val with
      | .str t => .ok (.num (DoubleOps.of_size t.length)) s1
      | _ => .fail (.TypeMismatch val.type) s1
  | _ => .fail (.WrongArgCount args.length 1) s

/-- The prompt loop of `builtin_readnum`. -/
def builtin_readnum_loop (ev : Ev D) : List (expr_t D) → Nat → State D → Res D Unit
  | [], _, s => .ok () s
  | arg :: rest, i, s =>
    (ev arg (if i > 0 then putchar ' ' s else s)).bind fun value s1 =>
      builtin_readnum_loop ev rest (i + 1) (fprint_value value .stdout s1)

/-- Function `builtin_readnum`. -/
def builtin_readnum (ev : Ev D) (args : List (expr_t D)) (s : State D) : Res D (value_t D) :=
  (builtin_readnum_loop ev args 0 s).bind fun _ s1 =>
    .ok
      (.num
        (match (DoubleOps.sscanf_lf (String.mk (fgets 1024 (putchar ' ' s1).stdin).1) :
            Option D) with
        | some val => val
        | none => DoubleOps.zero))
      { putchar ' ' s1 with stdin := (fgets 1024 (putchar ' ' s1).stdin).2 }

/-- The prompt loop of `builtin_readstr`, with its own rendering switch. -/
def builtin_readstr_loop (ev : Ev D) : List (expr_t D) → Nat → State D → Res D Unit
  | [], _, s => .ok () s
  | arg :: rest, i, s =>
    (ev arg (if i > 0 then putchar ' ' s else s)).bind fun value s1 =>
      builtin_readstr_loop ev rest (i + 1)
        (match value with
        | .nil => fputs "(nil)" .stdout s1
        | .str t => fputs t .stdout s1
        | .bool_ b => fputs (if b then "true" else "false") .stdout s1
        | .num x => fputs (DoubleOps.double_to_str x) .stdout s1)

/-- The line `builtin_readstr` returns: the buffer without one trailing
newline. -/
def strip_newline (buf : List Char) : List Char :=
  if buf.getLast? = some '\n' then buf.dropLast else buf

/-- Function `builtin_readstr`. -/
def builtin_readstr (ev : Ev D) (args : List (expr_t D)) (s : State D) : Res D (value_t D) :=
  (builtin_readstr_loop ev args 0 s).bind fun _ s1 =>
    .ok (.str (String.mk (strip_newline (fgets 1024 (putchar ' ' s1).stdin).1)))
      { putchar ' ' s1 with stdin := (fgets 1024 (putchar ' ' s1).stdin).2 }

/-- The functions a `builtins` entry can point to. -/
inductive builtin_t
  | println
  | print
  | len
  | readnum
  | readstr
  | panic
  deriving DecidableEq, Repr

/-- The table `builtins`. -/
def builtins : List (String × builtin_t) :=
  [("println", .println),
   ("print", .print),
   ("len", .len),
   ("readnum", .readnum),
   ("readstr", .readstr),
   ("panic", .panic)]

/-- Calling through the function pointer of a table entry. -/
def builtin_t.func (f : builtin_t) (ev : Ev D) (where_ : where_t) (args : List (expr_t D))
    (s : State D) : Res D (value_t D) :=
  match f with
  | .println => builtin_println ev args s
  | .print => builtin_print ev args s
  | .len => builtin_len ev args s
  | .readnum => builtin_readnum ev args s
  | .readstr => builtin_readstr ev args s
  | .panic => builtin_panic ev where_ args s

/-- Function `eval_expr_call`: the first table entry with the name is called. -/
def eval_expr_call (ev : Ev D) (where_ : where_t) (name : String) (args : List (expr_t D))
    (s : State D) : Res D (value_t D) :=
  match builtins.find? (fun b => b.1 = name) with
  | some b => b.2.func ev where_ args s
  | none => .fail (.UnknownFunction name) s

/-! ## Variables -/

/-- Function `env_get_var`: the first slot holding `name`, as the index the
returned pointer designates together with the slot read through it; `none`
for `NULL`. -/
def env_get_var : List (var_t D) → String → Option (Nat × var_t D)
  | [], _ => none
  | v :: vars, name =>
    match v.name with
    | none => (env_get_var vars name).map fun p => (p.1 + 1, p.2)
    | some n =>
      if n = name then some (0, v)
      else (env_get_var vars name).map fun p => (p.1 + 1, p.2)

/-- Storing through a slot pointer: `var->val = val`. -/
def set_val (vars : List (var_t D)) (i : Nat) (val : value_t D) : List (var_t D) :=
  vars.modify (fun v => { v with val := val }) i

/-- Storing a slot name: `e->vars[idx].name = name`. -/
def set_name (vars : List (var_t D)) (i : Nat) (name : String) : List (var_t D) :=
  vars.modify (fun v => { v with name := some name }) i

/-- Function `eval_expr_id`. -/
def eval_expr_id (name : String) (s : State D) : Res D (value_t D) :=
  match env_get_var s.vars name with
  | none => .fail (.UndefinedVariable name) s
  | some (_, var) => .ok var.val s

/-- Function `eval_expr_value`. -/
def eval_expr_value (v : value_t D) (s : State D) : Res D (value_t D) :=
  .ok v s

/-! ## Binary operators -/

/-- Function `eval_expr_bin_op_equals`. -/
def eval_expr_bin_op_equals (ev : Ev D) (l r : expr_t D) (s : State D) : Res D (value_t D) :=
  (ev l s).bind fun left s1 =>
    (ev r s1).bind fun right s2 =>
      if right.type ≠ left.type then .fail (.TypeMismatch left.type) s2
      else
        match left, right with
        | .num a, .num b => .ok (.bool_ (DoubleOps.eq a b)) s2
        | .bool_ a, .bool_ b => .ok (.bool_ (a == b)) s2
        | .str a, .str b => .ok (.bool_ (a == b)) s2
        | _, _ => .fail (.TypeMismatch left.type) s2

/-- Function `eval_expr_bin_op_not_equals`: the boolean that
`eval_expr_bin_op_equals` returned is negated (it returns no other value). -/
def eval_expr_bin_op_not_equals (ev : Ev D) (l r : expr_t D) (s : State D) :
    Res D (value_t D) :=
  (eval_expr_bin_op_equals ev l r s).bind fun val s1 =>
    match val with
    | .bool_ b => .ok (.bool_ (!b)) s1
    | other => .ok other s1

/-- Function `eval_expr_bin_op_greater`. -/
def eval_expr_bin_op_greater (ev : Ev D) (l r : expr_t D) (s : State D) : Res D (value_t D) :=
  (ev l s).bind fun left s1 =>
    (ev r s1).bind fun right s2 =>
      if right.type ≠ left.type then .fail (.TypeMismatch left.type) s2
      else
        match left, right with
        | .num a, .num b => .ok (.bool_ (DoubleOps.gt a b)) s2
        | _, _ => .fail (.TypeMismatch left.type) s2

/-- Function `eval_expr_bin_op_greater_equ`. -/
def eval_expr_bin_op_greater_equ (ev : Ev D) (l r : expr_t D) (s : State D) :
    Res D (value_t D) :=
  (ev l s).bind fun left s1 =>
    (ev r s1).bind fun right s2 =>
      if right.type ≠ left.type then .fail (.TypeMismatch left.type) s2
      else
        match left, right with
        | .num a, .num b => .ok (.bool_ (DoubleOps.ge a b)) s2
        | _, _ => .fail (.TypeMismatch left.type) s2

/-- Function `eval_expr_bin_op_less`. -/
def eval_expr_bin_op_less (ev : Ev D) (l r : expr_t D) (s : State D) : Res D (value_t D) :=
  (ev l s).bind fun left s1 =>
    (ev r s1).bind fun right s2 =>
      if right.type ≠ left.type then .fail (.TypeMismatch left.type) s2
      else
        match left, right with
        | .num a, .num b => .ok (.bool_ (DoubleOps.lt a b)) s2
        | _, _ => .fail (.TypeMismatch left.type) s2

/-- Function `eval_expr_bin_op_less_equ`. -/
def eval_expr_bin_op_less_equ (ev : Ev D) (l r : expr_t D) (s : State D) :
    Res D (value_t D) :=
  (ev l s).bind fun left s1 =>
    (ev r s1).bind fun right s2 =>
      if right.type ≠ left.type then .fail (.TypeMismatch left.type) s2
      else
        match left, right with
        | .num a, .num b => .ok (.bool_ (DoubleOps.le a b)) s2
        | _, _ => .fail (.TypeMismatch left.type) s2

/-- Function `eval_expr_bin_op_assign`. -/
def eval_expr_bin_op_assign (ev : Ev D) (l r : expr_t D) (s : State D) : Res D (value_t D) :=
  match l with
  | .id name =>
    (ev r s).bind fun val s1 =>
      match env_get_var s1.vars name with
      | none => .fail (.UndefinedVariable name) s1
      | some (i, var) =>
        if val.type ≠ var.val.type then .fail (.TypeMismatch val.type) s1
        else .ok val { s1 with vars := set_val s1.vars i val }
  | _ => .fail (.ExpectedVariable "=") s

/-- Function `eval_expr_bin_op_inc`. -/
def eval_expr_bin_op_inc (ev : Ev D) (l r : expr_t D) (s : State D) : Res D (value_t D) :=
  match l with
  | .id name =>
    (ev r s).bind fun val s1 =>
      match env_get_var s1.vars name with
      | none => .fail (.UndefinedVariable name) s1
      | some (i, var) =>
        if val.type ≠ var.val.type then .fail (.TypeMismatch val.type) s1
        else
          match var.val, val with
          | .num a, .num b =>
            .ok val { s1 with vars := set_val s1.vars i (.num (DoubleOps.add a b)) }
          | _, _ => .fail (.TypeMismatch val.type) s1
  | _ => .fail (.ExpectedVariable "++") s

/-- Function `eval_expr_bin_op_dec`. -/
def eval_expr_bin_op_dec (ev : Ev D) (l r : expr_t D) (s : State D) : Res D (value_t D) :=
  match l with
  | .id name =>
    (ev r s).bind fun val s1 =>
      match env_get_var s1.vars name with
      | none => .fail (.UndefinedVariable name) s1
      | some (i, var) =>
        if val.type ≠ var.val.type then .fail (.TypeMismatch val.type) s1
        else
          match var.val, val with
          | .num a, .num b =>
            .ok val { s1 with vars := set_val s1.vars i (.num (DoubleOps.sub a b)) }
          | _, _ => .fail (.TypeMismatch val.type) s1
  | _ => .fail (.ExpectedVariable "--") s

/-- Function `eval_expr_bin_op_xinc`. -/
def eval_expr_bin_op_xinc (ev : Ev D) (l r : expr_t D) (s : State D) : Res D (value_t D) :=
  match l with
  | .id name =>
    (ev r s).bind fun val s1 =>
      match env_get_var s1.vars name with
      | none => .fail (.UndefinedVariable name) s1
      | some (i, var) =>
        if val.type ≠ var.val.type then .fail (.TypeMismatch val.type) s1
        else
          match var.val, val with
          | .num a, .num b =>
            .ok val { s1 with vars := set_val s1.vars i (.num (DoubleOps.mul a b)) }
          | _, _ => .fail (.TypeMismatch val.type) s1
  | _ => .fail (.ExpectedVariable "**") s

/-- Function `eval_expr_bin_op_xdec`. -/
def eval_expr_bin_op_xdec (ev : Ev D) (l r : expr_t D) (s : State D) : Res D (value_t D) :=
  match l with
  | .id name =>
    (ev r s).bind fun val s1 =>
      match env_get_var s1.vars name with
      | none => .fail (.UndefinedVariable name) s1
      | some (i, var) =>
        if val.type ≠ var.val.type then .fail (.TypeMismatch val.type) s1
        else
          match var.val, val with
          | .num a, .num b =>
            if DoubleOps.eq b DoubleOps.zero then .fail .DivisionByZero s1
            else .ok val { s1 with vars := set_val s1.vars i (.num (DoubleOps.div a b)) }
          | _, _ => .fail (.TypeMismatch val.type) s1
  | _ => .fail (.ExpectedVariable "//") s

/-- Function `eval_expr_bin_op_add`. -/
def eval_expr_bin_op_add (ev : Ev D) (l r : expr_t D) (s : State D) : Res D (value_t D) :=
  (ev l s).bind fun left s1 =>
    (ev r s1).bind fun right s2 =>
      match left with
      | .num a =>
        match right with
        | .num b => .ok (.num (DoubleOps.add a b)) s2
        | _ => .fail (.TypeMismatch right.type) s2
      | _ => .fail (.TypeMismatch left.type) s2

/-- Function `eval_expr_bin_op_sub`. -/
def eval_expr_bin_op_sub (ev : Ev D) (l r : expr_t D) (s : State D) : Res D (value_t D) :=
  (ev l s).bind fun left s1 =>
    (ev r s1).bind fun right s2 =>
      match left with
      | .num a =>
        match right with
        | .num b => .ok (.num (DoubleOps.sub a b)) s2
        | _ => .fail (.TypeMismatch right.type) s2
      | _ => .fail (.TypeMismatch left.type) s2

/-- Function `eval_expr_bin_op_mul`. -/
def eval_expr_bin_op_mul (ev : Ev D) (l r : expr_t D) (s : State D) : Res D (value_t D) :=
  (ev l s).bind fun left s1 =>
    (ev r s1).bind fun right s2 =>
      match left with
      | .num a =>
        match right with
        | .num b => .ok (.num (DoubleOps.mul a b)) s2
        | _ => .fail (.TypeMismatch right.type) s2
      | _ => .fail (.TypeMismatch left.type) s2

/-- Function `eval_expr_bin_op_div`. -/
def eval_expr_bin_op_div (ev : Ev D) (l r : expr_t D) (s : State D) : Res D (value_t D) :=
  (ev l s).bind fun left s1 =>
    (ev r s1).bind fun right s2 =>
      match left with
      | .num a =>
        match right with
        | .num b =>
          if DoubleOps.eq b DoubleOps.zero then .fail .DivisionByZero s2
          else .ok (.num (DoubleOps.div a b)) s2
        | _ => .fail (.TypeMismatch right.type) s2
      | _ => .fail (.TypeMismatch left.type) s2

/-- Function `eval_expr_bin_op_pow`. -/
def eval_expr_bin_op_pow (ev : Ev D) (l r : expr_t D) (s : State D) : Res D (value_t D) :=
  (ev l s).bind fun left s1 =>
    (ev r s1).bind fun right s2 =>
      match left with
      | .num a =>
        match right with
        | .num b => .ok (.num (DoubleOps.pow a b)) s2
        | _ => .fail (.TypeMismatch right.type) s2
      | _ => .fail (.TypeMismatch left.type) s2

/-- Function `eval_expr_bin_op`. -/
def eval_expr_bin_op (ev : Ev D) (op : bin_op_type_t) (l r : expr_t D) (s : State D) :
    Res D (value_t D) :=
  match op with
  | .BIN_OP_EQUALS => eval_expr_bin_op_equals ev l r s
  | .BIN_OP_NOT_EQUALS => eval_expr_bin_op_not_equals ev l r s
  | .BIN_OP_GREATER => eval_expr_bin_op_greater ev l r s
  | .BIN_OP_GREATER_EQU => eval_expr_bin_op_greater_equ ev l r s
  | .BIN_OP_LESS => eval_expr_bin_op_less ev l r s
  | .BIN_OP_LESS_EQU => eval_expr_bin_op_less_equ ev l r s
  | .BIN_OP_ASSIGN => eval_expr_bin_op_assign ev l r s
  | .BIN_OP_INC => eval_expr_bin_op_inc ev l r s
  | .BIN_OP_DEC => eval_expr_bin_op_dec ev l r s
  | .BIN_OP_XINC => eval_expr_bin_op_xinc ev l r s
  | .BIN_OP_XDEC => eval_expr_bin_op_xdec ev l r s
  | .BIN_OP_ADD => eval_expr_bin_op_add ev l r s
  | .BIN_OP_SUB => eval_expr_bin_op_sub ev l r s
  | .BIN_OP_MUL => eval_expr_bin_op_mul ev l r s
  | .BIN_OP_DIV => eval_expr_bin_op_div ev l r s
  | .BIN_OP_POW => eval_expr_bin_op_pow ev l r s

/-- Function `eval_expr`; `fuel` bounds the nesting depth that is followed. -/
def eval_expr : Nat → expr_t D → State D → Res D (value_t D)
  | 0, _, _ => .out_of_fuel
  | fuel + 1, expr, s =>
    match expr with
    | .call where_ name args => eval_expr_call (eval_expr fuel) where_ name args s
    | .id name => eval_expr_id name s
    | .val v => eval_expr_value v s
    | .bin_op op l r => eval_expr_bin_op (eval_expr fuel) op l r s

/-! ## Statements -/

/-- Result of the scan loop of `eval_stmt_let`: the loop raised the
redeclaration error, or it ran to its end with `idx` (`none` for `-1`). -/
inductive let_scan_t
  | redeclared
  | idx (i : Option Nat)
  deriving DecidableEq, Repr

/-- The scan loop of `eval_stmt_let` from slot `i` on, `idx` being the first
free slot seen so far. -/
def eval_stmt_let_loop (name : String) : List (var_t D) → Nat → Option Nat → let_scan_t
  | [], _, idx => .idx idx
  | v :: vars, i, idx =>
    match v.name with
    | none => eval_stmt_let_loop name vars (i + 1) (if idx = none then some i else idx)
    | some n => if n = name then .redeclared else eval_stmt_let_loop name vars (i + 1) idx

/-- Function `eval_stmt_let`: the slot is named before the initializer is
evaluated, and the value is stored afterwards. -/
def eval_stmt_let (ev : Ev D) (name : String) (val : expr_t D) (s : State D) : Res D Unit :=
  match eval_stmt_let_loop name s.vars 0 none with
  | .redeclared => .fail (.RedeclaredVariable name) s
  | .idx none => .fail .VariableCapacityExceeded s
  | .idx (some idx) =>
    (ev val { s with vars := set_name s.vars idx name }).bind fun v s1 =>
      .ok () { s1 with vars := set_val s1.vars idx v }

mutual
/-- Function `eval`: runs a statement sequence. -/
def eval : Nat → List (stmt_t D) → State D → Res D Unit
  | _, [], s => .ok () s
  | 0, _ :: _, _ => .out_of_fuel
  | fuel + 1, stmt :: next, s =>
    (match stmt with
      | .expr e => (eval_expr fuel e s).bind fun _ s1 => .ok () s1
      | .let_ name val => eval_stmt_let (eval_expr fuel) name val s
      | .if_ i => eval_stmt_if fuel i s
      | .while_ cond body => eval_stmt_while fuel cond body s
      | .for_ init cond step body => eval_stmt_for fuel init cond step body s).bind
      fun _ s1 => eval fuel next s1
/-- Function `eval_stmt_if`. -/
def eval_stmt_if : Nat → stmt_if_t D → State D → Res D Unit
  | 0, _, _ => .out_of_fuel
  | fuel + 1, .mk cond body next else_, s =>
    (eval_expr fuel cond s).bind fun c s1 =>
      match c with
      | .bool_ b =>
        if b then eval fuel body s1
        else
          match next with
          | some i => eval_stmt_if fuel i s1
          | none => eval fuel else_ s1
      | _ => .fail (.TypeMismatch c.type) s1
/-- Function `eval_stmt_while`: one fuel unit per test of the condition. -/
def eval_stmt_while : Nat → expr_t D → List (stmt_t D) → State D → Res D Unit
  | 0, _, _, _ => .out_of_fuel
  | fuel + 1, cond, body, s =>
    (eval_expr fuel cond s).bind fun c s1 =>
      match c with
      | .bool_ b =>
        if b then (eval fuel body s1).bind fun _ s2 => eval_stmt_while fuel cond body s2
        else .ok () s1
      | _ => .fail (.TypeMismatch c.type) s1
/-- The loop of `eval_stmt_for`: one fuel unit per test of the condition. -/
def eval_stmt_for_loop : Nat → expr_t D → List (stmt_t D) → List (stmt_t D) → State D →
    Res D Unit
  | 0, _, _, _, _ => .out_of_fuel
  | fuel + 1, cond, step, body, s =>
    (eval_expr fuel cond s).bind fun c s1 =>
      match c with
      | .bool_ b =>
        if b then
          (eval fuel body s1).bind fun _ s2 =>
            (eval fuel step s2).bind fun _ s3 => eval_stmt_for_loop fuel cond step body s3
        else .ok () s1
      | _ => .fail (.TypeMismatch c.type) s1
/-- Function `eval_stmt_for`. -/
def eval_stmt_for : Nat → List (stmt_t D) → expr_t D → List (stmt_t D) → List (stmt_t D) →
    State D → Res D Unit
  | 0, _, _, _, _, _ => .out_of_fuel
  | fuel + 1, init, cond, step, body, s =>
    (eval fuel init s).bind fun _ s1 => eval_stmt_for_loop fuel cond step body s1
end

/-- Function `env_init`: every slot zeroed. `zero` is the value all-zero bytes
denote, fixed by the order of the tags in the declaration of `value_t`, which is
outside `src/`. -/
def env_init (VARS_CAPACITY : Nat) (zero : value_t D) : List (var_t D) :=
  List.replicate VARS_CAPACITY { name := none, val := zero }

end Evaluator

/-- Exact integer arithmetic as a stand-in for `double`, used to run the
evaluator on concrete programs whose numbers are small integers. -/
instance intDoubleOps : DoubleOps Int where
  zero := 0
  add a b := a + b
  sub a b := a - b
  mul a b := a * b
  div a b := a / b
  pow a b := a ^ b.toNat
  eq a b := decide (a = b)
  gt a b := decide (a > b)
  ge a b := decide (a ≥ b)
  lt a b := decide (a < b)
  le a b := decide (a ≤ b)
  of_size n := (n : Int)
  double_to_str x := toString x
  sscanf_lf t := t.toInt?

/-! ## Notions used in the statements and proofs -/

section
variable {D : Type}

/-- The names the table holds, in slot order. -/
def env_names (vars : List (var_t D)) : List String :=
  vars.filterMap fun v => v.name

/-- The first slot whose name is `NULL`. -/
def first_free : List (var_t D) → Option Nat
  | [] => none
  | v :: vars =>
    match v.name with
    | none => some 0
    | some _ => (first_free vars).map (· + 1)

/-- The value the variable `x` holds in a state, if it is declared. -/
def var_value (s : State D) (x : String) : Option (value_t D) :=
  (env_get_var s.vars x).map fun p => p.2.val

/-- The errors raised while evaluating an expression: all but the two errors
of `eval_stmt_let`. -/
def Error.of_expr : Error → Prop
  | .RedeclaredVariable _ => False
  | .VariableCapacityExceeded => False
  | _ => True

/-- Both outcomes of a run satisfy `P` on the state reached, and the error of
a failed run satisfies `E`. -/
def Res.All {α : Type} (P : State D → Prop) (E : Error → Prop) : Res D α → Prop
  | .ok _ s => P s
  | .fail e s => E e ∧ P s
  | .out_of_fuel => True

/-- A relation between the state before and the state after that every state
change made by expression evaluation respects. -/
structure ExprStable (R : State D → State D → Prop) : Prop where
  refl : ∀ s, R s s
  trans : ∀ a b c, R a b → R b c → R a c
  out : ∀ s t f, R s (fputs t f s)
  inp : ∀ s i, R s { s with stdin := i }
  set : ∀ s name i var v, env_get_var s.vars name = some (i, var) →
    v.type = var.val.type → R s { s with vars := set_val s.vars i v }

/-- The name and the type tag of every slot. -/
def env_shape (vars : List (var_t D)) : List (Option String × value_type_t) :=
  vars.map fun v => (v.name, v.val.type)

/-- No slot changes its name or its type tag. -/
def ShapeStable (s s' : State D) : Prop :=
  env_shape s'.vars = env_shape s.vars

/-- Declared variables stay declared, in the same slot and with the same type
tag. -/
def TagStable (s s' : State D) : Prop :=
  ∀ x i v, env_get_var s.vars x = some (i, v) →
    ∃ v', env_get_var s'.vars x = some (i, v') ∧ v'.val.type = v.val.type

/-- Pairwise distinct names stay pairwise distinct. -/
def NamesStable (s s' : State D) : Prop :=
  (env_names s.vars).Nodup → (env_names s'.vars).Nodup

end

section
variable {D : Type} [DoubleOps D]

/-- An evaluator whose every run respects `R` and raises errors in `E`. -/
def EvAll (R : State D → State D → Prop) (E : Error → Prop) (ev : Ev D) : Prop :=
  ∀ e s, (ev e s).All (R s) E

/-- A relation between the state before and the state after that expression
evaluation and `eval_stmt_let` respect. -/
structure StmtStable (R : State D → State D → Prop) : Prop where
  refl : ∀ s, R s s
  trans : ∀ a b c, R a b → R b c → R a c
  expr : ∀ fuel e s, (eval_expr fuel e s).All (R s) (fun _ => True)
  let_ : ∀ fuel name val s,
    (eval_stmt_let (eval_expr fuel) name val s).All (R s) (fun _ => True)

end

section
variable {D : Type}

/-- The state in which slot `idx` has been given the name `name`, as
`eval_stmt_let` does before it evaluates the initializer. -/
def name_slot (idx : Nat) (name : String) (s : State D) : State D :=
  { s with vars := set_name s.vars idx name }

/-- Slot `idx` is free and `name` is not declared. -/
def Fresh (idx : Nat) (name : String) (s : State D) : Prop :=
  (∃ w, s.vars[idx]? = some w ∧ w.name = none) ∧ name ∉ env_names s.vars

end

section
variable {D : Type} [DoubleOps D]

/-- An evaluator whose successful runs are unaffected by naming a free slot
with an undeclared name. -/
def EvSim (idx : Nat) (name : String) (ev : Ev D) : Prop :=
  ∀ e s v s1, Fresh idx name s → ev e s = .ok v s1 →
    Fresh idx name s1 ∧ ev e (name_slot idx name s) = .ok v (name_slot idx name s1)

end

/-! ## Example inputs -/

/-- An example location. -/
def where_example : where_t := ⟨"main.goof", 1, 1⟩

/-- An example state: the Num variable `x = 5` in the first of two slots, the
second slot free, nothing written and nothing to read. -/
def state_x5 : State Int :=
  ⟨[⟨some "x", .num 5⟩, ⟨none, .nil⟩], "", "", []⟩

/-- An example state with a table of a single slot, which holds `x = 5`. -/
def state_full : State Int :=
  ⟨[⟨some "x", .num 5⟩], "", "", []⟩

/-- An example state: a fresh table of two slots whose zeroed value is Nil. -/
def state_empty : State Int :=
  ⟨env_init 2 .nil, "", "", []⟩

/-- The statement `let name = v;` with a literal initializer. -/
def let_literal {D : Type} (p : String × value_t D) : stmt_t D :=
  .let_ p.1 (.val p.2)

/-- The slot a `let` of a literal fills. -/
def slot_of {D : Type} (p : String × value_t D) : var_t D :=
  ⟨some p.1, p.2⟩

/-- An example state: the text variable `s = "hello"` in a table of two slots. -/
def state_hello : State Int :=
  ⟨[⟨some "s", .str "hello"⟩, ⟨none, .nil⟩], "", "", []⟩

section
variable {D : Type}

/-- The outcome `r'` is the outcome `r`, unless `r` ran out of fuel. -/
def Res.le {α : Type} (r r' : Res D α) : Prop :=
  r = .out_of_fuel ∨ r = r'

/-- The evaluator `ev'` agrees with `ev` wherever `ev` does not run out of
fuel. -/
def EvLe (ev ev' : Ev D) : Prop :=
  ∀ e s, (ev e s).le (ev' e s)

end
section
variable {D : Type} [DoubleOps D]

/-- The `if` node that heads a chain: the branches `(cond, body, else_)` in
order, each linked to the following node through `next`, the last of them
linked to the node `last`. -/
def if_chain : List (expr_t D × List (stmt_t D) × List (stmt_t D)) → stmt_if_t D → stmt_if_t D
  | [], last => last
  | (c, b, e) :: rest, last => .mk c b (some (if_chain rest last)) e

/-- The conditions evaluate, in order and each from the state the previous one
reached, to `false`, from state `s` to state `s'`. -/
def conds_false (fuel : Nat) : List (expr_t D) → State D → State D → Prop
  | [], s, s' => s' = s
  | c :: cs, s, s' =>
    ∃ s1, eval_expr fuel c s = .ok (.bool_ false) s1 ∧ conds_false fuel cs s1 s'

end
section
variable {D : Type} [DoubleOps D]

/-- The condition `i < n` of the counting loop. -/
def count_cond (n : Nat) : expr_t D :=
  .bin_op .BIN_OP_LESS (.id "i") (.val (.num (DoubleOps.of_size n)))

/-- The step `i ++ 1` of the counting loop. -/
def count_step : List (stmt_t D) :=
  [.expr (.bin_op .BIN_OP_INC (.id "i") (.val (.num (DoubleOps.of_size 1))))]

/-- The body `sum ++ i` of the counting loop. -/
def count_body : List (stmt_t D) :=
  [.expr (.bin_op .BIN_OP_INC (.id "sum") (.id "i"))]

/-- The program `let sum = 0; let i = 0; for (i = 0; i < n; i ++ 1) sum ++ i; end`,
its number literals being the doubles of the naturals `0`, `1` and `n`. -/
def count_program (n : Nat) : List (stmt_t D) :=
  [.let_ "sum" (.val (.num (DoubleOps.of_size 0))),
   .let_ "i" (.val (.num (DoubleOps.of_size 0))),
   .for_ [.expr (.bin_op .BIN_OP_ASSIGN (.id "i") (.val (.num (DoubleOps.of_size 0))))]
     (count_cond n) count_step count_body]

/-- The state in which the first two slots hold `sum` and `i` with the doubles of
two naturals and the other slots are `free`. -/
def count_state (free : List (var_t D)) (out err : String) (inp : List Char) (sum i : Nat) :
    State D :=
  ⟨⟨some "sum", .num (DoubleOps.of_size sum)⟩ :: ⟨some "i", .num (DoubleOps.of_size i)⟩ :: free,
    out, err, inp⟩

end
section
variable {D : Type} [DoubleOps D]

/-- The rendering of a value to text (spec §4.1): `(nil)`, `true` / `false`,
the decimal rendering of the double, the raw text. -/
def render (v : value_t D) : String :=
  match v with
  | .nil => "(nil)"
  | .bool_ b => if b then "true" else "false"
  | .num x => DoubleOps.double_to_str x
  | .str t => t

/-- The texts, each preceded by one space. -/
def sep_join : List String → String
  | [] => ""
  | x :: rest => " " ++ x ++ sep_join rest

/-- The texts with a single space between consecutive ones, none leading or
trailing, and nothing at all for no text. -/
def join_space : List String → String
  | [] => ""
  | x :: rest => x ++ sep_join rest

/-- What the spec says `print` does with its arguments: it evaluates them left
to right, writes the rendering of each value once the argument is evaluated,
and writes one space between two consecutive arguments. -/
def print_args_spec (ev : Ev D) : List (expr_t D) → State D → Res D Unit
  | [], s => .ok () s
  | [a], s => (ev a s).bind fun v t => .ok () (fputs (render v) .stdout t)
  | a :: b :: rest, s =>
    (ev a s).bind fun v t =>
      print_args_spec ev (b :: rest) (fputs " " .stdout (fputs (render v) .stdout t))

end
section
variable {D : Type}

/-- The run reached an outcome: it returned or it failed. -/
def Res.done {α : Type} : Res D α → Prop
  | .ok _ _ => True
  | .fail _ _ => True
  | .out_of_fuel => False

end
section
variable {D : Type}

/-- The type tag of every value the built-in function returns. -/
def builtin_t.result_type : builtin_t → value_type_t
  | .println => .VALUE_TYPE_NIL
  | .print => .VALUE_TYPE_NIL
  | .len => .VALUE_TYPE_NUM
  | .readnum => .VALUE_TYPE_NUM
  | .readstr => .VALUE_TYPE_STR
  | .panic => .VALUE_TYPE_NIL

/-- The type tag of every value the operator returns; `none` for `=`, which
returns the value of its right operand. -/
def bin_op_type_t.result_type : bin_op_type_t → Option value_type_t
  | .BIN_OP_EQUALS => some .VALUE_TYPE_BOOL
  | .BIN_OP_NOT_EQUALS => some .VALUE_TYPE_BOOL
  | .BIN_OP_GREATER => some .VALUE_TYPE_BOOL
  | .BIN_OP_GREATER_EQU => some .VALUE_TYPE_BOOL
  | .BIN_OP_LESS => some .VALUE_TYPE_BOOL
  | .BIN_OP_LESS_EQU => some .VALUE_TYPE_BOOL
  | .BIN_OP_ASSIGN => none
  | .BIN_OP_INC => some .VALUE_TYPE_NUM
  | .BIN_OP_DEC => some .VALUE_TYPE_NUM
  | .BIN_OP_XINC => some .VALUE_TYPE_NUM
  | .BIN_OP_XDEC => some .VALUE_TYPE_NUM
  | .BIN_OP_ADD => some .VALUE_TYPE_NUM
  | .BIN_OP_SUB => some .VALUE_TYPE_NUM
  | .BIN_OP_MUL => some .VALUE_TYPE_NUM
  | .BIN_OP_DIV => some .VALUE_TYPE_NUM
  | .BIN_OP_POW => some .VALUE_TYPE_NUM

/-- Every variable declared in `s` is declared in `s'` with a value of the same
type tag. -/
def TagExt (s s' : State D) : Prop :=
  ∀ x v, var_value s x = some v → ∃ v', var_value s' x = some v' ∧ v'.type = v.type

end

section
variable {D : Type} [DoubleOps D]

/-- The value `c` is what the condition evaluates to at one of the checks that
`eval_stmt_while`, started with this fuel in state `s`, makes: at the first
check, or at a check after an iteration whose condition was true and whose body
returned. -/
inductive while_check (cond : expr_t D) (body : List (stmt_t D)) :
    Nat → State D → value_t D → Prop
  | first (fuel : Nat) (s s1 : State D) (c : value_t D) :
    eval_expr fuel cond s = .ok c s1 → while_check cond body (fuel + 1) s c
  | later (fuel : Nat) (s s1 s2 : State D) (c : value_t D) :
    eval_expr fuel cond s = .ok (.bool_ true) s1 → eval fuel body s1 = .ok () s2 →
    while_check cond body fuel s2 c → while_check cond body (fuel + 1) s c

/-- The value `c` is what the condition evaluates to at one of the checks that
`eval_stmt_for_loop`, started with this fuel in state `s`, makes. -/
inductive for_check (cond : expr_t D) (step body : List (stmt_t D)) :
    Nat → State D → value_t D → Prop
  | first (fuel : Nat) (s s1 : State D) (c : value_t D) :
    eval_expr fuel cond s = .ok c s1 → for_check cond step body (fuel + 1) s c
  | later (fuel : Nat) (s s1 s2 s3 : State D) (c : value_t D) :
    eval_expr fuel cond s = .ok (.bool_ true) s1 → eval fuel body s1 = .ok () s2 →
    eval fuel step s2 = .ok () s3 →
    for_check cond step body fuel s3 c → for_check cond step body (fuel + 1) s c

end
/-! ## Lemmas -/

section
variable {D : Type}

@[simp] theorem Res.bind_ok {α β : Type} (a : α) (s : State D) (f : α → State D → Res D β) :
    (Res.ok a s).bind f = f a s := rfl

@[simp] theorem Res.bind_fail {α β : Type} (e : Error) (s : State D)
    (f : α → State D → Res D β) : (Res.fail e s : Res D α).bind f = .fail e s := rfl

@[simp] theorem Res.bind_out_of_fuel {α β : Type} (f : α → State D → Res D β) :
    (Res.out_of_fuel : Res D α).bind f = .out_of_fuel := rfl

theorem Res.All.from {α : Type} {R : State D → State D → Prop} {E : Error → Prop}
    (htrans : ∀ a b c, R a b → R b c → R a c) {r : Res D α} {s s0 : State D} (h0 : R s s0)
    (hr : r.All (R s0) E) : r.All (R s) E := by
  cases r with
  | ok a s1 => exact htrans _ _ _ h0 hr
  | fail e s1 => exact ⟨hr.1, htrans _ _ _ h0 hr.2⟩
  | out_of_fuel => trivial

theorem Res.All.bind {α β : Type} {R : State D → State D → Prop} {E : Error → Prop}
    (htrans : ∀ a b c, R a b → R b c → R a c) {r : Res D α} {f : α → State D → Res D β}
    {s : State D} (hr : r.All (R s) E) (hf : ∀ a s1, (f a s1).All (R s1) E) :
    (r.bind f).All (R s) E := by
  cases r with
  | ok a s1 => exact Res.All.from htrans hr (hf a s1)
  | fail e s1 => exact hr
  | out_of_fuel => trivial

theorem ExprStable.of_fputc {R : State D → State D → Prop} (hR : ExprStable R) (c : Char)
    (f : FILE) (s : State D) : R s (fputc c f s) := hR.out s (String.singleton c) f

theorem ExprStable.of_putchar {R : State D → State D → Prop} (hR : ExprStable R) (c : Char)
    (s : State D) : R s (putchar c s) := hR.out s (String.singleton c) .stdout

theorem ExprStable.of_sep {R : State D → State D → Prop} (hR : ExprStable R) (i : Nat)
    (s : State D) : R s (if i > 0 then putchar ' ' s else s) := by
  split
  · exact hR.of_putchar _ _
  · exact hR.refl _

end

section
variable {D : Type} [DoubleOps D]

theorem ExprStable.of_fprint_value {R : State D → State D → Prop} (hR : ExprStable R)
    (v : value_t D) (f : FILE) (s : State D) : R s (fprint_value v f s) := by
  cases v <;> exact hR.out _ _ _

theorem builtin_print_loop_all {R : State D → State D → Prop} {E : Error → Prop}
    (hR : ExprStable R) {ev : Ev D} (hev : EvAll R E ev)
    (args : List (expr_t D)) (i : Nat) (s : State D) :
    (builtin_print_loop ev args i s).All (R s) E := by
  induction args generalizing i s with
  | nil => exact hR.refl s
  | cons a rest ih =>
    unfold builtin_print_loop
    exact Res.All.bind hR.trans (Res.All.from hR.trans (hR.of_sep i s) (hev _ _)) fun v s1 =>
      Res.All.from hR.trans (hR.of_fprint_value v _ s1) (ih _ _)

theorem builtin_readnum_loop_all {R : State D → State D → Prop} {E : Error → Prop}
    (hR : ExprStable R) {ev : Ev D} (hev : EvAll R E ev)
    (args : List (expr_t D)) (i : Nat) (s : State D) :
    (builtin_readnum_loop ev args i s).All (R s) E := by
  induction args generalizing i s with
  | nil => exact hR.refl s
  | cons a rest ih =>
    unfold builtin_readnum_loop
    exact Res.All.bind hR.trans (Res.All.from hR.trans (hR.of_sep i s) (hev _ _)) fun v s1 =>
      Res.All.from hR.trans (hR.of_fprint_value v _ s1) (ih _ _)

theorem builtin_readstr_loop_all {R : State D → State D → Prop} {E : Error → Prop}
    (hR : ExprStable R) {ev : Ev D} (hev : EvAll R E ev)
    (args : List (expr_t D)) (i : Nat) (s : State D) :
    (builtin_readstr_loop ev args i s).All (R s) E := by
  induction args generalizing i s with
  | nil => exact hR.refl s
  | cons a rest ih =>
    unfold builtin_readstr_loop
    refine Res.All.bind hR.trans (Res.All.from hR.trans (hR.of_sep i s) (hev _ _)) fun v s1 => ?_
    cases v <;> exact Res.All.from hR.trans (hR.out _ _ _) (ih _ _)

theorem builtin_panic_loop_all {R : State D → State D → Prop} {E : Error → Prop}
    (hR : ExprStable R) {ev : Ev D} (hev : EvAll R E ev)
    (args : List (expr_t D)) (s : State D) :
    (builtin_panic_loop ev args s).All (R s) E := by
  induction args generalizing s with
  | nil => exact hR.refl s
  | cons a rest ih =>
    unfold builtin_panic_loop
    exact Res.All.bind hR.trans (Res.All.from hR.trans (hR.of_fputc _ _ s) (hev _ _)) fun v s1 =>
      Res.All.from hR.trans (hR.of_fprint_value v _ s1) (ih _)

theorem eval_expr_call_all {R : State D → State D → Prop} {E : Error → Prop}
    (hR : ExprStable R) (hE : ∀ e, e.of_expr → E e) {ev : Ev D} (hev : EvAll R E ev)
    (w : where_t) (name : String) (args : List (expr_t D)) (s : State D) :
    (eval_expr_call ev w name args s).All (R s) E := by
  unfold eval_expr_call
  split
  · rename_i b _
    cases hb : b.2 <;> simp only [builtin_t.func]
    · exact Res.All.bind hR.trans
        (Res.All.bind hR.trans (builtin_print_loop_all hR hev _ _ _) fun _ s1 => hR.refl s1)
        fun _ s1 => hR.of_putchar _ s1
    · exact Res.All.bind hR.trans (builtin_print_loop_all hR hev _ _ _) fun _ s1 => hR.refl s1
    · unfold builtin_len
      split
      · refine Res.All.bind hR.trans (hev _ _) fun v s1 => ?_
        cases v
        all_goals first
          | exact hR.refl _
          | exact ⟨hE _ (by simp [Error.of_expr]), hR.refl _⟩
      · exact ⟨hE _ (by simp [Error.of_expr]), hR.refl _⟩
    · exact Res.All.bind hR.trans (builtin_readnum_loop_all hR hev _ _ _) fun _ s1 =>
        hR.trans _ _ _ (hR.of_putchar ' ' s1) (hR.inp _ _)
    · exact Res.All.bind hR.trans (builtin_readstr_loop_all hR hev _ _ _) fun _ s1 =>
        hR.trans _ _ _ (hR.of_putchar ' ' s1) (hR.inp _ _)
    · exact Res.All.bind hR.trans
        (Res.All.from hR.trans (hR.trans _ _ _ (hR.out s _ _) (hR.out _ _ _))
          (builtin_panic_loop_all hR hev _ _))
        fun _ s1 => ⟨hE _ (by simp [Error.of_expr]), hR.of_fputc _ _ s1⟩
  · exact ⟨hE _ (by simp [Error.of_expr]), hR.refl _⟩

end

section
variable {D : Type} [DoubleOps D]

omit [DoubleOps D] in
theorem eval_expr_id_all {R : State D → State D → Prop} {E : Error → Prop}
    (hR : ExprStable R) (hE : ∀ e, e.of_expr → E e) (name : String) (s : State D) :
    (eval_expr_id name s).All (R s) E := by
  unfold eval_expr_id
  split
  · exact ⟨hE _ (by simp [Error.of_expr]), hR.refl _⟩
  · exact hR.refl _

theorem eval_expr_bin_op_all {R : State D → State D → Prop} {E : Error → Prop}
    (hR : ExprStable R) (hE : ∀ e, e.of_expr → E e) {ev : Ev D} (hev : EvAll R E ev)
    (op : bin_op_type_t) (l r : expr_t D) (s : State D) :
    (eval_expr_bin_op ev op l r s).All (R s) E := by
  have hfail : ∀ (e : Error) (t : State D), e.of_expr →
      (Res.fail e t : Res D (value_t D)).All (R t) E := fun e t h => ⟨hE e h, hR.refl t⟩
  have hok : ∀ (v : value_t D) (t : State D), (Res.ok v t).All (R t) E := fun _ t => hR.refl t
  cases op <;>
  simp only [eval_expr_bin_op, eval_expr_bin_op_equals, eval_expr_bin_op_not_equals,
    eval_expr_bin_op_greater, eval_expr_bin_op_greater_equ, eval_expr_bin_op_less,
    eval_expr_bin_op_less_equ, eval_expr_bin_op_assign, eval_expr_bin_op_inc,
    eval_expr_bin_op_dec, eval_expr_bin_op_xinc, eval_expr_bin_op_xdec, eval_expr_bin_op_add,
    eval_expr_bin_op_sub, eval_expr_bin_op_mul, eval_expr_bin_op_div, eval_expr_bin_op_pow] <;>
  repeat' first
    | exact hok _ _
    | exact hfail _ _ (by simp [Error.of_expr])
    | exact hev _ _
    | exact hR.set _ _ _ _ _ (by assumption) (by simp_all [value_t.type])
    | refine Res.All.bind hR.trans ?_ (fun _ _ => ?_)
    | split

/-- Every run of `eval_expr` respects a relation stable under the state changes
of expressions, and raises no error of `eval_stmt_let`. -/
theorem eval_expr_all {R : State D → State D → Prop} {E : Error → Prop}
    (hR : ExprStable R) (hE : ∀ e, e.of_expr → E e) (fuel : Nat) :
    EvAll R E (eval_expr fuel : Ev D) := by
  induction fuel with
  | zero => intro e s; trivial
  | succ n ih =>
    intro e s
    cases e with
    | call w name args => exact eval_expr_call_all hR hE ih w name args s
    | id name => exact eval_expr_id_all hR hE name s
    | val v => exact hR.refl s
    | bin_op op l r => exact eval_expr_bin_op_all hR hE ih op l r s

end

section
variable {D : Type} [DoubleOps D]

theorem eval_all_aux {R : State D → State D → Prop} (hR : StmtStable R) (fuel : Nat) :
    (∀ prog s, (eval fuel prog s).All (R s) (fun _ => True)) ∧
    (∀ i s, (eval_stmt_if fuel i s).All (R s) (fun _ => True)) ∧
    (∀ c b s, (eval_stmt_while fuel c b s).All (R s) (fun _ => True)) ∧
    (∀ c st b s, (eval_stmt_for_loop fuel c st b s).All (R s) (fun _ => True)) ∧
    (∀ i c st b s, (eval_stmt_for fuel i c st b s).All (R s) (fun _ => True)) := by
  have hfail : ∀ (e : Error) (t : State D),
      (Res.fail e t : Res D Unit).All (R t) (fun _ => True) := fun e t => ⟨trivial, hR.refl t⟩
  have hok : ∀ (v : Unit) (t : State D), (Res.ok v t).All (R t) (fun _ => True) :=
    fun _ t => hR.refl t
  induction fuel with
  | zero =>
    refine ⟨?_, ?_, ?_, ?_, ?_⟩
    · intro prog s
      cases prog with
      | nil => simp only [eval]; exact hR.refl s
      | cons a b => simp only [eval]; trivial
    all_goals intros; simp only [eval_stmt_if, eval_stmt_while, eval_stmt_for_loop, eval_stmt_for]; trivial
  | succ n ih =>
    obtain ⟨ih1, ih2, ih3, ih4, ih5⟩ := ih
    refine ⟨?_, ?_, ?_, ?_, ?_⟩
    · intro prog s
      cases prog with
      | nil => simp only [eval]; exact hR.refl s
      | cons a b =>
        simp only [eval]
        refine Res.All.bind hR.trans ?_ (fun _ _ => ih1 _ _)
        cases a with
        | expr e => exact Res.All.bind hR.trans (hR.expr _ _ _) (fun _ _ => hok _ _)
        | let_ name val => exact hR.let_ _ _ _ _
        | if_ i => exact ih2 _ _
        | while_ c b => exact ih3 _ _ _
        | for_ i c st b => exact ih5 _ _ _ _ _
    · intro i s
      cases i with
      | mk cond body next else_ =>
        simp only [eval_stmt_if]
        repeat' first
          | exact hok _ _
          | exact hfail _ _
          | exact hR.expr _ _ _
          | exact ih1 _ _
          | exact ih2 _ _
          | refine Res.All.bind hR.trans ?_ (fun _ _ => ?_)
          | split
    · intro c b s
      simp only [eval_stmt_while]
      repeat' first
        | exact hok _ _
        | exact hfail _ _
        | exact hR.expr _ _ _
        | exact ih1 _ _
        | exact ih3 _ _ _
        | refine Res.All.bind hR.trans ?_ (fun _ _ => ?_)
        | split
    · intro c st b s
      simp only [eval_stmt_for_loop]
      repeat' first
        | exact hok _ _
        | exact hfail _ _
        | exact hR.expr _ _ _
        | exact ih1 _ _
        | exact ih4 _ _ _ _
        | refine Res.All.bind hR.trans ?_ (fun _ _ => ?_)
        | split
    · intro i c st b s
      simp only [eval_stmt_for]
      exact Res.All.bind hR.trans (ih1 _ _) (fun _ _ => ih4 _ _ _ _)

/-- Every run of a program respects a relation that expression evaluation and
`eval_stmt_let` respect. -/
theorem eval_all {R : State D → State D → Prop} (hR : StmtStable R) (fuel : Nat)
    (prog : List (stmt_t D)) (s : State D) : (eval fuel prog s).All (R s) (fun _ => True) :=
  (eval_all_aux hR fuel).1 prog s

end

section
variable {D : Type}

theorem env_get_var_some {vars : List (var_t D)} {name : String} {i : Nat} {v : var_t D}
    (h : env_get_var vars name = some (i, v)) : vars[i]? = some v ∧ v.name = some name := by
  induction vars generalizing i with
  | nil => simp [env_get_var] at h
  | cons w ws ih =>
    unfold env_get_var at h
    split at h
    · simp only [Option.map_eq_some'] at h
      obtain ⟨⟨j, u⟩, hj, hp⟩ := h
      simp only [Prod.mk.injEq] at hp
      obtain ⟨rfl, rfl⟩ := hp
      simpa using ih hj
    · rename_i n hn
      split at h
      · simp only [Option.some.injEq, Prod.mk.injEq] at h
        obtain ⟨rfl, rfl⟩ := h
        subst_vars
        simp [hn]
      · simp only [Option.map_eq_some'] at h
        obtain ⟨⟨j, u⟩, hj, hp⟩ := h
        simp only [Prod.mk.injEq] at hp
        obtain ⟨rfl, rfl⟩ := hp
        simpa using ih hj

theorem env_get_var_eq_none {vars : List (var_t D)} {name : String} :
    env_get_var vars name = none ↔ name ∉ env_names vars := by
  induction vars with
  | nil => simp [env_get_var, env_names]
  | cons w ws ih =>
    unfold env_get_var
    cases hn : w.name with
    | none => simp [env_names, hn] at ih ⊢; exact ih
    | some n =>
      by_cases hnn : n = name
      · simp [env_names, hn, hnn]
      · simp [env_names, hn, hnn] at ih ⊢
        exact ⟨fun h => ⟨fun h' => hnn h'.symm, ih.mp h⟩, fun h => ih.mpr h.2⟩

theorem env_get_var_set_val (vars : List (var_t D)) (i : Nat) (v : value_t D) (x : String) :
    env_get_var (set_val vars i v) x =
      (env_get_var vars x).map fun p =>
        (p.1, if p.1 = i then { p.2 with val := v } else p.2) := by
  induction vars generalizing i with
  | nil => simp [env_get_var, set_val]
  | cons w ws ih =>
    cases i with
    | zero =>
      simp only [set_val, List.modify_zero_cons]
      unfold env_get_var
      cases hn : w.name with
      | none =>
        simp only [Option.map_map]
        congr 1
      | some n =>
        by_cases hnn : n = x
        · subst hnn
          simp [hn]
        · simp only [hnn, if_false, Option.map_map]
          congr 1
    | succ j =>
      have ih' := ih j
      simp only [set_val] at ih'
      simp only [set_val, List.modify_succ_cons]
      unfold env_get_var
      cases hn : w.name with
      | none =>
        simp only [ih', Option.map_map]
        congr 1
        funext p
        simp
      | some n =>
        by_cases hnn : n = x
        · simp [hnn]
        · simp only [hnn, if_false, ih', Option.map_map]
          congr 1
          funext p
          simp

theorem env_names_set_val (vars : List (var_t D)) (i : Nat) (v : value_t D) :
    env_names (set_val vars i v) = env_names vars := by
  induction vars generalizing i with
  | nil => simp [env_names, set_val]
  | cons w ws ih =>
    cases i with
    | zero => simp [env_names, set_val, List.filterMap_cons]
    | succ j =>
      have ih' := ih j
      simp only [env_names, set_val] at ih'
      simp [env_names, set_val, List.filterMap_cons, ih']

end

section
variable {D : Type}

theorem eval_stmt_let_loop_eq (name : String) (vars : List (var_t D)) (i : Nat)
    (idx0 : Option Nat) :
    eval_stmt_let_loop name vars i idx0 =
      if name ∈ env_names vars then .redeclared
      else .idx (match idx0 with
        | some k => some k
        | none => (first_free vars).map (· + i)) := by
  induction vars generalizing i idx0 with
  | nil => cases idx0 <;> simp [eval_stmt_let_loop, env_names, first_free]
  | cons w ws ih =>
    unfold eval_stmt_let_loop
    cases hn : w.name with
    | none =>
      simp only [ih, env_names, List.filterMap_cons, hn, first_free]
      cases idx0 <;> simp
    | some n =>
      by_cases hnn : n = name
      · simp [env_names, List.filterMap_cons, hn, hnn]
      · have hnn' : ¬ name = n := fun h => hnn h.symm
        simp only [ih, env_names, List.filterMap_cons, hn, first_free, hnn, if_false,
          List.mem_cons, hnn', false_or]
        cases idx0 with
        | some k => rfl
        | none =>
          cases first_free ws with
          | none => rfl
          | some k => simp [Nat.add_assoc, Nat.add_comm 1 i]

theorem eval_stmt_let_eq (ev : Ev D) (name : String) (val : expr_t D) (s : State D) :
    eval_stmt_let ev name val s =
      if name ∈ env_names s.vars then .fail (.RedeclaredVariable name) s
      else
        match first_free s.vars with
        | none => .fail .VariableCapacityExceeded s
        | some idx =>
          (ev val { s with vars := set_name s.vars idx name }).bind fun v s1 =>
            .ok () { s1 with vars := set_val s1.vars idx v } := by
  unfold eval_stmt_let
  rw [eval_stmt_let_loop_eq]
  by_cases h : name ∈ env_names s.vars
  · simp [h]
  · simp only [h, if_false]
    cases first_free s.vars <;> simp

theorem first_free_some {vars : List (var_t D)} {idx : Nat} (h : first_free vars = some idx) :
    ∃ v, vars[idx]? = some v ∧ v.name = none := by
  induction vars generalizing idx with
  | nil => simp [first_free] at h
  | cons w ws ih =>
    unfold first_free at h
    split at h
    · rename_i hn
      simp only [Option.some.injEq] at h
      subst h
      exact ⟨w, by simp, hn⟩
    · simp only [Option.map_eq_some'] at h
      obtain ⟨j, hj, rfl⟩ := h
      simpa using ih hj

theorem first_free_none {vars : List (var_t D)} :
    first_free vars = none ↔ ∀ v ∈ vars, v.name ≠ none := by
  induction vars with
  | nil => simp [first_free]
  | cons w ws ih =>
    unfold first_free
    cases hn : w.name with
    | none => simp [hn]
    | some n => simp [hn, ih]

theorem env_get_var_set_name_ne {vars : List (var_t D)} {idx : Nat} {w : var_t D}
    (hw : vars[idx]? = some w) (hfree : w.name = none) {n x : String} (hx : x ≠ n) :
    env_get_var (set_name vars idx n) x = env_get_var vars x := by
  induction vars generalizing idx with
  | nil => simp at hw
  | cons u us ih =>
    cases idx with
    | zero =>
      simp only [List.getElem?_cons_zero, Option.some.injEq] at hw
      subst hw
      simp only [set_name, List.modify_zero_cons]
      unfold env_get_var
      have hx' : ¬ n = x := fun h => hx h.symm
      simp [hfree, hx']
    | succ j =>
      simp only [List.getElem?_cons_succ] at hw
      have ih' := ih hw
      simp only [set_name] at ih'
      simp only [set_name, List.modify_succ_cons]
      unfold env_get_var
      rw [ih']

theorem env_get_var_set_name_self {vars : List (var_t D)} {idx : Nat} {w : var_t D}
    (hw : vars[idx]? = some w) {n : String} (hn : n ∉ env_names vars) :
    env_get_var (set_name vars idx n) n = some (idx, { w with name := some n }) := by
  induction vars generalizing idx with
  | nil => simp at hw
  | cons u us ih =>
    cases idx with
    | zero =>
      simp only [List.getElem?_cons_zero, Option.some.injEq] at hw
      subst hw
      simp only [set_name, List.modify_zero_cons]
      unfold env_get_var
      simp
    | succ j =>
      simp only [List.getElem?_cons_succ] at hw
      have hn' : n ∉ env_names us := by
        intro h
        apply hn
        simp only [env_names, List.filterMap_cons]
        cases u.name <;> simp [env_names] at h ⊢ <;> simp [h]
      have ih' := ih hw hn'
      simp only [set_name] at ih'
      simp only [set_name, List.modify_succ_cons]
      unfold env_get_var
      cases hu : u.name with
      | none => simp [ih']
      | some m =>
        have hm : m ≠ n := by
          rintro rfl
          apply hn
          simp [env_names, List.filterMap_cons, hu]
        simp [hm, ih']

theorem env_names_set_name {vars : List (var_t D)} {idx : Nat} {w : var_t D}
    (hw : vars[idx]? = some w) (hfree : w.name = none) (n : String) :
    (env_names (set_name vars idx n)).Perm (n :: env_names vars) := by
  induction vars generalizing idx with
  | nil => simp at hw
  | cons u us ih =>
    cases idx with
    | zero =>
      simp only [List.getElem?_cons_zero, Option.some.injEq] at hw
      subst hw
      simp [set_name, env_names, List.filterMap_cons, hfree]
    | succ j =>
      simp only [List.getElem?_cons_succ] at hw
      have ih' := ih hw
      simp only [set_name, env_names] at ih'
      simp only [set_name, List.modify_succ_cons, env_names, List.filterMap_cons]
      cases hu : u.name with
      | none => simpa using ih'
      | some m =>
        simp only
        exact (List.Perm.cons m ih').trans (List.Perm.swap n m _)

@[simp] theorem fputs_vars (t : String) (f : FILE) (s : State D) : (fputs t f s).vars = s.vars := by
  cases f <;> rfl

end
section
variable {D : Type}

theorem env_shape_set_val {vars : List (var_t D)} {i : Nat} {var : var_t D} {v : value_t D}
    (hv : vars[i]? = some var) (ht : v.type = var.val.type) :
    env_shape (set_val vars i v) = env_shape vars := by
  induction vars generalizing i with
  | nil => simp at hv
  | cons w ws ih =>
    cases i with
    | zero =>
      simp only [List.getElem?_cons_zero, Option.some.injEq] at hv
      subst hv
      simp [env_shape, set_val, ht]
    | succ j =>
      simp only [List.getElem?_cons_succ] at hv
      have ih' := ih hv
      simp only [env_shape, set_val] at ih'
      simp [env_shape, set_val, ih']

theorem shapeStable_exprStable : ExprStable (ShapeStable : State D → State D → Prop) where
  refl _ := rfl
  trans _ _ _ h1 h2 := h2.trans h1
  out s t f := by simp [ShapeStable]
  inp _ _ := rfl
  set s name i var v hg ht := env_shape_set_val (env_get_var_some hg).1 ht

theorem tagStable_exprStable : ExprStable (TagStable : State D → State D → Prop) where
  refl s x i v h := ⟨v, h, rfl⟩
  trans a b c h1 h2 x i v h := by
    obtain ⟨v1, hv1, ht1⟩ := h1 x i v h
    obtain ⟨v2, hv2, ht2⟩ := h2 x i v1 hv1
    exact ⟨v2, hv2, ht2.trans ht1⟩
  out s t f x i v h := ⟨v, by simpa using h, rfl⟩
  inp s inp x i v h := ⟨v, h, rfl⟩
  set s name i var v hg ht x j u h := by
    refine ⟨if j = i then { u with val := v } else u, ?_, ?_⟩
    · simp [env_get_var_set_val, h]
    · by_cases hji : j = i
      · subst hji
        have h1 := (env_get_var_some hg).1
        have h2 := (env_get_var_some h).1
        rw [h1] at h2
        simp only [Option.some.injEq] at h2
        subst h2
        simp [ht]
      · simp [hji]

theorem namesStable_exprStable : ExprStable (NamesStable : State D → State D → Prop) where
  refl _ h := h
  trans _ _ _ h1 h2 h := h2 (h1 h)
  out s t f h := by simpa using h
  inp _ _ h := h
  set s name i var v _ _ h := by simpa [env_names_set_val] using h

end

section
variable {D : Type} [DoubleOps D]

theorem tagStable_stmtStable : StmtStable (TagStable : State D → State D → Prop) where
  refl := tagStable_exprStable.refl
  trans := tagStable_exprStable.trans
  expr fuel e s := eval_expr_all tagStable_exprStable (fun _ _ => trivial) fuel e s
  let_ fuel name val s := by
    rw [eval_stmt_let_eq]
    split
    · exact ⟨trivial, tagStable_exprStable.refl s⟩
    · rename_i hname
      split
      · exact ⟨trivial, tagStable_exprStable.refl s⟩
      · rename_i idx hidx
        obtain ⟨w, hw, hfree⟩ := first_free_some hidx
        have hnamed : TagStable s { s with vars := set_name s.vars idx name } := by
          intro x i v h
          refine ⟨v, ?_, rfl⟩
          have hx : x ≠ name := by
            rintro rfl
            have := env_get_var_eq_none.mpr hname
            rw [this] at h
            cases h
          simpa [env_get_var_set_name_ne hw hfree hx] using h
        have hev := eval_expr_all (R := TagStable) (E := fun _ => True) tagStable_exprStable
          (fun _ _ => trivial) fuel val { s with vars := set_name s.vars idx name }
        cases hr : eval_expr fuel val { s with vars := set_name s.vars idx name } with
        | out_of_fuel => trivial
        | fail e s1 =>
          rw [hr] at hev
          exact ⟨trivial, tagStable_exprStable.trans _ _ _ hnamed hev.2⟩
        | ok v s1 =>
          rw [hr] at hev
          simp only [Res.bind_ok]
          intro x i u h
          obtain ⟨u1, hu1, ht1⟩ := tagStable_exprStable.trans _ _ _ hnamed hev x i u h
          have hi : i ≠ idx := by
            rintro rfl
            have h1 := (env_get_var_some h)
            rw [hw] at h1
            simp only [Option.some.injEq] at h1
            obtain ⟨rfl, h2⟩ := h1
            rw [hfree] at h2
            cases h2
          refine ⟨u1, ?_, ht1⟩
          simp [env_get_var_set_val, hu1, hi]

theorem namesStable_stmtStable : StmtStable (NamesStable : State D → State D → Prop) where
  refl := namesStable_exprStable.refl
  trans := namesStable_exprStable.trans
  expr fuel e s := eval_expr_all namesStable_exprStable (fun _ _ => trivial) fuel e s
  let_ fuel name val s := by
    rw [eval_stmt_let_eq]
    split
    · exact ⟨trivial, namesStable_exprStable.refl s⟩
    · rename_i hname
      split
      · exact ⟨trivial, namesStable_exprStable.refl s⟩
      · rename_i idx hidx
        obtain ⟨w, hw, hfree⟩ := first_free_some hidx
        have hnamed : NamesStable s { s with vars := set_name s.vars idx name } := by
          intro h
          have hp := env_names_set_name hw hfree name
          exact (List.Perm.nodup_iff hp).mpr (List.nodup_cons.mpr ⟨hname, h⟩)
        have hev := eval_expr_all (R := NamesStable) (E := fun _ => True)
          namesStable_exprStable (fun _ _ => trivial) fuel val
          { s with vars := set_name s.vars idx name }
        refine Res.All.bind namesStable_exprStable.trans
          (Res.All.from namesStable_exprStable.trans hnamed hev) fun v s1 => ?_
        intro h
        simpa [env_names_set_val] using h

end
section
variable {D : Type}

theorem Res.bind_eq_ok {α β : Type} {r : Res D α} {f : α → State D → Res D β} {b : β}
    {s' : State D} (h : r.bind f = .ok b s') : ∃ a s1, r = .ok a s1 ∧ f a s1 = .ok b s' := by
  cases r with
  | ok a s1 => exact ⟨a, s1, rfl, h⟩
  | fail e s1 => simp at h
  | out_of_fuel => simp at h

@[simp] theorem name_slot_fputs (idx : Nat) (name : String) (t : String) (f : FILE)
    (s : State D) : fputs t f (name_slot idx name s) = name_slot idx name (fputs t f s) := by
  cases f <;> rfl

@[simp] theorem name_slot_fputc (idx : Nat) (name : String) (c : Char) (f : FILE)
    (s : State D) : fputc c f (name_slot idx name s) = name_slot idx name (fputc c f s) := by
  simp [fputc]

@[simp] theorem name_slot_putchar (idx : Nat) (name : String) (c : Char) (s : State D) :
    putchar c (name_slot idx name s) = name_slot idx name (putchar c s) := by
  simp [putchar]

@[simp] theorem name_slot_stdin (idx : Nat) (name : String) (s : State D) :
    (name_slot idx name s).stdin = s.stdin := rfl

@[simp] theorem name_slot_vars (idx : Nat) (name : String) (s : State D) :
    (name_slot idx name s).vars = set_name s.vars idx name := rfl

@[simp] theorem fresh_fputs (idx : Nat) (name : String) (t : String) (f : FILE) (s : State D) :
    Fresh idx name (fputs t f s) ↔ Fresh idx name s := by
  simp [Fresh]

@[simp] theorem fresh_fputc (idx : Nat) (name : String) (c : Char) (f : FILE) (s : State D) :
    Fresh idx name (fputc c f s) ↔ Fresh idx name s := by
  simp [fputc]

@[simp] theorem fresh_putchar (idx : Nat) (name : String) (c : Char) (s : State D) :
    Fresh idx name (putchar c s) ↔ Fresh idx name s := by
  simp [putchar]

theorem fresh_of_shape {idx : Nat} {name : String} {s s1 : State D}
    (h : ShapeStable s s1) (hs : Fresh idx name s) : Fresh idx name s1 := by
  obtain ⟨⟨w, hw, hfree⟩, hn⟩ := hs
  have hnames : s1.vars.map (fun v => v.name) = s.vars.map (fun v => v.name) := by
    have := congrArg (List.map Prod.fst) h
    simpa [env_shape, List.map_map, Function.comp_def] using this
  refine ⟨?_, ?_⟩
  · have h1 := congrArg (fun l => l[idx]?) hnames
    simp only [List.getElem?_map, hw, Option.map_some'] at h1
    cases hw1 : s1.vars[idx]? with
    | none => simp [hw1] at h1
    | some w1 =>
      simp only [hw1, Option.map_some', Option.some.injEq] at h1
      exact ⟨w1, rfl, h1.trans hfree⟩
  · have : env_names s1.vars = env_names s.vars := by
      have h2 := congrArg (List.filterMap id) hnames
      simpa [env_names, List.filterMap_map, Function.comp_def] using h2
    rw [this]
    exact hn

theorem env_get_var_name_slot {idx : Nat} {name : String} {s : State D}
    (hs : Fresh idx name s) {x : String} {i : Nat} {var : var_t D}
    (hg : env_get_var s.vars x = some (i, var)) :
    env_get_var (set_name s.vars idx name) x = some (i, var) := by
  obtain ⟨⟨w, hw, hfree⟩, hn⟩ := hs
  have hx : x ≠ name := by
    rintro rfl
    rw [env_get_var_eq_none.mpr hn] at hg
    cases hg
  rw [env_get_var_set_name_ne hw hfree hx, hg]

theorem set_val_set_name (vars : List (var_t D)) (idx i : Nat) (name : String)
    (v : value_t D) :
    set_val (set_name vars idx name) i v = set_name (set_val vars i v) idx name := by
  simp only [set_val, set_name]
  by_cases h : i = idx
  · subst h
    simp only [List.modify_modify_eq]
    congr 1
  · exact (List.modify_modify_ne _ _ _ (fun h' => h h'.symm))

theorem name_slot_set_val (idx : Nat) (name : String) (s : State D) (i : Nat)
    (v : value_t D) :
    ({ name_slot idx name s with vars := set_val (set_name s.vars idx name) i v } : State D) =
      name_slot idx name { s with vars := set_val s.vars i v } := by
  simp [name_slot, set_val_set_name]

end
section
variable {D : Type} [DoubleOps D]

@[simp] theorem name_slot_fprint_value (idx : Nat) (name : String) (v : value_t D) (f : FILE)
    (s : State D) :
    fprint_value v f (name_slot idx name s) = name_slot idx name (fprint_value v f s) := by
  cases v <;> simp [fprint_value]

@[simp] theorem fresh_fprint_value (idx : Nat) (name : String) (v : value_t D) (f : FILE)
    (s : State D) : Fresh idx name (fprint_value v f s) ↔ Fresh idx name s := by
  cases v <;> simp [fprint_value]

omit [DoubleOps D] in
theorem fresh_sep (idx : Nat) (name : String) (i : Nat) (s : State D) :
    Fresh idx name (if i > 0 then putchar ' ' s else s) ↔ Fresh idx name s := by
  split <;> simp

omit [DoubleOps D] in
theorem name_slot_sep (idx : Nat) (name : String) (i : Nat) (s : State D) :
    (if i > 0 then putchar ' ' (name_slot idx name s) else name_slot idx name s) =
      name_slot idx name (if i > 0 then putchar ' ' s else s) := by
  split <;> simp

theorem builtin_print_loop_sim {idx : Nat} {name : String} {ev : Ev D}
    (hev : EvSim idx name ev) (args : List (expr_t D)) (i : Nat) (s s1 : State D)
    (hs : Fresh idx name s) (h : builtin_print_loop ev args i s = .ok () s1) :
    builtin_print_loop ev args i (name_slot idx name s) = .ok () (name_slot idx name s1) := by
  induction args generalizing i s with
  | nil =>
    simp only [builtin_print_loop, Res.ok.injEq, true_and] at h ⊢
    rw [h]
  | cons a rest ih =>
    unfold builtin_print_loop at h ⊢
    obtain ⟨v, s2, h1, h2⟩ := Res.bind_eq_ok h
    obtain ⟨hs2, h1'⟩ := hev _ _ _ _ ((fresh_sep idx name i s).mpr hs) h1
    rw [name_slot_sep, h1', Res.bind_ok, name_slot_fprint_value]
    exact ih _ _ ((fresh_fprint_value _ _ _ _ _).mpr hs2) h2

theorem builtin_readnum_loop_sim {idx : Nat} {name : String} {ev : Ev D}
    (hev : EvSim idx name ev) (args : List (expr_t D)) (i : Nat) (s s1 : State D)
    (hs : Fresh idx name s) (h : builtin_readnum_loop ev args i s = .ok () s1) :
    builtin_readnum_loop ev args i (name_slot idx name s) = .ok () (name_slot idx name s1) := by
  induction args generalizing i s with
  | nil =>
    simp only [builtin_readnum_loop, Res.ok.injEq, true_and] at h ⊢
    rw [h]
  | cons a rest ih =>
    unfold builtin_readnum_loop at h ⊢
    obtain ⟨v, s2, h1, h2⟩ := Res.bind_eq_ok h
    obtain ⟨hs2, h1'⟩ := hev _ _ _ _ ((fresh_sep idx name i s).mpr hs) h1
    rw [name_slot_sep, h1', Res.bind_ok, name_slot_fprint_value]
    exact ih _ _ ((fresh_fprint_value _ _ _ _ _).mpr hs2) h2

theorem builtin_readstr_loop_sim {idx : Nat} {name : String} {ev : Ev D}
    (hev : EvSim idx name ev) (args : List (expr_t D)) (i : Nat) (s s1 : State D)
    (hs : Fresh idx name s) (h : builtin_readstr_loop ev args i s = .ok () s1) :
    builtin_readstr_loop ev args i (name_slot idx name s) = .ok () (name_slot idx name s1) := by
  induction args generalizing i s with
  | nil =>
    simp only [builtin_readstr_loop, Res.ok.injEq, true_and] at h ⊢
    rw [h]
  | cons a rest ih =>
    unfold builtin_readstr_loop at h ⊢
    obtain ⟨v, s2, h1, h2⟩ := Res.bind_eq_ok h
    obtain ⟨hs2, h1'⟩ := hev _ _ _ _ ((fresh_sep idx name i s).mpr hs) h1
    rw [name_slot_sep, h1', Res.bind_ok]
    cases v <;> simp only [name_slot_fputs] <;>
      exact ih _ _ ((fresh_fputs _ _ _ _ _).mpr hs2) h2

theorem eval_expr_call_sim {idx : Nat} {name : String} {ev : Ev D}
    (hev : EvSim idx name ev) (w : where_t) (fn : String) (args : List (expr_t D))
    (s s1 : State D) (v : value_t D) (hs : Fresh idx name s)
    (h : eval_expr_call ev w fn args s = .ok v s1) :
    eval_expr_call ev w fn args (name_slot idx name s) = .ok v (name_slot idx name s1) := by
  unfold eval_expr_call at h ⊢
  split at h
  · rename_i b hb
    cases hf : b.2 <;> simp only [hf, builtin_t.func] at h ⊢
    · -- println
      unfold builtin_println builtin_print at h ⊢
      obtain ⟨_, s2, h1, h2⟩ := Res.bind_eq_ok h
      obtain ⟨_, s3, h3, h4⟩ := Res.bind_eq_ok h1
      rw [builtin_print_loop_sim hev _ _ _ _ hs h3]
      simp only [Res.bind_ok, Res.ok.injEq] at h4 h2 ⊢
      obtain ⟨_, rfl⟩ := h4
      obtain ⟨rfl, rfl⟩ := h2
      simp
    · -- print
      unfold builtin_print at h ⊢
      obtain ⟨_, s3, h3, h4⟩ := Res.bind_eq_ok h
      rw [builtin_print_loop_sim hev _ _ _ _ hs h3]
      simp only [Res.bind_ok, Res.ok.injEq] at h4 ⊢
      obtain ⟨rfl, rfl⟩ := h4
      simp
    · -- len
      unfold builtin_len at h ⊢
      split at h
      · obtain ⟨val, s2, h1, h2⟩ := Res.bind_eq_ok h
        obtain ⟨_, h1'⟩ := hev _ _ _ _ hs h1
        simp only [h1', Res.bind_ok]
        cases val <;> simp_all
      · simp at h
    · -- readnum
      unfold builtin_readnum at h ⊢
      obtain ⟨_, s3, h3, h4⟩ := Res.bind_eq_ok h
      rw [builtin_readnum_loop_sim hev _ _ _ _ hs h3]
      simp only [Res.bind_ok, Res.ok.injEq] at h4 ⊢
      obtain ⟨rfl, rfl⟩ := h4
      simp only [name_slot_putchar, name_slot_stdin, true_and]
      rfl
    · -- readstr
      unfold builtin_readstr at h ⊢
      obtain ⟨_, s3, h3, h4⟩ := Res.bind_eq_ok h
      rw [builtin_readstr_loop_sim hev _ _ _ _ hs h3]
      simp only [Res.bind_ok, Res.ok.injEq] at h4 ⊢
      obtain ⟨rfl, rfl⟩ := h4
      simp only [name_slot_putchar, name_slot_stdin, true_and]
      rfl
    · -- panic
      unfold builtin_panic at h
      obtain ⟨_, s3, _, h4⟩ := Res.bind_eq_ok h
      simp at h4
  · simp at h

omit [DoubleOps D] in
theorem eval_expr_id_sim {idx : Nat} {name : String} (x : String)
    (s s1 : State D) (v : value_t D) (hs : Fresh idx name s)
    (h : eval_expr_id x s = .ok v s1) :
    eval_expr_id x (name_slot idx name s) = .ok v (name_slot idx name s1) := by
  unfold eval_expr_id at h ⊢
  split at h
  · simp at h
  · rename_i i var hg
    simp only [Res.ok.injEq] at h
    obtain ⟨rfl, rfl⟩ := h
    simp only [name_slot_vars, env_get_var_name_slot hs hg]

end
section
variable {D : Type} [DoubleOps D]

theorem eval_expr_bin_op_sim {idx : Nat} {name : String} {ev : Ev D}
    (hev : EvSim idx name ev) (op : bin_op_type_t) (l r : expr_t D)
    (s s1 : State D) (v : value_t D) (hs : Fresh idx name s)
    (h : eval_expr_bin_op ev op l r s = .ok v s1) :
    eval_expr_bin_op ev op l r (name_slot idx name s) = .ok v (name_slot idx name s1) := by
  cases op <;>
    simp only [eval_expr_bin_op, eval_expr_bin_op_equals, eval_expr_bin_op_not_equals,
      eval_expr_bin_op_greater, eval_expr_bin_op_greater_equ, eval_expr_bin_op_less,
      eval_expr_bin_op_less_equ, eval_expr_bin_op_assign, eval_expr_bin_op_inc,
      eval_expr_bin_op_dec, eval_expr_bin_op_xinc, eval_expr_bin_op_xdec,
      eval_expr_bin_op_add, eval_expr_bin_op_sub, eval_expr_bin_op_mul, eval_expr_bin_op_div,
      eval_expr_bin_op_pow] at h ⊢
  case BIN_OP_NOT_EQUALS =>
    obtain ⟨val, t3, h0, h⟩ := Res.bind_eq_ok h
    obtain ⟨a, t1, h1, h0⟩ := Res.bind_eq_ok h0
    obtain ⟨b, t2, h2, h0⟩ := Res.bind_eq_ok h0
    obtain ⟨hs1, h1'⟩ := hev _ _ _ _ hs h1
    obtain ⟨_, h2'⟩ := hev _ _ _ _ hs1 h2
    simp only [h1', h2', Res.bind_ok]
    split at h0
    · simp at h0
    · rename_i ht
      rw [if_neg ht]
      split at h0 <;> simp only [Res.ok.injEq, reduceCtorEq] at h0 <;>
        obtain ⟨rfl, rfl⟩ := h0 <;> simp only [Res.bind_ok, Res.ok.injEq] at h ⊢ <;>
        obtain ⟨rfl, rfl⟩ := h <;> exact ⟨rfl, rfl⟩
  case BIN_OP_ASSIGN | BIN_OP_INC | BIN_OP_DEC | BIN_OP_XINC | BIN_OP_XDEC =>
    split at h
    · obtain ⟨val, t1, h1, h⟩ := Res.bind_eq_ok h
      obtain ⟨hs1, h1'⟩ := hev _ _ _ _ hs h1
      simp only [h1', Res.bind_ok, name_slot_vars]
      split at h
      · simp at h
      · rename_i i var hg
        rw [env_get_var_name_slot hs1 hg]
        simp only
        split at h
        · simp at h
        · rename_i ht
          rw [if_neg ht]
          first
            | (simp only [Res.ok.injEq] at h ⊢
               obtain ⟨rfl, rfl⟩ := h
               exact ⟨rfl, name_slot_set_val _ _ _ _ _⟩)
            | (split at h
               · first
                   | (simp only [Res.ok.injEq] at h ⊢
                      obtain ⟨rfl, rfl⟩ := h
                      exact ⟨rfl, name_slot_set_val _ _ _ _ _⟩)
                   | (split at h
                      · simp at h
                      · rename_i hz
                        rw [if_neg hz]
                        simp only [Res.ok.injEq] at h ⊢
                        obtain ⟨rfl, rfl⟩ := h
                        exact ⟨rfl, name_slot_set_val _ _ _ _ _⟩)
               · simp at h)
    · simp at h
  all_goals
    obtain ⟨a, t1, h1, h⟩ := Res.bind_eq_ok h
    obtain ⟨b, t2, h2, h⟩ := Res.bind_eq_ok h
    obtain ⟨hs1, h1'⟩ := hev _ _ _ _ hs h1
    obtain ⟨_, h2'⟩ := hev _ _ _ _ hs1 h2
    simp only [h1', h2', Res.bind_ok]
    repeat' split at h
    all_goals first
      | simp only [reduceCtorEq] at h
      | (simp only [Res.ok.injEq] at h
         obtain ⟨rfl, rfl⟩ := h
         simp_all)

end

section
variable {D : Type} [DoubleOps D]

theorem eval_expr_shape (fuel : Nat) (e : expr_t D) (s s1 : State D) (v : value_t D)
    (h : eval_expr fuel e s = .ok v s1) : ShapeStable s s1 := by
  have := eval_expr_all (R := ShapeStable) (E := fun _ => True) shapeStable_exprStable
    (fun _ _ => trivial) fuel e s
  rw [h] at this
  exact this

/-- A successful evaluation of an expression runs the same way, to the same
value, after a free slot has been given an undeclared name. -/
theorem eval_expr_sim (idx : Nat) (name : String) (fuel : Nat) :
    EvSim idx name (eval_expr fuel : Ev D) := by
  induction fuel with
  | zero => intro e s v s1 _ h; simp [eval_expr] at h
  | succ n ih =>
    intro e s v s1 hs h
    refine ⟨fresh_of_shape (eval_expr_shape _ _ _ _ _ h) hs, ?_⟩
    cases e with
    | call w fn args => exact eval_expr_call_sim ih w fn args s s1 v hs h
    | id x => exact eval_expr_id_sim x s s1 v hs h
    | val u =>
      simp only [eval_expr, eval_expr_value, Res.ok.injEq] at h ⊢
      obtain ⟨rfl, rfl⟩ := h
      exact ⟨rfl, rfl⟩
    | bin_op op l r => exact eval_expr_bin_op_sim ih op l r s s1 v hs h

end
/-! ## The claims -/

section
variable {D : Type} [DoubleOps D]

omit [DoubleOps D] in
theorem var_value_eq_some {s : State D} {x : String} {old : value_t D}
    (h : var_value s x = some old) : ∃ i var, env_get_var s.vars x = some (i, var) ∧ var.val = old := by
  unfold var_value at h
  simp only [Option.map_eq_some'] at h
  obtain ⟨⟨i, var⟩, h1, h2⟩ := h
  exact ⟨i, var, h1, h2⟩

/-- C2: for each of `=`, `++`, `--`, `**`, `//` applied to a declared variable
`x` and a right-hand side `e`: when `e` evaluates to a value `v` whose type tag
differs from the tag of the value `old` that `x` holds at that point, the
operation fails with TypeMismatch, and the state at the failure is the state
`s1` reached by evaluating `e`, in which `x` still holds `old`. -/
theorem C2_assignment_type_mismatch (fuel : Nat) (op : bin_op_type_t) (x : String)
    (e : expr_t D) (s s1 : State D) (v old : value_t D)
    (hop : op = .BIN_OP_ASSIGN ∨ op = .BIN_OP_INC ∨ op = .BIN_OP_DEC ∨ op = .BIN_OP_XINC ∨
      op = .BIN_OP_XDEC)
    (he : eval_expr fuel e s = .ok v s1) (hx : var_value s1 x = some old)
    (ht : v.type ≠ old.type) :
    eval_expr (fuel + 1) (.bin_op op (.id x) e) s = .fail (.TypeMismatch v.type) s1 ∧
      var_value s1 x = some old := by
  obtain ⟨i, var, hg, rfl⟩ := var_value_eq_some hx
  refine ⟨?_, hx⟩
  rcases hop with rfl | rfl | rfl | rfl | rfl <;>
    simp [eval_expr, eval_expr_bin_op, eval_expr_bin_op_assign, eval_expr_bin_op_inc,
      eval_expr_bin_op_dec, eval_expr_bin_op_xinc, eval_expr_bin_op_xdec, he, hg, ht]

end

section
variable {D : Type} [DoubleOps D]

omit [DoubleOps D] in
theorem var_value_set_val_self {s : State D} {x : String} {i : Nat} {var : var_t D}
    (hg : env_get_var s.vars x = some (i, var)) (v : value_t D) :
    var_value { s with vars := set_val s.vars i v } x = some v := by
  simp [var_value, env_get_var_set_val, hg]

omit [DoubleOps D] in
theorem var_value_set_val_other {s : State D} {x : String} {i : Nat} {var : var_t D}
    (hg : env_get_var s.vars x = some (i, var)) (v : value_t D) {y : String} (hy : y ≠ x) :
    var_value { s with vars := set_val s.vars i v } y = var_value s y := by
  simp only [var_value, env_get_var_set_val]
  cases hgy : env_get_var s.vars y with
  | none => rfl
  | some p =>
    obtain ⟨j, u⟩ := p
    have hj : j ≠ i := by
      rintro rfl
      have h1 := env_get_var_some hg
      have h2 := env_get_var_some hgy
      rw [h1.1] at h2
      simp only [Option.some.injEq] at h2
      obtain ⟨rfl, h3⟩ := h2
      rw [h1.2] at h3
      simp only [Option.some.injEq] at h3
      exact hy h3.symm
    simp [hj]

/-- C3: let the right-hand side `e` evaluate to `v`, reaching state `s1` in
which the declared variable `x` holds `old`. If the tags of `v` and `old` agree,
`x = e` returns `v` and leaves `x = v`. If `old` is the number `a` and `v` the
number `b`, then `x ++ e`, `x -- e`, `x ** e` return `v` and leave `x` at
`a + b`, `a - b`, `a * b`, and so does `x // e` with `a / b` when `b` is not
zero. In all five cases every other variable and the three streams are as in
`s1`. -/
theorem C3_assignment_result_and_update (fuel : Nat) (x : String) (e : expr_t D)
    (s s1 : State D) (v old : value_t D)
    (he : eval_expr fuel e s = .ok v s1) (hx : var_value s1 x = some old) :
    (v.type = old.type →
      ∃ s2, eval_expr (fuel + 1) (.bin_op .BIN_OP_ASSIGN (.id x) e) s = .ok v s2 ∧
        var_value s2 x = some v ∧ (∀ y, y ≠ x → var_value s2 y = var_value s1 y) ∧
        s2.stdout = s1.stdout ∧ s2.stderr = s1.stderr ∧ s2.stdin = s1.stdin) ∧
    (∀ a b, old = .num a → v = .num b →
      (∃ s2, eval_expr (fuel + 1) (.bin_op .BIN_OP_INC (.id x) e) s = .ok v s2 ∧
        var_value s2 x = some (.num (DoubleOps.add a b)) ∧
        (∀ y, y ≠ x → var_value s2 y = var_value s1 y) ∧
        s2.stdout = s1.stdout ∧ s2.stderr = s1.stderr ∧ s2.stdin = s1.stdin) ∧
      (∃ s2, eval_expr (fuel + 1) (.bin_op .BIN_OP_DEC (.id x) e) s = .ok v s2 ∧
        var_value s2 x = some (.num (DoubleOps.sub a b)) ∧
        (∀ y, y ≠ x → var_value s2 y = var_value s1 y) ∧
        s2.stdout = s1.stdout ∧ s2.stderr = s1.stderr ∧ s2.stdin = s1.stdin) ∧
      (∃ s2, eval_expr (fuel + 1) (.bin_op .BIN_OP_XINC (.id x) e) s = .ok v s2 ∧
        var_value s2 x = some (.num (DoubleOps.mul a b)) ∧
        (∀ y, y ≠ x → var_value s2 y = var_value s1 y) ∧
        s2.stdout = s1.stdout ∧ s2.stderr = s1.stderr ∧ s2.stdin = s1.stdin) ∧
      (DoubleOps.eq b DoubleOps.zero = false →
        ∃ s2, eval_expr (fuel + 1) (.bin_op .BIN_OP_XDEC (.id x) e) s = .ok v s2 ∧
          var_value s2 x = some (.num (DoubleOps.div a b)) ∧
          (∀ y, y ≠ x → var_value s2 y = var_value s1 y) ∧
          s2.stdout = s1.stdout ∧ s2.stderr = s1.stderr ∧ s2.stdin = s1.stdin)) := by
  obtain ⟨i, var, hg, rfl⟩ := var_value_eq_some hx
  refine ⟨fun ht => ?_, fun a b ha hb => ⟨?_, ?_, ?_, fun hz => ?_⟩⟩
  · refine ⟨{ s1 with vars := set_val s1.vars i v }, ?_, var_value_set_val_self hg v,
      fun y hy => var_value_set_val_other hg v hy, rfl, rfl, rfl⟩
    simp [eval_expr, eval_expr_bin_op, eval_expr_bin_op_assign, he, hg, ht]
  · subst hb
    refine ⟨{ s1 with vars := set_val s1.vars i (.num (DoubleOps.add a b)) }, ?_,
      var_value_set_val_self hg _, fun y hy => var_value_set_val_other hg _ hy, rfl, rfl, rfl⟩
    simp [eval_expr, eval_expr_bin_op, eval_expr_bin_op_inc, he, hg, ha, value_t.type]
  · subst hb
    refine ⟨{ s1 with vars := set_val s1.vars i (.num (DoubleOps.sub a b)) }, ?_,
      var_value_set_val_self hg _, fun y hy => var_value_set_val_other hg _ hy, rfl, rfl, rfl⟩
    simp [eval_expr, eval_expr_bin_op, eval_expr_bin_op_dec, he, hg, ha, value_t.type]
  · subst hb
    refine ⟨{ s1 with vars := set_val s1.vars i (.num (DoubleOps.mul a b)) }, ?_,
      var_value_set_val_self hg _, fun y hy => var_value_set_val_other hg _ hy, rfl, rfl, rfl⟩
    simp [eval_expr, eval_expr_bin_op, eval_expr_bin_op_xinc, he, hg, ha, value_t.type]
  · subst hb
    refine ⟨{ s1 with vars := set_val s1.vars i (.num (DoubleOps.div a b)) }, ?_,
      var_value_set_val_self hg _, fun y hy => var_value_set_val_other hg _ hy, rfl, rfl, rfl⟩
    simp [eval_expr, eval_expr_bin_op, eval_expr_bin_op_xdec, he, hg, ha, hz, value_t.type]

/-- C7: let the operands evaluate to `x` and `y`. When both are numbers, both
booleans or both texts, `==` returns the boolean of the numeric, boolean or
byte-wise equality and `!=` returns its negation; when the tags differ or the
left operand is Nil, both fail with TypeMismatch in the same state; and `!=`
fails exactly when `==` fails, with the same error and state. -/
theorem C7_equality_and_inequality (fuel : Nat) (l r : expr_t D) (s s1 s2 : State D)
    (x y : value_t D) (hl : eval_expr fuel l s = .ok x s1)
    (hr : eval_expr fuel r s1 = .ok y s2) :
    (∀ a b, x = .num a → y = .num b →
      eval_expr (fuel + 1) (.bin_op .BIN_OP_EQUALS l r) s = .ok (.bool_ (DoubleOps.eq a b)) s2 ∧
      eval_expr (fuel + 1) (.bin_op .BIN_OP_NOT_EQUALS l r) s =
        .ok (.bool_ (!DoubleOps.eq a b)) s2) ∧
    (∀ a b, x = .bool_ a → y = .bool_ b →
      eval_expr (fuel + 1) (.bin_op .BIN_OP_EQUALS l r) s = .ok (.bool_ (decide (a = b))) s2 ∧
      eval_expr (fuel + 1) (.bin_op .BIN_OP_NOT_EQUALS l r) s =
        .ok (.bool_ (!decide (a = b))) s2) ∧
    (∀ a b, x = .str a → y = .str b →
      eval_expr (fuel + 1) (.bin_op .BIN_OP_EQUALS l r) s = .ok (.bool_ (decide (a = b))) s2 ∧
      eval_expr (fuel + 1) (.bin_op .BIN_OP_NOT_EQUALS l r) s =
        .ok (.bool_ (!decide (a = b))) s2) ∧
    (x.type ≠ y.type ∨ x = .nil →
      eval_expr (fuel + 1) (.bin_op .BIN_OP_EQUALS l r) s = .fail (.TypeMismatch x.type) s2 ∧
      eval_expr (fuel + 1) (.bin_op .BIN_OP_NOT_EQUALS l r) s =
        .fail (.TypeMismatch x.type) s2) ∧
    (∀ err sf, eval_expr (fuel + 1) (.bin_op .BIN_OP_NOT_EQUALS l r) s = .fail err sf ↔
      eval_expr (fuel + 1) (.bin_op .BIN_OP_EQUALS l r) s = .fail err sf) := by
  refine ⟨?_, ?_, ?_, ?_, ?_⟩
  · rintro a b rfl rfl
    simp [eval_expr, eval_expr_bin_op, eval_expr_bin_op_equals, eval_expr_bin_op_not_equals,
      hl, hr, value_t.type]
  · rintro a b rfl rfl
    simp only [eval_expr, eval_expr_bin_op, eval_expr_bin_op_equals,
      eval_expr_bin_op_not_equals, hl, hr, Res.bind_ok, value_t.type, ne_eq, not_true_eq_false,
      if_false]
    exact ⟨rfl, rfl⟩
  · rintro a b rfl rfl
    simp only [eval_expr, eval_expr_bin_op, eval_expr_bin_op_equals,
      eval_expr_bin_op_not_equals, hl, hr, Res.bind_ok, value_t.type, ne_eq, not_true_eq_false,
      if_false]
    exact ⟨rfl, rfl⟩
  · intro h
    simp only [eval_expr, eval_expr_bin_op, eval_expr_bin_op_equals,
      eval_expr_bin_op_not_equals, hl, hr, Res.bind_ok]
    cases x <;> cases y <;> simp_all [value_t.type]
  · intro err sf
    simp only [eval_expr, eval_expr_bin_op, eval_expr_bin_op_not_equals]
    cases eval_expr_bin_op_equals (eval_expr fuel) l r s with
    | ok v s' => cases v <;> simp
    | fail e s' => simp
    | out_of_fuel => simp

end

section
variable {D : Type} [DoubleOps D]

/-- C8: let the operands of `/` evaluate to `x` and `y`: a Num `x` divided by a
Num `y` that equals zero fails with DivisionByZero; with a Num `y` that is not
zero `/` does not fail with DivisionByZero; and a non-Num `x`, or a non-Num `y`
under a Num `x`, is a TypeMismatch, whether or not `y` is zero. Let the
right-hand side of `x // e` evaluate to `v` in a state `s1` where the variable
holds `old`: a Num `old` and a zero Num `v` fail with DivisionByZero in `s1`
(the variable is unchanged); a Num `v` that is not zero never fails with
DivisionByZero; and a tag of `v` different from the tag of `old`, or a non-Num
`v`, is a TypeMismatch, whether or not `v` is zero. -/
theorem C8_division_by_zero (fuel : Nat) (l r : expr_t D) (s s1 s2 : State D)
    (x y : value_t D) (hl : eval_expr fuel l s = .ok x s1)
    (hr : eval_expr fuel r s1 = .ok y s2)
    (name : String) (e : expr_t D) (t t1 : State D) (v old : value_t D)
    (he : eval_expr fuel e t = .ok v t1) (hx : var_value t1 name = some old) :
    ((∀ a b, x = .num a → y = .num b → DoubleOps.eq b DoubleOps.zero = true →
        eval_expr (fuel + 1) (.bin_op .BIN_OP_DIV l r) s = .fail .DivisionByZero s2) ∧
      (∀ b, y = .num b → DoubleOps.eq b DoubleOps.zero = false →
        ∀ sf, eval_expr (fuel + 1) (.bin_op .BIN_OP_DIV l r) s ≠ .fail .DivisionByZero sf) ∧
      (x.type ≠ .VALUE_TYPE_NUM →
        eval_expr (fuel + 1) (.bin_op .BIN_OP_DIV l r) s = .fail (.TypeMismatch x.type) s2) ∧
      (x.type = .VALUE_TYPE_NUM → y.type ≠ .VALUE_TYPE_NUM →
        eval_expr (fuel + 1) (.bin_op .BIN_OP_DIV l r) s = .fail (.TypeMismatch y.type) s2)) ∧
    ((∀ a b, old = .num a → v = .num b → DoubleOps.eq b DoubleOps.zero = true →
        eval_expr (fuel + 1) (.bin_op .BIN_OP_XDEC (.id name) e) t = .fail .DivisionByZero t1 ∧
        var_value t1 name = some (.num a)) ∧
      (∀ b, v = .num b → DoubleOps.eq b DoubleOps.zero = false →
        ∀ sf, eval_expr (fuel + 1) (.bin_op .BIN_OP_XDEC (.id name) e) t ≠
          .fail .DivisionByZero sf) ∧
      (v.type ≠ old.type ∨ v.type ≠ .VALUE_TYPE_NUM →
        eval_expr (fuel + 1) (.bin_op .BIN_OP_XDEC (.id name) e) t =
          .fail (.TypeMismatch v.type) t1)) := by
  obtain ⟨i, var, hg, rfl⟩ := var_value_eq_some hx
  refine ⟨⟨?_, ?_, ?_, ?_⟩, ?_, ?_, ?_⟩
  · rintro a b rfl rfl hz
    simp [eval_expr, eval_expr_bin_op, eval_expr_bin_op_div, hl, hr, hz]
  · rintro b rfl hz sf
    simp only [eval_expr, eval_expr_bin_op, eval_expr_bin_op_div, hl, hr, Res.bind_ok]
    cases x <;> simp [hz]
  · intro hxt
    simp only [eval_expr, eval_expr_bin_op, eval_expr_bin_op_div, hl, hr, Res.bind_ok]
    cases x <;> simp_all [value_t.type]
  · intro hxt hyt
    simp only [eval_expr, eval_expr_bin_op, eval_expr_bin_op_div, hl, hr, Res.bind_ok]
    cases x <;> cases y <;> simp_all [value_t.type]
  · rintro a b ha rfl hz
    refine ⟨?_, by rw [← ha]; exact hx⟩
    simp [eval_expr, eval_expr_bin_op, eval_expr_bin_op_xdec, he, hg, ha, hz, value_t.type]
  · rintro b rfl hz sf
    simp only [eval_expr, eval_expr_bin_op, eval_expr_bin_op_xdec, he, hg, Res.bind_ok]
    split
    · simp
    · split <;> simp_all
  · intro h
    simp only [eval_expr, eval_expr_bin_op, eval_expr_bin_op_xdec, he, hg, Res.bind_ok]
    split
    · rfl
    · rename_i h1
      have h2 : v.type ≠ .VALUE_TYPE_NUM := by
        rcases h with h | h
        · exact absurd (not_not.mp h1) h
        · exact h
      split
      · simp [value_t.type] at h2
      · rfl

/-- C9: let the operands evaluate to `x` and `y`. If one of them is not Num,
each of `+ - * / ^ > >= < <=` fails with TypeMismatch. If they are the numbers
`a` and `b`, then `+ - * ^` return the Num computed by the operation, `/`
returns the Num quotient or fails with DivisionByZero when `b` equals zero, and
`> >= < <=` return the Bool of the comparison of `a` with `b`. -/
theorem C9_strict_num_typing (fuel : Nat) (l r : expr_t D) (s s1 s2 : State D)
    (x y : value_t D) (hl : eval_expr fuel l s = .ok x s1)
    (hr : eval_expr fuel r s1 = .ok y s2) :
    (x.type ≠ .VALUE_TYPE_NUM ∨ y.type ≠ .VALUE_TYPE_NUM →
      ∀ op, op = .BIN_OP_ADD ∨ op = .BIN_OP_SUB ∨ op = .BIN_OP_MUL ∨ op = .BIN_OP_DIV ∨
        op = .BIN_OP_POW ∨ op = .BIN_OP_GREATER ∨ op = .BIN_OP_GREATER_EQU ∨
        op = .BIN_OP_LESS ∨ op = .BIN_OP_LESS_EQU →
      ∃ tag, eval_expr (fuel + 1) (.bin_op op l r) s = .fail (.TypeMismatch tag) s2) ∧
    (∀ a b, x = .num a → y = .num b →
      eval_expr (fuel + 1) (.bin_op .BIN_OP_ADD l r) s = .ok (.num (DoubleOps.add a b)) s2 ∧
      eval_expr (fuel + 1) (.bin_op .BIN_OP_SUB l r) s = .ok (.num (DoubleOps.sub a b)) s2 ∧
      eval_expr (fuel + 1) (.bin_op .BIN_OP_MUL l r) s = .ok (.num (DoubleOps.mul a b)) s2 ∧
      eval_expr (fuel + 1) (.bin_op .BIN_OP_DIV l r) s =
        (if DoubleOps.eq b DoubleOps.zero then .fail .DivisionByZero s2
         else .ok (.num (DoubleOps.div a b)) s2) ∧
      eval_expr (fuel + 1) (.bin_op .BIN_OP_POW l r) s = .ok (.num (DoubleOps.pow a b)) s2 ∧
      eval_expr (fuel + 1) (.bin_op .BIN_OP_GREATER l r) s =
        .ok (.bool_ (DoubleOps.gt a b)) s2 ∧
      eval_expr (fuel + 1) (.bin_op .BIN_OP_GREATER_EQU l r) s =
        .ok (.bool_ (DoubleOps.ge a b)) s2 ∧
      eval_expr (fuel + 1) (.bin_op .BIN_OP_LESS l r) s = .ok (.bool_ (DoubleOps.lt a b)) s2 ∧
      eval_expr (fuel + 1) (.bin_op .BIN_OP_LESS_EQU l r) s =
        .ok (.bool_ (DoubleOps.le a b)) s2) := by
  refine ⟨?_, ?_⟩
  · intro h op hop
    rcases hop with rfl | rfl | rfl | rfl | rfl | rfl | rfl | rfl | rfl <;>
      simp only [eval_expr, eval_expr_bin_op, eval_expr_bin_op_add, eval_expr_bin_op_sub,
        eval_expr_bin_op_mul, eval_expr_bin_op_div, eval_expr_bin_op_pow,
        eval_expr_bin_op_greater, eval_expr_bin_op_greater_equ, eval_expr_bin_op_less,
        eval_expr_bin_op_less_equ, hl, hr, Res.bind_ok] <;>
      cases x <;> cases y <;> simp_all [value_t.type]
  · rintro a b rfl rfl
    simp [eval_expr, eval_expr_bin_op, eval_expr_bin_op_add, eval_expr_bin_op_sub,
      eval_expr_bin_op_mul, eval_expr_bin_op_div, eval_expr_bin_op_pow,
      eval_expr_bin_op_greater, eval_expr_bin_op_greater_equ, eval_expr_bin_op_less,
      eval_expr_bin_op_less_equ, hl, hr, value_t.type]

/-- C10: let the left operand evaluate first, reaching `s1`, and then the right
operand, reaching `s2`. Whenever the binary operation, of any kind, then fails
with TypeMismatch, the state at the failure is `s2`: everything both operands
wrote and assigned is present, with the effects of the left operand before those of
the right one. -/
theorem C10_no_rollback_on_type_error (fuel : Nat) (op : bin_op_type_t) (l r : expr_t D)
    (s s1 s2 sf : State D) (vl vr : value_t D) (tag : value_type_t)
    (hl : eval_expr fuel l s = .ok vl s1) (hr : eval_expr fuel r s1 = .ok vr s2)
    (hfail : eval_expr (fuel + 1) (.bin_op op l r) s = .fail (.TypeMismatch tag) sf) :
    sf = s2 := by
  have hid : ∀ name, l = .id name → s1 = s := by
    rintro name rfl
    cases fuel with
    | zero => simp [eval_expr] at hl
    | succ n =>
      simp only [eval_expr, eval_expr_id] at hl
      split at hl <;> simp at hl
      exact hl.2.symm
  cases op <;>
    simp only [eval_expr, eval_expr_bin_op, eval_expr_bin_op_equals,
      eval_expr_bin_op_not_equals, eval_expr_bin_op_greater, eval_expr_bin_op_greater_equ,
      eval_expr_bin_op_less, eval_expr_bin_op_less_equ, eval_expr_bin_op_add,
      eval_expr_bin_op_sub, eval_expr_bin_op_mul, eval_expr_bin_op_div, eval_expr_bin_op_pow,
      eval_expr_bin_op_assign, eval_expr_bin_op_inc, eval_expr_bin_op_dec,
      eval_expr_bin_op_xinc, eval_expr_bin_op_xdec, hl, hr, Res.bind_ok] at hfail
  case BIN_OP_ASSIGN | BIN_OP_INC | BIN_OP_DEC | BIN_OP_XINC | BIN_OP_XDEC =>
    split at hfail
    · rename_i name
      rw [hid name rfl] at hr
      simp only [hr, Res.bind_ok] at hfail
      repeat' split at hfail
      all_goals simp_all
    · simp at hfail
  all_goals
    repeat' split at hfail
    all_goals simp_all

end

section
variable {D : Type}

theorem var_value_eq_none {s : State D} {x : String} :
    var_value s x = none ↔ x ∉ env_names s.vars := by
  simp [var_value, env_get_var_eq_none]

theorem var_value_isSome {s : State D} {x : String} {v : value_t D}
    (h : var_value s x = some v) : x ∈ env_names s.vars := by
  by_contra hx
  rw [var_value_eq_none.mpr hx] at h
  cases h

theorem env_names_length_le (vars : List (var_t D)) :
    (env_names vars).length ≤ vars.length := by
  simpa [env_names] using List.length_filterMap_le (fun v : var_t D => v.name) vars

theorem first_free_eq_none_iff_length (vars : List (var_t D)) :
    first_free vars = none ↔ (env_names vars).length = vars.length := by
  induction vars with
  | nil => simp [first_free, env_names]
  | cons w ws ih =>
    unfold first_free
    have hle := env_names_length_le ws
    cases hn : w.name with
    | none =>
      simp only [env_names, List.filterMap_cons, hn, List.length_cons, reduceCtorEq, false_iff]
      simp only [env_names] at hle
      omega
    | some n =>
      simp only [env_names, List.filterMap_cons, hn, List.length_cons, Option.map_eq_none',
        add_left_inj]
      exact ih

end

section
variable {D : Type} [DoubleOps D]

theorem eval_cons_let (fuel : Nat) (name : String) (val : expr_t D) (next : List (stmt_t D))
    (s : State D) :
    eval (fuel + 1) (.let_ name val :: next) s =
      (eval_stmt_let (eval_expr fuel) name val s).bind fun _ s1 => eval fuel next s1 := by
  simp only [eval]

theorem eval_nil (fuel : Nat) (s : State D) : eval fuel ([] : List (stmt_t D)) s = .ok () s := by
  cases fuel <;> simp only [eval]

/-- C5: in every state in which the variable `name` is declared (whether or
not the table has a free slot), `let name = init;` fails with
RedeclaredVariable, in the unchanged state, so `name` keeps its value; and
when the names held by the table are pairwise distinct before a statement
sequence that completes, they are pairwise distinct after it. -/
theorem C5_declare_once (fuel : Nat) (name : String) (init : expr_t D)
    (next : List (stmt_t D)) (s : State D) (v : value_t D)
    (hdecl : var_value s name = some v) :
    eval (fuel + 1) (.let_ name init :: next) s = .fail (.RedeclaredVariable name) s ∧
      (∀ (fuel' : Nat) (prog : List (stmt_t D)) (t t' : State D),
        (env_names t.vars).Nodup → eval fuel' prog t = .ok () t' →
          (env_names t'.vars).Nodup) := by
  refine ⟨?_, ?_⟩
  · rw [eval_cons_let]
    simp only [eval_stmt_let_eq, var_value_isSome hdecl, if_true, Res.bind_fail]
  · intro fuel' prog t t' hnd h
    have hall := eval_all (R := NamesStable) namesStable_stmtStable fuel' prog t
    rw [h] at hall
    exact hall hnd

end

/-- Witness of C5: with the single slot of the table holding `x`, `let x = 1;`
fails with RedeclaredVariable, not with VariableCapacityExceeded. -/
theorem C5_declare_once_witness :
    eval 1 [.let_ "x" (.val (.num 1))] state_full =
        .fail (.RedeclaredVariable "x") state_full ∧
      (∀ (fuel' : Nat) (prog : List (stmt_t Int)) (t t' : State Int),
        (env_names t.vars).Nodup → eval fuel' prog t = .ok () t' →
          (env_names t'.vars).Nodup) :=
  C5_declare_once 0 "x" (.val (.num 1)) [] state_full (.num 5) (by decide)

section
variable {D : Type}

theorem env_names_append (a b : List (var_t D)) :
    env_names (a ++ b) = env_names a ++ env_names b := by
  simp [env_names]

theorem env_names_replicate_free (m : Nat) (z : value_t D) :
    env_names (List.replicate m ({ name := none, val := z } : var_t D)) = [] := by
  induction m with
  | zero => rfl
  | succ k ih => simp [env_names, List.replicate_succ]

theorem first_free_append_free (occ rest : List (var_t D)) (w : var_t D)
    (hocc : ∀ u ∈ occ, u.name ≠ none) (hw : w.name = none) :
    first_free (occ ++ w :: rest) = some occ.length := by
  induction occ with
  | nil => simp [first_free, hw]
  | cons u us ih =>
    have hu : u.name ≠ none := hocc u (List.mem_cons_self _ _)
    have ih' := ih fun x hx => hocc x (List.mem_cons_of_mem _ hx)
    cases hn : u.name with
    | none => exact absurd hn hu
    | some n => simp [first_free, hn, ih']

theorem modify_append_length (f : var_t D → var_t D) (occ rest : List (var_t D)) (w : var_t D) :
    (occ ++ w :: rest).modify f occ.length = occ ++ f w :: rest := by
  induction occ with
  | nil => simp
  | cons u us ih => simp [ih]

end

section
variable {D : Type} [DoubleOps D]

theorem eval_stmt_let_ok {fuel : Nat} {name : String} {init : expr_t D} {s s1 : State D}
    {v : value_t D} {idx : Nat} (hname : name ∉ env_names s.vars)
    (hidx : first_free s.vars = some idx) (he : eval_expr fuel init s = .ok v s1) :
    Fresh idx name s1 ∧
      eval_stmt_let (eval_expr fuel) name init s =
        .ok () { s1 with vars := set_val (set_name s1.vars idx name) idx v } := by
  have hs : Fresh idx name s := ⟨first_free_some hidx, hname⟩
  obtain ⟨hs1, hsim⟩ := eval_expr_sim idx name fuel init s v s1 hs he
  refine ⟨hs1, ?_⟩
  rw [eval_stmt_let_eq, if_neg hname, hidx]
  simp only
  have : ({ s with vars := set_name s.vars idx name } : State D) = name_slot idx name s := rfl
  rw [this, hsim]
  rfl

theorem eval_lets (lets : List (String × value_t D)) :
    ∀ (occ : List (var_t D)) (m : Nat) (z : value_t D) (out err : String) (inp : List Char)
      (fuel : Nat) (rest : List (stmt_t D)),
      (∀ u ∈ occ, u.name ≠ none) → (lets.map Prod.fst).Nodup →
      (∀ p ∈ lets, p.1 ∉ env_names occ) → lets.length ≤ m → lets.length < fuel →
      eval fuel (lets.map let_literal ++ rest)
          ⟨occ ++ List.replicate m { name := none, val := z }, out, err, inp⟩ =
        eval (fuel - lets.length) rest
          ⟨occ ++ lets.map slot_of ++ List.replicate (m - lets.length) { name := none, val := z },
            out, err, inp⟩ := by
  induction lets with
  | nil => intro occ m z out err inp fuel rest _ _ _ _ _; simp
  | cons p ps ih =>
    intro occ m z out err inp fuel rest hocc hnd hfresh hm hfuel
    obtain ⟨n, v⟩ := p
    cases m with
    | zero => simp at hm
    | succ m' =>
      cases fuel with
      | zero => simp at hfuel
      | succ f =>
        cases f with
        | zero => simp at hfuel
        | succ g =>
          simp only [List.map_cons, List.cons_append, let_literal]
          rw [eval_cons_let]
          have hn : n ∉ env_names (occ ++ List.replicate (m' + 1) { name := none, val := z }) := by
            rw [env_names_append, env_names_replicate_free, List.append_nil]
            exact hfresh (n, v) (List.mem_cons_self _ _)
          have hidx : first_free (occ ++ List.replicate (m' + 1) { name := none, val := z }) =
              some occ.length := by
            rw [List.replicate_succ]
            exact first_free_append_free occ _ _ hocc rfl
          have he : eval_expr (g + 1) (.val v)
              (⟨occ ++ List.replicate (m' + 1) { name := none, val := z }, out, err, inp⟩ :
                State D) = .ok v ⟨occ ++ List.replicate (m' + 1) { name := none, val := z },
                  out, err, inp⟩ := by
            simp [eval_expr, eval_expr_value]
          rw [(eval_stmt_let_ok hn hidx he).2]
          simp only [Res.bind_ok, set_name, set_val, List.replicate_succ, modify_append_length]
          have hocc' : ∀ u ∈ occ ++ [slot_of (n, v)], u.name ≠ none := by
            intro u hu
            rcases List.mem_append.mp hu with hu | hu
            · exact hocc u hu
            · simp only [List.mem_singleton] at hu
              subst hu
              simp [slot_of]
          have hnd' : (ps.map Prod.fst).Nodup := by
            have hnd0 := hnd
            simp only [List.map_cons, List.nodup_cons] at hnd0
            exact hnd0.2
          have hfresh' : ∀ q ∈ ps, q.1 ∉ env_names (occ ++ [slot_of (n, v)]) := by
            intro q hq
            rw [env_names_append]
            simp only [List.mem_append, not_or]
            refine ⟨hfresh q (List.mem_cons_of_mem _ hq), ?_⟩
            simp only [env_names, slot_of, List.filterMap_cons, List.filterMap_nil,
              List.mem_singleton]
            intro hqn
            have hmem : q.1 ∈ ps.map Prod.fst := List.mem_map.mpr ⟨q, hq, rfl⟩
            have hnd0 := hnd
            simp only [List.map_cons, List.nodup_cons] at hnd0
            exact hnd0.1 (hqn ▸ hmem)
          have := ih (occ ++ [slot_of (n, v)]) m' z out err inp (g + 1) rest hocc' hnd' hfresh'
            (by simpa using hm) (by simpa using hfuel)
          simp only [List.append_assoc, List.singleton_append, slot_of] at this
          simp only [List.map_cons, List.length_cons, slot_of, List.append_assoc,
            List.cons_append, Nat.add_sub_add_right]
          exact this

end

section
variable {D : Type} [DoubleOps D]

theorem eval_expr_error_of_expr (fuel : Nat) (e : expr_t D) (s sf : State D) (err : Error)
    (h : eval_expr fuel e s = .fail err sf) : err.of_expr := by
  have := eval_expr_all (R := ShapeStable) (E := Error.of_expr) shapeStable_exprStable
    (fun _ h => h) fuel e s
  rw [h] at this
  exact this.1

/-- C6: let `name` be undeclared in a state whose table has `C` slots. Then
`let name = init;` fails with VariableCapacityExceeded exactly when all `C`
slots hold a name, and then in the unchanged state. When fewer than `C` names
are held and `init` evaluates to `v`, the `let` succeeds, the first free slot
then holds `name` with `v`, and the identifier `name` evaluates to `v`. Hence
from a fresh table of `C` slots, `C` lets of literals with distinct names all
succeed, filling the slots in order, and one more such `let` fails with
VariableCapacityExceeded in the state those `C` lets reached. -/
theorem C6_capacity_bound (fuel : Nat) (name : String) (init : expr_t D) (s : State D)
    (hnew : var_value s name = none) :
    ((∃ sf, eval (fuel + 1) [.let_ name init] s = .fail .VariableCapacityExceeded sf) ↔
        (env_names s.vars).length = s.vars.length) ∧
      ((env_names s.vars).length = s.vars.length →
        eval (fuel + 1) [.let_ name init] s = .fail .VariableCapacityExceeded s) ∧
      (∀ v s1, (env_names s.vars).length < s.vars.length → eval_expr fuel init s = .ok v s1 →
        ∃ idx s2, first_free s.vars = some idx ∧
          eval (fuel + 1) [.let_ name init] s = .ok () s2 ∧
          s2.vars[idx]? = some ⟨some name, v⟩ ∧ var_value s2 name = some v ∧
          ∀ k, eval_expr (k + 1) (.id name) s2 = .ok v s2) ∧
      (∀ (lets : List (String × value_t D)) (last : String × value_t D) (zero : value_t D)
        (out err : String) (inp : List Char) (k : Nat),
        ((lets ++ [last]).map Prod.fst).Nodup →
          eval (lets.length + 1 + k) (lets.map let_literal)
              ⟨env_init lets.length zero, out, err, inp⟩ =
            .ok () ⟨lets.map slot_of, out, err, inp⟩ ∧
          eval (lets.length + 1 + k) ((lets ++ [last]).map let_literal)
              ⟨env_init lets.length zero, out, err, inp⟩ =
            .fail .VariableCapacityExceeded ⟨lets.map slot_of, out, err, inp⟩) := by
  have hname : name ∉ env_names s.vars := var_value_eq_none.mp hnew
  have hfull : (env_names s.vars).length = s.vars.length →
      eval (fuel + 1) [.let_ name init] s = .fail .VariableCapacityExceeded s := by
    intro h
    rw [eval_cons_let, eval_stmt_let_eq, if_neg hname,
      (first_free_eq_none_iff_length s.vars).mpr h]
    rfl
  refine ⟨⟨?_, fun h => ⟨s, hfull h⟩⟩, hfull, ?_, ?_⟩
  · rintro ⟨sf, h⟩
    by_contra hlen
    cases hidx : first_free s.vars with
    | none => exact hlen ((first_free_eq_none_iff_length s.vars).mp hidx)
    | some idx =>
      rw [eval_cons_let, eval_stmt_let_eq, if_neg hname, hidx] at h
      simp only at h
      cases he : eval_expr fuel init { s with vars := set_name s.vars idx name } with
      | ok v s1 => simp [he, eval_nil] at h
      | out_of_fuel => simp [he] at h
      | fail e s1 =>
        simp only [he, Res.bind_fail, Res.fail.injEq] at h
        have := eval_expr_error_of_expr _ _ _ _ _ he
        rw [h.1] at this
        exact this
  · intro v s1 hlt he
    cases hidx : first_free s.vars with
    | none =>
      have := (first_free_eq_none_iff_length s.vars).mp hidx
      omega
    | some idx =>
      obtain ⟨⟨⟨w, hw, hfree⟩, hn1⟩, hlet⟩ := eval_stmt_let_ok hname hidx he
      have hget : env_get_var (set_val (set_name s1.vars idx name) idx v) name =
          some (idx, ⟨some name, v⟩) := by
        rw [env_get_var_set_val, env_get_var_set_name_self hw hn1]
        simp
      refine ⟨idx, { s1 with vars := set_val (set_name s1.vars idx name) idx v }, rfl, ?_, ?_,
        ?_, ?_⟩
      · rw [eval_cons_let, hlet]
        simp [eval_nil]
      · exact (env_get_var_some hget).1
      · simp [var_value, hget]
      · intro k
        simp [eval_expr, eval_expr_id, hget]
  · intro lets last zero out err inp k hnd
    have hnd1 : (lets.map Prod.fst).Nodup := by
      rw [List.map_append] at hnd
      exact (List.nodup_append.mp hnd).1
    have hlast : last.1 ∉ lets.map Prod.fst := by
      rw [List.map_append] at hnd
      intro h
      exact (List.nodup_append.mp hnd).2.2 h (by simp)
    have hrun := fun rest => eval_lets lets [] lets.length zero out err inp (lets.length + 1 + k)
      rest (by simp) hnd1 (by simp [env_names]) (Nat.le_refl _) (by omega)
    simp only [List.nil_append, Nat.sub_self, List.replicate_zero, List.append_nil] at hrun
    have hfuel : lets.length + 1 + k - lets.length = k + 1 := by omega
    refine ⟨?_, ?_⟩
    · have := hrun []
      rw [List.append_nil, eval_nil] at this
      exact this
    · have := hrun [let_literal last]
      rw [List.map_append, List.map_cons, List.map_nil, env_init, this, hfuel, let_literal,
        eval_cons_let, eval_stmt_let_eq]
      have hnot : last.1 ∉ env_names (lets.map slot_of) := by
        intro h
        apply hlast
        simp only [env_names, List.mem_filterMap, List.mem_map] at h ⊢
        obtain ⟨u, ⟨p, hp, rfl⟩, hu⟩ := h
        simp only [slot_of, Option.some.injEq] at hu
        exact ⟨p, hp, hu⟩
      have hnone : first_free (lets.map slot_of) = none :=
        first_free_none.mpr (by
          intro u hu
          obtain ⟨p, _, rfl⟩ := List.mem_map.mp hu
          simp [slot_of])
      simp only [hnot, if_false, hnone, Res.bind_fail]

end

/-- Witness of C6: in a fresh table of two slots, `let a = 1;` fills slot 0 and
`a` evaluates to 1. -/
theorem C6_capacity_bound_witness :
    ∃ idx s2, first_free state_empty.vars = some idx ∧
      eval 2 [.let_ "a" (.val (.num 1))] state_empty = .ok () s2 ∧
      s2.vars[idx]? = some ⟨some "a", .num 1⟩ ∧ var_value s2 "a" = some (.num 1) ∧
      ∀ k, eval_expr (k + 1) (.id "a") s2 = .ok (.num 1) s2 :=
  (C6_capacity_bound 1 "a" (.val (.num 1)) state_empty (by decide)).2.2.1 (.num 1) state_empty
    (by decide) (by decide)

section
variable {D : Type} [DoubleOps D]

/-- C1: whenever running a statement sequence (in particular a single
ExprStmt, Let, If, While or For) from any state completes without error, every
variable that held a value before still holds one afterwards, of the same type
tag. -/
theorem C1_type_tag_fixed_at_declaration (fuel : Nat) (prog : List (stmt_t D))
    (s s' : State D) (h : eval fuel prog s = .ok () s') (x : String) (v : value_t D)
    (hx : var_value s x = some v) :
    ∃ v', var_value s' x = some v' ∧ v'.type = v.type := by
  have hall := eval_all (R := TagStable) tagStable_stmtStable fuel prog s
  rw [h] at hall
  obtain ⟨i, var, hg, rfl⟩ := var_value_eq_some hx
  obtain ⟨var', hg', ht⟩ := hall x i var hg
  exact ⟨var'.val, by simp [var_value, hg'], ht⟩

end

/-- Witness of C1: `x = 7; let y = "a";` run where `x = 5` keeps `x` a Num. -/
theorem C1_type_tag_fixed_at_declaration_witness :
    ∃ v', var_value (⟨[⟨some "x", .num 7⟩, ⟨some "y", .str "a"⟩], "", "", []⟩ : State Int)
        "x" = some v' ∧ v'.type = (value_t.num (5 : Int)).type :=
  C1_type_tag_fixed_at_declaration 3
    [.expr (.bin_op .BIN_OP_ASSIGN (.id "x") (.val (.num 7))), .let_ "y" (.val (.str "a"))]
    state_x5 ⟨[⟨some "x", .num 7⟩, ⟨some "y", .str "a"⟩], "", "", []⟩ (by decide) "x" (.num 5)
    (by decide)

/-- Witness of C2: `x = "a"` where `x = 5` is a TypeMismatch and `x` stays 5. -/
theorem C2_assignment_type_mismatch_witness :
    eval_expr 2 (.bin_op .BIN_OP_ASSIGN (.id "x") (.val (.str "a"))) state_x5 =
        .fail (.TypeMismatch .VALUE_TYPE_STR) state_x5 ∧
      var_value state_x5 "x" = some (.num 5) :=
  C2_assignment_type_mismatch 1 .BIN_OP_ASSIGN "x" (.val (.str "a")) state_x5 state_x5
    (.str "a") (.num 5) (Or.inl rfl) (by decide) (by decide) (by decide)

/-- C4 (the code departs from the claim): from a fresh table, `let x = x;`
does not fail with UndefinedVariable: the slot is named before the initializer
is evaluated, so the run succeeds and `x` holds the zeroed value of its slot. -/
theorem C4_let_sees_its_own_name :
    eval 2 [.let_ "x" (.id "x")] state_empty =
      .ok () ⟨[⟨some "x", .nil⟩, ⟨none, .nil⟩], "", "", []⟩ := by
  decide

/-- Witness of C3: `let x = 5; x ++ 3;` leaves `x = 8`, and where `x = 5` the
expression `x ++ 3` has the value 3 and leaves `x = 5 + 3`. -/
theorem C3_assignment_result_and_update_witness :
    eval 4 [.let_ "x" (.val (.num 5)), .expr (.bin_op .BIN_OP_INC (.id "x") (.val (.num 3)))]
        state_empty = .ok () ⟨[⟨some "x", .num 8⟩, ⟨none, .nil⟩], "", "", []⟩ ∧
      ∃ s2, eval_expr 2 (.bin_op .BIN_OP_INC (.id "x") (.val (.num 3))) state_x5 =
          .ok (.num 3) s2 ∧
        var_value s2 "x" = some (.num (DoubleOps.add (5 : Int) 3)) ∧
        (∀ y, y ≠ "x" → var_value s2 y = var_value state_x5 y) ∧
        s2.stdout = state_x5.stdout ∧ s2.stderr = state_x5.stderr ∧
        s2.stdin = state_x5.stdin :=
  ⟨by decide,
    ((C3_assignment_result_and_update 1 "x" (.val (.num 3)) state_x5 state_x5 (.num 3) (.num 5)
      (by decide) (by decide)).2 5 3 rfl rfl).1⟩

/-- Witness of C7: `1 == 1` is true and `1 != 1` is false. -/
theorem C7_equality_and_inequality_witness :
    eval_expr 2 (.bin_op .BIN_OP_EQUALS (.val (.num 1)) (.val (.num 1))) state_x5 =
        .ok (.bool_ (DoubleOps.eq (1 : Int) 1)) state_x5 ∧
      eval_expr 2 (.bin_op .BIN_OP_NOT_EQUALS (.val (.num 1)) (.val (.num 1))) state_x5 =
        .ok (.bool_ (!DoubleOps.eq (1 : Int) 1)) state_x5 :=
  (C7_equality_and_inequality 1 (.val (.num 1)) (.val (.num 1)) state_x5 state_x5 state_x5
    (.num 1) (.num 1) (by decide) (by decide)).1 1 1 rfl rfl

/-- Witness of C8: `1 / 0` fails with DivisionByZero. -/
theorem C8_division_by_zero_witness :
    eval_expr 2 (.bin_op .BIN_OP_DIV (.val (.num 1)) (.val (.num 0))) state_x5 =
      .fail .DivisionByZero state_x5 :=
  (C8_division_by_zero 1 (.val (.num 1)) (.val (.num 0)) state_x5 state_x5 state_x5 (.num 1)
    (.num 0) (by decide) (by decide) "x" (.val (.num 0)) state_x5 state_x5 (.num 0) (.num 5)
    (by decide) (by decide)).1.1 1 0 rfl rfl (by decide)

/-- Witness of C9: `1 + true` fails with TypeMismatch. -/
theorem C9_strict_num_typing_witness :
    ∃ tag, eval_expr 2 (.bin_op .BIN_OP_ADD (.val (.num 1)) (.val (.bool_ true))) state_x5 =
      .fail (.TypeMismatch tag) state_x5 :=
  (C9_strict_num_typing 1 (.val (.num 1)) (.val (.bool_ true)) state_x5 state_x5 state_x5
    (.num 1) (.bool_ true) (by decide) (by decide)).1 (Or.inr (by decide)) .BIN_OP_ADD
    (Or.inl rfl)

/-- Witness of C10: `print(1) + print(2)` fails with TypeMismatch after "1" and
then "2" have been written. -/
theorem C10_no_rollback_on_type_error_witness :
    eval_expr 3
        (.bin_op .BIN_OP_ADD (.call where_example "print" [.val (.num 1)])
          (.call where_example "print" [.val (.num 2)])) state_x5 =
      .fail (.TypeMismatch .VALUE_TYPE_NIL) { state_x5 with stdout := "12" } ∧
      ({ state_x5 with stdout := "12" } : State Int) = { state_x5 with stdout := "12" } :=
  ⟨by decide,
    C10_no_rollback_on_type_error 2 .BIN_OP_ADD (.call where_example "print" [.val (.num 1)])
      (.call where_example "print" [.val (.num 2)]) state_x5 { state_x5 with stdout := "1" }
      { state_x5 with stdout := "12" } { state_x5 with stdout := "12" } .nil .nil .VALUE_TYPE_NIL
      (by decide) (by decide) (by decide)⟩

section
variable {D : Type} [DoubleOps D]

/-- C14: a call whose name is none of `println`, `print`, `len`, `readnum`,
`readstr`, `panic` (compared exactly) fails with UnknownFunction in the
unchanged state, whatever its arguments are; and a call with one of the six
names is the call of the built-in function of that name. -/
theorem C14_unknown_function (fuel : Nat) (where_ : where_t) (name : String)
    (args : List (expr_t D)) (s : State D) :
    (name ≠ "println" → name ≠ "print" → name ≠ "len" → name ≠ "readnum" →
      name ≠ "readstr" → name ≠ "panic" →
      eval_expr (fuel + 1) (.call where_ name args) s = .fail (.UnknownFunction name) s) ∧
    eval_expr (fuel + 1) (.call where_ "println" args) s =
      builtin_println (eval_expr fuel) args s ∧
    eval_expr (fuel + 1) (.call where_ "print" args) s =
      builtin_print (eval_expr fuel) args s ∧
    eval_expr (fuel + 1) (.call where_ "len" args) s = builtin_len (eval_expr fuel) args s ∧
    eval_expr (fuel + 1) (.call where_ "readnum" args) s =
      builtin_readnum (eval_expr fuel) args s ∧
    eval_expr (fuel + 1) (.call where_ "readstr" args) s =
      builtin_readstr (eval_expr fuel) args s ∧
    eval_expr (fuel + 1) (.call where_ "panic" args) s =
      builtin_panic (eval_expr fuel) where_ args s := by
  refine ⟨?_, rfl, rfl, rfl, rfl, rfl, rfl⟩
  intro h1 h2 h3 h4 h5 h6
  have h1' : ¬ "println" = name := fun h => h1 h.symm
  have h2' : ¬ "print" = name := fun h => h2 h.symm
  have h3' : ¬ "len" = name := fun h => h3 h.symm
  have h4' : ¬ "readnum" = name := fun h => h4 h.symm
  have h5' : ¬ "readstr" = name := fun h => h5 h.symm
  have h6' : ¬ "panic" = name := fun h => h6 h.symm
  simp [eval_expr, eval_expr_call, builtins, List.find?, h1', h2', h3', h4', h5', h6']

/-- C15: a call `len(e)` with exactly one argument, which evaluates to the text
`t`, returns the Num of the number of characters of `t`, in the state the
evaluation of `e` reached. -/
theorem C15_len_counts_characters (fuel : Nat) (where_ : where_t) (e : expr_t D)
    (s s1 : State D) (t : String) (he : eval_expr fuel e s = .ok (.str t) s1) :
    eval_expr (fuel + 1) (.call where_ "len" [e]) s =
      .ok (.num (DoubleOps.of_size t.length)) s1 := by
  show builtin_len (eval_expr fuel) [e] s = _
  simp [builtin_len, he]

/-- C16: a call of `len` with no argument or with two or more arguments fails
with WrongArgCount in the unchanged state; a call with one argument that
evaluates to a value that is not a text fails with TypeMismatch; in both cases
no value is returned. -/
theorem C16_len_argument_validation (fuel : Nat) (where_ : where_t) (args : List (expr_t D))
    (s : State D) :
    (args.length ≠ 1 →
      eval_expr (fuel + 1) (.call where_ "len" args) s =
        .fail (.WrongArgCount args.length 1) s) ∧
    (∀ e v s1, args = [e] → eval_expr fuel e s = .ok v s1 → v.type ≠ .VALUE_TYPE_STR →
      eval_expr (fuel + 1) (.call where_ "len" args) s = .fail (.TypeMismatch v.type) s1) := by
  refine ⟨?_, ?_⟩
  · intro h
    show builtin_len (eval_expr fuel) args s = _
    unfold builtin_len
    split
    · simp at h
    · rfl
  · rintro e v s1 rfl he hv
    show builtin_len (eval_expr fuel) [e] s = _
    simp only [builtin_len, he, Res.bind_ok]
    cases v <;> simp_all [value_t.type]

end

/-- Witness of C14: `undefined_fn()` and `Print()` are unknown functions. -/
theorem C14_unknown_function_witness :
    eval_expr 1 (.call where_example "undefined_fn" []) state_x5 =
        .fail (.UnknownFunction "undefined_fn") state_x5 ∧
      eval_expr 1 (.call where_example "Print" [.val (.num 1)]) state_x5 =
        .fail (.UnknownFunction "Print") state_x5 :=
  ⟨(C14_unknown_function 0 where_example "undefined_fn" [] state_x5).1 (by decide) (by decide)
      (by decide) (by decide) (by decide) (by decide),
    (C14_unknown_function 0 where_example "Print" [.val (.num 1)] state_x5).1 (by decide)
      (by decide) (by decide) (by decide) (by decide) (by decide)⟩

/-- Witness of C15: after `let s = "hello";` the call `len(s)` is `Num(5)`. -/
theorem C15_len_counts_characters_witness :
    eval 2 [.let_ "s" (.val (.str "hello"))] state_empty = .ok () state_hello ∧
      eval_expr 2 (.call where_example "len" [.id "s"]) state_hello =
        .ok (.num (DoubleOps.of_size "hello".length)) state_hello ∧
      (DoubleOps.of_size "hello".length : Int) = 5 :=
  ⟨by decide,
    C15_len_counts_characters 1 where_example (.id "s") state_hello state_hello "hello"
      (by decide),
    by decide⟩

/-- Witness of C16: `len()` is a WrongArgCount and `len(1)` a TypeMismatch. -/
theorem C16_len_argument_validation_witness :
    eval_expr 1 (.call where_example "len" []) state_x5 = .fail (.WrongArgCount 0 1) state_x5 ∧
      eval_expr 2 (.call where_example "len" [.val (.num 1)]) state_x5 =
        .fail (.TypeMismatch (value_t.num (1 : Int)).type) state_x5 :=
  ⟨(C16_len_argument_validation 0 where_example [] state_x5).1 (by decide),
    (C16_len_argument_validation 1 where_example [.val (.num 1)] state_x5).2 (.val (.num 1))
      (.num 1) state_x5 rfl (by decide) (by decide)⟩
section
variable {D : Type} [DoubleOps D]

theorem eval_cons_if (fuel : Nat) (i : stmt_if_t D) (next : List (stmt_t D)) (s : State D) :
    eval (fuel + 1) (.if_ i :: next) s =
      (eval_stmt_if fuel i s).bind fun _ s1 => eval fuel next s1 := by
  simp only [eval]

theorem eval_cons_while (fuel : Nat) (cond : expr_t D) (body next : List (stmt_t D))
    (s : State D) :
    eval (fuel + 1) (.while_ cond body :: next) s =
      (eval_stmt_while fuel cond body s).bind fun _ s1 => eval fuel next s1 := by
  simp only [eval]

theorem eval_cons_for (fuel : Nat) (init : List (stmt_t D)) (cond : expr_t D)
    (step body next : List (stmt_t D)) (s : State D) :
    eval (fuel + 1) (.for_ init cond step body :: next) s =
      (eval_stmt_for fuel init cond step body s).bind fun _ s1 => eval fuel next s1 := by
  simp only [eval]

theorem eval_cons_expr (fuel : Nat) (e : expr_t D) (next : List (stmt_t D)) (s : State D) :
    eval (fuel + 1) (.expr e :: next) s =
      (eval_expr fuel e s).bind fun _ s1 => eval fuel next s1 := by
  simp only [eval]
  cases eval_expr fuel e s <;> rfl

/-- C11: let the condition evaluate to a value `c` that is not a Bool, reaching
state `s1`. Then an `if` (also one reached as the else-if of a false
condition), a `while` (also after a completed iteration) and a `for` (after its
init statement) fail with TypeMismatch, and the state at the failure is `s1`:
neither the body, nor the step, nor an else branch has run for that check. -/
theorem C11_conditions_must_be_bool (fuel : Nat) (cond : expr_t D) (s s1 : State D)
    (c : value_t D) (hc : eval_expr fuel cond s = .ok c s1)
    (hnb : c.type ≠ .VALUE_TYPE_BOOL) (body step else_ rest : List (stmt_t D))
    (next : Option (stmt_if_t D)) :
    eval (fuel + 2) (.if_ (.mk cond body next else_) :: rest) s =
        .fail (.TypeMismatch c.type) s1 ∧
      eval (fuel + 2) (.while_ cond body :: rest) s = .fail (.TypeMismatch c.type) s1 ∧
      (∀ init s0, eval (fuel + 1) init s0 = .ok () s →
        eval (fuel + 3) (.for_ init cond step body :: rest) s0 =
          .fail (.TypeMismatch c.type) s1) ∧
      (∀ cond0 body0 else0 s0, eval_expr (fuel + 1) cond0 s0 = .ok (.bool_ false) s →
        eval (fuel + 3) (.if_ (.mk cond0 body0 (some (.mk cond body next else_)) else0) :: rest)
          s0 = .fail (.TypeMismatch c.type) s1) ∧
      (∀ s0 s0', eval_expr (fuel + 1) cond s0 = .ok (.bool_ true) s0' →
        eval (fuel + 1) body s0' = .ok () s →
        eval (fuel + 3) (.while_ cond body :: rest) s0 = .fail (.TypeMismatch c.type) s1) ∧
      (∀ s0 s0' s0'', eval_expr (fuel + 1) cond s0 = .ok (.bool_ true) s0' →
        eval (fuel + 1) body s0' = .ok () s0'' → eval (fuel + 1) step s0'' = .ok () s →
        eval_stmt_for_loop (fuel + 2) cond step body s0 = .fail (.TypeMismatch c.type) s1) := by
  have hif : eval_stmt_if (fuel + 1) (.mk cond body next else_) s =
      .fail (.TypeMismatch c.type) s1 := by
    simp only [eval_stmt_if, hc, Res.bind_ok]
    cases c <;> simp_all [value_t.type]
  have hwhile : eval_stmt_while (fuel + 1) cond body s = .fail (.TypeMismatch c.type) s1 := by
    simp only [eval_stmt_while, hc, Res.bind_ok]
    cases c <;> simp_all [value_t.type]
  have hfor : eval_stmt_for_loop (fuel + 1) cond step body s =
      .fail (.TypeMismatch c.type) s1 := by
    simp only [eval_stmt_for_loop, hc, Res.bind_ok]
    cases c <;> simp_all [value_t.type]
  refine ⟨?_, ?_, ?_, ?_, ?_, ?_⟩
  · rw [eval_cons_if, hif]; rfl
  · rw [eval_cons_while, hwhile]; rfl
  · intro init s0 hinit
    rw [eval_cons_for]
    simp only [eval_stmt_for, hinit, Res.bind_ok, hfor, Res.bind_fail]
  · intro cond0 body0 else0 s0 h0
    rw [eval_cons_if]
    simp only [eval_stmt_if, h0, Res.bind_ok, Bool.false_eq_true, if_false, hc]
    cases c <;> simp_all [value_t.type]
  · intro s0 s0' h0 hb
    rw [eval_cons_while]
    simp only [eval_stmt_while, h0, Res.bind_ok, if_true, hb, hc]
    cases c <;> simp_all [value_t.type]
  · intro s0 s0' s0'' h0 hb hs
    simp only [eval_stmt_for_loop, h0, Res.bind_ok, if_true, hb, hs, hc]
    cases c <;> simp_all [value_t.type]

end

/-- Witness of C11: `while (1) println("a"); end` fails with TypeMismatch and
writes nothing. -/
theorem C11_conditions_must_be_bool_witness :
    eval 3 [.while_ (.val (.num 1)) [.expr (.call where_example "println" [.val (.str "a")])]]
        state_x5 = .fail (.TypeMismatch (value_t.num (1 : Int)).type) state_x5 :=
  (C11_conditions_must_be_bool 1 (.val (.num 1)) state_x5 state_x5 (.num 1) (by decide)
    (by decide) [.expr (.call where_example "println" [.val (.str "a")])] [] [] [] none).2.1
section
variable {D : Type} [DoubleOps D]

theorem builtin_readnum_loop_eq (ev : Ev D) (args : List (expr_t D)) (i : Nat) (s : State D) :
    builtin_readnum_loop ev args i s = builtin_print_loop ev args i s := by
  induction args generalizing i s with
  | nil => rfl
  | cons a rest ih =>
    simp only [builtin_readnum_loop, builtin_print_loop]
    congr 1
    funext v s1
    exact ih _ _

theorem builtin_readstr_loop_eq (ev : Ev D) (args : List (expr_t D)) (i : Nat) (s : State D) :
    builtin_readstr_loop ev args i s = builtin_print_loop ev args i s := by
  induction args generalizing i s with
  | nil => rfl
  | cons a rest ih =>
    simp only [builtin_readstr_loop, builtin_print_loop]
    congr 1
    funext v s1
    rw [ih]
    cases v <;> rfl

/-- C19: the prompt loops of `builtin_readnum` and of `builtin_readstr` (the
latter with its own inlined rendering switch) do, for every evaluator, argument
list and state, exactly what the argument loop of `builtin_print` does. When
`print(args)` returns in state `s1`, then `readnum(args)` and `readstr(args)`
return in a state whose standard output is that of `s1` followed by one space,
and whose variables and standard error are those of `s1`; and they fail
exactly when `print(args)` fails, with the same error in the same state. -/
theorem C19_identical_prompt_rendering (fuel : Nat) (where_ : where_t)
    (args : List (expr_t D)) (s : State D) :
    (∀ (ev : Ev D) (i : Nat) (t : State D),
      builtin_readnum_loop ev args i t = builtin_print_loop ev args i t ∧
      builtin_readstr_loop ev args i t = builtin_print_loop ev args i t) ∧
    (∀ v s1, eval_expr (fuel + 1) (.call where_ "print" args) s = .ok v s1 →
      (∃ x s2, eval_expr (fuel + 1) (.call where_ "readnum" args) s = .ok (.num x) s2 ∧
        s2.stdout = s1.stdout ++ " " ∧ s2.vars = s1.vars ∧ s2.stderr = s1.stderr) ∧
      (∃ x s2, eval_expr (fuel + 1) (.call where_ "readstr" args) s = .ok (.str x) s2 ∧
        s2.stdout = s1.stdout ++ " " ∧ s2.vars = s1.vars ∧ s2.stderr = s1.stderr)) ∧
    (∀ err sf,
      (eval_expr (fuel + 1) (.call where_ "readnum" args) s = .fail err sf ↔
        eval_expr (fuel + 1) (.call where_ "print" args) s = .fail err sf) ∧
      (eval_expr (fuel + 1) (.call where_ "readstr" args) s = .fail err sf ↔
        eval_expr (fuel + 1) (.call where_ "print" args) s = .fail err sf)) := by
  have hp : eval_expr (fuel + 1) (.call where_ "print" args) s =
      builtin_print (eval_expr fuel) args s := rfl
  have hn : eval_expr (fuel + 1) (.call where_ "readnum" args) s =
      builtin_readnum (eval_expr fuel) args s := rfl
  have hs : eval_expr (fuel + 1) (.call where_ "readstr" args) s =
      builtin_readstr (eval_expr fuel) args s := rfl
  refine ⟨fun ev i t => ⟨builtin_readnum_loop_eq ev args i t, builtin_readstr_loop_eq ev args i t⟩,
    ?_, ?_⟩ <;>
    rw [hp, hn, hs] <;>
    simp only [builtin_print, builtin_readnum, builtin_readstr, builtin_readnum_loop_eq,
      builtin_readstr_loop_eq]
  · intro v s1 h
    cases hl : builtin_print_loop (eval_expr fuel) args 0 s with
    | ok u t =>
      rw [hl] at h
      simp only [Res.bind_ok, Res.ok.injEq] at h
      obtain ⟨_, rfl⟩ := h
      exact ⟨⟨_, _, rfl, rfl, rfl, rfl⟩, ⟨_, _, rfl, rfl, rfl, rfl⟩⟩
    | fail e t => rw [hl] at h; simp at h
    | out_of_fuel => rw [hl] at h; simp at h
  · intro err sf
    cases hl : builtin_print_loop (eval_expr fuel) args 0 s <;> simp

end

/-- Witness of C19: where `print("n?")` writes `n?`, both `readnum("n?")` and
`readstr("n?")` write `n? `. -/
theorem C19_identical_prompt_rendering_witness :
    (∃ x s2, eval_expr 2 (.call where_example "readnum" [.val (.str "n?")]) state_x5 =
        .ok (.num x) s2 ∧
      s2.stdout = ({ state_x5 with stdout := "n?" } : State Int).stdout ++ " " ∧
      s2.vars = ({ state_x5 with stdout := "n?" } : State Int).vars ∧
      s2.stderr = ({ state_x5 with stdout := "n?" } : State Int).stderr) ∧
    (∃ x s2, eval_expr 2 (.call where_example "readstr" [.val (.str "n?")]) state_x5 =
        .ok (.str x) s2 ∧
      s2.stdout = ({ state_x5 with stdout := "n?" } : State Int).stdout ++ " " ∧
      s2.vars = ({ state_x5 with stdout := "n?" } : State Int).vars ∧
      s2.stderr = ({ state_x5 with stdout := "n?" } : State Int).stderr) :=
  (C19_identical_prompt_rendering 1 where_example [.val (.str "n?")] state_x5).2.1 .nil
    { state_x5 with stdout := "n?" } (by decide)
section
variable {D : Type}

theorem Res.le_refl {α : Type} (r : Res D α) : r.le r := Or.inr rfl

theorem Res.le_trans {α : Type} {a b c : Res D α} (h1 : a.le b) (h2 : b.le c) : a.le c := by
  rcases h1 with h | h
  · exact Or.inl h
  · rw [h]; exact h2

theorem Res.le_bind {α β : Type} {r r' : Res D α} {f f' : α → State D → Res D β}
    (hr : r.le r') (hf : ∀ a s, (f a s).le (f' a s)) : (r.bind f).le (r'.bind f') := by
  rcases hr with h | h
  · rw [h]; exact Or.inl rfl
  · rw [h]
    cases r' with
    | ok a s => exact hf a s
    | fail e s => exact Or.inr rfl
    | out_of_fuel => exact Or.inl rfl

theorem Res.le_ok {α : Type} {r r' : Res D α} {a : α} {s : State D} (h : r.le r')
    (hr : r = .ok a s) : r' = .ok a s := by
  rcases h with h | h
  · rw [h] at hr; cases hr
  · rw [← h]; exact hr

theorem Res.le_fail {α : Type} {r r' : Res D α} {e : Error} {s : State D} (h : r.le r')
    (hr : r = .fail e s) : r' = .fail e s := by
  rcases h with h | h
  · rw [h] at hr; cases hr
  · rw [← h]; exact hr

end

section
variable {D : Type} [DoubleOps D]

theorem builtin_print_loop_le {ev ev' : Ev D} (hev : EvLe ev ev') (args : List (expr_t D))
    (i : Nat) (s : State D) :
    (builtin_print_loop ev args i s).le (builtin_print_loop ev' args i s) := by
  induction args generalizing i s with
  | nil => exact Res.le_refl _
  | cons a rest ih =>
    simp only [builtin_print_loop]
    exact Res.le_bind (hev _ _) fun _ _ => ih _ _

theorem builtin_panic_loop_le {ev ev' : Ev D} (hev : EvLe ev ev') (args : List (expr_t D))
    (s : State D) :
    (builtin_panic_loop ev args s).le (builtin_panic_loop ev' args s) := by
  induction args generalizing s with
  | nil => exact Res.le_refl _
  | cons a rest ih =>
    simp only [builtin_panic_loop]
    exact Res.le_bind (hev _ _) fun _ _ => ih _

theorem eval_expr_call_le {ev ev' : Ev D} (hev : EvLe ev ev') (w : where_t) (name : String)
    (args : List (expr_t D)) (s : State D) :
    (eval_expr_call ev w name args s).le (eval_expr_call ev' w name args s) := by
  unfold eval_expr_call
  split
  · rename_i b _
    cases b.2 <;>
      simp only [builtin_t.func, builtin_println, builtin_print, builtin_len, builtin_readnum,
        builtin_readstr, builtin_panic, builtin_readnum_loop_eq, builtin_readstr_loop_eq] <;>
      repeat' first
        | exact Res.le_refl _
        | exact hev _ _
        | exact builtin_print_loop_le hev _ _ _
        | exact builtin_panic_loop_le hev _ _
        | refine Res.le_bind ?_ (fun _ _ => ?_)
        | split
  · exact Res.le_refl _

theorem eval_expr_bin_op_le {ev ev' : Ev D} (hev : EvLe ev ev') (op : bin_op_type_t)
    (l r : expr_t D) (s : State D) :
    (eval_expr_bin_op ev op l r s).le (eval_expr_bin_op ev' op l r s) := by
  cases op <;>
  simp only [eval_expr_bin_op, eval_expr_bin_op_equals, eval_expr_bin_op_not_equals,
    eval_expr_bin_op_greater, eval_expr_bin_op_greater_equ, eval_expr_bin_op_less,
    eval_expr_bin_op_less_equ, eval_expr_bin_op_assign, eval_expr_bin_op_inc,
    eval_expr_bin_op_dec, eval_expr_bin_op_xinc, eval_expr_bin_op_xdec, eval_expr_bin_op_add,
    eval_expr_bin_op_sub, eval_expr_bin_op_mul, eval_expr_bin_op_div, eval_expr_bin_op_pow] <;>
  repeat' first
    | exact Res.le_refl _
    | exact hev _ _
    | refine Res.le_bind ?_ (fun _ _ => ?_)
    | split

/-- One more unit of fuel does not change an outcome of `eval_expr` that was
reached. -/
theorem eval_expr_le_succ (fuel : Nat) : EvLe (eval_expr fuel : Ev D) (eval_expr (fuel + 1)) := by
  induction fuel with
  | zero => intro e s; exact Or.inl rfl
  | succ n ih =>
    intro e s
    cases e with
    | call w name args => exact eval_expr_call_le ih w name args s
    | id name => exact Res.le_refl _
    | val v => exact Res.le_refl _
    | bin_op op l r => exact eval_expr_bin_op_le ih op l r s

theorem eval_expr_le {n m : Nat} (h : n ≤ m) : EvLe (eval_expr n : Ev D) (eval_expr m) := by
  induction h with
  | refl => intro e s; exact Res.le_refl _
  | step _ ih => intro e s; exact Res.le_trans (ih e s) (eval_expr_le_succ _ e s)

omit [DoubleOps D] in
theorem eval_stmt_let_le {ev ev' : Ev D} (hev : EvLe ev ev') (name : String) (val : expr_t D)
    (s : State D) : (eval_stmt_let ev name val s).le (eval_stmt_let ev' name val s) := by
  unfold eval_stmt_let
  repeat' first
    | exact Res.le_refl _
    | exact hev _ _
    | refine Res.le_bind ?_ (fun _ _ => ?_)
    | split

theorem eval_le_succ_aux (fuel : Nat) :
    (∀ (prog : List (stmt_t D)) s, (eval fuel prog s).le (eval (fuel + 1) prog s)) ∧
    (∀ (i : stmt_if_t D) s, (eval_stmt_if fuel i s).le (eval_stmt_if (fuel + 1) i s)) ∧
    (∀ (c : expr_t D) b s,
      (eval_stmt_while fuel c b s).le (eval_stmt_while (fuel + 1) c b s)) ∧
    (∀ (c : expr_t D) st b s,
      (eval_stmt_for_loop fuel c st b s).le (eval_stmt_for_loop (fuel + 1) c st b s)) ∧
    (∀ i (c : expr_t D) st b s,
      (eval_stmt_for fuel i c st b s).le (eval_stmt_for (fuel + 1) i c st b s)) := by
  induction fuel with
  | zero =>
    refine ⟨?_, ?_, ?_, ?_, ?_⟩
    · intro prog s
      cases prog with
      | nil => simp only [eval]; exact Res.le_refl _
      | cons a b => simp only [eval]; exact Or.inl rfl
    all_goals
      intros
      simp only [eval_stmt_if, eval_stmt_while, eval_stmt_for_loop, eval_stmt_for]
      exact Or.inl rfl
  | succ n ih =>
    obtain ⟨ih1, ih2, ih3, ih4, ih5⟩ := ih
    have hev := eval_expr_le_succ (D := D) n
    refine ⟨?_, ?_, ?_, ?_, ?_⟩
    · intro prog s
      cases prog with
      | nil => simp only [eval]; exact Res.le_refl _
      | cons a b =>
        simp only [eval]
        refine Res.le_bind ?_ (fun _ _ => ih1 _ _)
        cases a with
        | expr e => exact Res.le_bind (hev _ _) fun _ _ => Res.le_refl _
        | let_ name val => exact eval_stmt_let_le hev _ _ _
        | if_ i => exact ih2 _ _
        | while_ c b => exact ih3 _ _ _
        | for_ i c st b => exact ih5 _ _ _ _ _
    · intro i s
      cases i with
      | mk cond body next else_ =>
        simp only [eval_stmt_if]
        repeat' first
          | exact Res.le_refl _
          | exact hev _ _
          | exact ih1 _ _
          | exact ih2 _ _
          | refine Res.le_bind ?_ (fun _ _ => ?_)
          | split
    · intro c b s
      simp only [eval_stmt_while]
      repeat' first
        | exact Res.le_refl _
        | exact hev _ _
        | exact ih1 _ _
        | exact ih3 _ _ _
        | refine Res.le_bind ?_ (fun _ _ => ?_)
        | split
    · intro c st b s
      simp only [eval_stmt_for_loop]
      repeat' first
        | exact Res.le_refl _
        | exact hev _ _
        | exact ih1 _ _
        | exact ih4 _ _ _ _
        | refine Res.le_bind ?_ (fun _ _ => ?_)
        | split
    · intro i c st b s
      simp only [eval_stmt_for]
      exact Res.le_bind (ih1 _ _) fun _ _ => ih4 _ _ _ _

/-- More fuel does not change an outcome of `eval` that was reached. -/
theorem eval_le {n m : Nat} (h : n ≤ m) (prog : List (stmt_t D)) (s : State D) :
    (eval n prog s).le (eval m prog s) := by
  induction h with
  | refl => exact Res.le_refl _
  | step _ ih => exact Res.le_trans ih ((eval_le_succ_aux _).1 prog s)

theorem eval_stmt_if_le {n m : Nat} (h : n ≤ m) (i : stmt_if_t D) (s : State D) :
    (eval_stmt_if n i s).le (eval_stmt_if m i s) := by
  induction h with
  | refl => exact Res.le_refl _
  | step _ ih => exact Res.le_trans ih ((eval_le_succ_aux _).2.1 i s)

theorem eval_stmt_for_loop_le {n m : Nat} (h : n ≤ m) (c : expr_t D) (st b : List (stmt_t D))
    (s : State D) : (eval_stmt_for_loop n c st b s).le (eval_stmt_for_loop m c st b s) := by
  induction h with
  | refl => exact Res.le_refl _
  | step _ ih => exact Res.le_trans ih ((eval_le_succ_aux _).2.2.2.1 c st b s)

end
section
variable {D : Type} [DoubleOps D]

theorem eval_stmt_if_chain_false (fuel : Nat)
    (branches : List (expr_t D × List (stmt_t D) × List (stmt_t D))) (last : stmt_if_t D)
    (s s' : State D) (k : Nat)
    (hfalse : conds_false fuel (branches.map fun p => p.1) s s') :
    eval_stmt_if (fuel + 1 + k + branches.length) (if_chain branches last) s =
      eval_stmt_if (fuel + 1 + k) last s' := by
  induction branches generalizing s with
  | nil =>
    simp only [List.map_nil, conds_false] at hfalse
    subst hfalse
    rfl
  | cons p rest ih =>
    obtain ⟨c, b, e⟩ := p
    simp only [List.map_cons, conds_false] at hfalse
    obtain ⟨s1, hc, hrest⟩ := hfalse
    have hc' : eval_expr (fuel + 1 + k + rest.length) c s = .ok (.bool_ false) s1 :=
      Res.le_ok (eval_expr_le (by omega) c s) hc
    simp only [if_chain, List.length_cons]
    rw [show fuel + 1 + k + (rest.length + 1) = (fuel + 1 + k + rest.length) + 1 by omega]
    simp only [eval_stmt_if, hc', Res.bind_ok, Bool.false_eq_true, if_false]
    exact ih s1 hrest

/-- C12: let the conditions of the first branches of an `if` chain evaluate to
false one after the other, reaching state `s'`, and let the condition `c` of
the node that follows evaluate in `s'`, reaching `s''`. If `c` is true, the
`if` statement does exactly what the body of that node does from `s''`,
whatever follows in the chain; if `c` is false and the node is the last of the
chain, it does exactly what the else body of that node does from `s''`, and
with an empty else body it returns in `s''`. -/
theorem C12_if_chain_selection (fuel : Nat)
    (branches : List (expr_t D × List (stmt_t D) × List (stmt_t D)))
    (c : expr_t D) (body else_ : List (stmt_t D)) (s s' s'' : State D)
    (hfalse : conds_false fuel (branches.map fun p => p.1) s s') (k : Nat) :
    (eval_expr fuel c s' = .ok (.bool_ true) s'' →
      ∀ next r, eval fuel body s'' = r → r ≠ .out_of_fuel →
        eval (fuel + 2 + k + branches.length)
          [.if_ (if_chain branches (.mk c body next else_))] s = r) ∧
    (eval_expr fuel c s' = .ok (.bool_ false) s'' →
      (∀ r, eval fuel else_ s'' = r → r ≠ .out_of_fuel →
        eval (fuel + 2 + k + branches.length)
          [.if_ (if_chain branches (.mk c body none else_))] s = r) ∧
      eval (fuel + 2 + k + branches.length)
        [.if_ (if_chain branches (.mk c body none []))] s = .ok () s'') := by
  have hstep : ∀ last, eval (fuel + 2 + k + branches.length) [.if_ (if_chain branches last)] s =
      (eval_stmt_if (fuel + 1 + k) last s').bind fun _ s1 => .ok () s1 := by
    intro last
    rw [show fuel + 2 + k + branches.length = (fuel + 1 + k + branches.length) + 1 by omega,
      eval_cons_if, eval_stmt_if_chain_false fuel branches last s s' k hfalse]
    congr 1
    funext _ s1
    exact eval_nil _ s1
  have hdone : ∀ (r : Res D Unit), r ≠ .out_of_fuel → (r.bind fun _ s1 => .ok () s1) = r := by
    intro r hr
    cases r with
    | ok u t => rfl
    | fail e t => rfl
    | out_of_fuel => exact absurd rfl hr
  refine ⟨?_, ?_⟩
  · intro hc next r hb hr
    have hc' : eval_expr (fuel + k) c s' = .ok (.bool_ true) s'' :=
      Res.le_ok (eval_expr_le (by omega) c s') hc
    have hb' : eval (fuel + k) body s'' = r := by
      rcases eval_le (show fuel ≤ fuel + k by omega) body s'' with h | h
      · rw [hb] at h; exact absurd h hr
      · rw [← h]; exact hb
    rw [hstep]
    simp only [show fuel + 1 + k = (fuel + k) + 1 by omega, eval_stmt_if, hc', Res.bind_ok,
      if_true, hb']
    exact hdone r hr
  · intro hc
    have hc' : eval_expr (fuel + k) c s' = .ok (.bool_ false) s'' :=
      Res.le_ok (eval_expr_le (by omega) c s') hc
    refine ⟨?_, ?_⟩
    · intro r he hr
      have he' : eval (fuel + k) else_ s'' = r := by
        rcases eval_le (show fuel ≤ fuel + k by omega) else_ s'' with h | h
        · rw [he] at h; exact absurd h hr
        · rw [← h]; exact he
      rw [hstep]
      simp only [show fuel + 1 + k = (fuel + k) + 1 by omega, eval_stmt_if, hc', Res.bind_ok,
        Bool.false_eq_true, if_false, he']
      exact hdone r hr
    · rw [hstep]
      simp only [show fuel + 1 + k = (fuel + k) + 1 by omega, eval_stmt_if, hc', Res.bind_ok,
        Bool.false_eq_true, if_false, eval_nil]

end

/-- Witness of C12: `if (1 > 2) println("a"); else println("b"); end` writes
exactly `b` and a newline. -/
theorem C12_if_chain_selection_witness :
    eval 5
        [.if_ (if_chain []
          (.mk (.bin_op .BIN_OP_GREATER (.val (.num 1)) (.val (.num 2)))
            [.expr (.call where_example "println" [.val (.str "a")])] none
            [.expr (.call where_example "println" [.val (.str "b")])]))]
        state_x5 = .ok () { state_x5 with stdout := "b\n" } :=
  ((C12_if_chain_selection 3 [] (.bin_op .BIN_OP_GREATER (.val (.num 1)) (.val (.num 2)))
    [.expr (.call where_example "println" [.val (.str "a")])]
    [.expr (.call where_example "println" [.val (.str "b")])] state_x5 state_x5 state_x5 rfl
    0).2 (by decide)).1 (.ok () { state_x5 with stdout := "b\n" }) (by decide) (by decide)
section
variable {D : Type} [DoubleOps D]

theorem count_cond_eval (n : Nat) (free : List (var_t D)) (out err : String) (inp : List Char)
    (sum i f : Nat) :
    eval_expr (f + 2) (count_cond n) (count_state free out err inp sum i) =
      .ok (.bool_ (DoubleOps.lt (DoubleOps.of_size i : D) (DoubleOps.of_size n)))
        (count_state free out err inp sum i) := by
  simp [count_cond, count_state, eval_expr, eval_expr_bin_op, eval_expr_bin_op_less,
    eval_expr_id, eval_expr_value, env_get_var, value_t.type]

theorem count_body_eval (free : List (var_t D)) (out err : String) (inp : List Char)
    (sum i f : Nat) :
    eval (f + 3) count_body (count_state free out err inp sum i) =
      .ok () ⟨⟨some "sum", .num (DoubleOps.add (DoubleOps.of_size sum) (DoubleOps.of_size i))⟩ ::
        ⟨some "i", .num (DoubleOps.of_size i)⟩ :: free, out, err, inp⟩ := by
  simp [count_body, count_state, eval, eval_expr, eval_expr_bin_op, eval_expr_bin_op_inc,
    eval_expr_id, env_get_var, value_t.type, set_val]

theorem count_step_eval (free : List (var_t D)) (out err : String) (inp : List Char)
    (sum i f : Nat) :
    eval (f + 3) count_step (count_state free out err inp sum i) =
      .ok () ⟨⟨some "sum", .num (DoubleOps.of_size sum)⟩ ::
        ⟨some "i", .num (DoubleOps.add (DoubleOps.of_size i) (DoubleOps.of_size 1))⟩ :: free,
        out, err, inp⟩ := by
  simp [count_step, count_state, eval, eval_expr, eval_expr_bin_op, eval_expr_bin_op_inc,
    eval_expr_id, eval_expr_value, env_get_var, value_t.type, set_val]

end

section
variable {D : Type} [DoubleOps D]

theorem eval_stmt_for_loop_true {fuel : Nat} {cond : expr_t D} {step body : List (stmt_t D)}
    {s s1 : State D} (h : eval_expr fuel cond s = .ok (.bool_ true) s1) :
    eval_stmt_for_loop (fuel + 1) cond step body s =
      (eval fuel body s1).bind fun _ s2 =>
        (eval fuel step s2).bind fun _ s3 => eval_stmt_for_loop fuel cond step body s3 := by
  simp only [eval_stmt_for_loop, h, Res.bind_ok, if_true]

theorem eval_stmt_for_loop_false {fuel : Nat} {cond : expr_t D} {step body : List (stmt_t D)}
    {s s1 : State D} (h : eval_expr fuel cond s = .ok (.bool_ false) s1) :
    eval_stmt_for_loop (fuel + 1) cond step body s = .ok () s1 := by
  simp only [eval_stmt_for_loop, h, Res.bind_ok, Bool.false_eq_true, if_false]

end

section
variable {D : Type} [DoubleOps D]

theorem count_init_eval (free : List (var_t D)) (out err : String) (inp : List Char)
    (sum f : Nat) :
    eval (f + 3) [.expr (.bin_op .BIN_OP_ASSIGN (.id "i") (.val (.num (DoubleOps.of_size 0))))]
        (count_state free out err inp sum 0) = .ok () (count_state free out err inp sum 0) := by
  simp [count_state, eval, eval_expr, eval_expr_bin_op, eval_expr_bin_op_assign,
    eval_expr_value, env_get_var, value_t.type, set_val]

theorem count_body_step_eval (free : List (var_t D)) (out err : String) (inp : List Char)
    (sum i f : Nat) :
    eval (f + 4) (count_body ++ count_step) (count_state free out err inp sum i) =
      .ok () ⟨⟨some "sum", .num (DoubleOps.add (DoubleOps.of_size sum) (DoubleOps.of_size i))⟩ ::
        ⟨some "i", .num (DoubleOps.add (DoubleOps.of_size i) (DoubleOps.of_size 1))⟩ :: free,
        out, err, inp⟩ := by
  simp [count_body, count_step, count_state, eval, eval_expr, eval_expr_bin_op,
    eval_expr_bin_op_inc, eval_expr_id, eval_expr_value, env_get_var, value_t.type, set_val]

theorem count_loop_eval (n : Nat) (free : List (var_t D)) (out err : String) (inp : List Char)
    (hadd : ∀ a b, a + b ≤ (∑ i ∈ Finset.range n, i) + n →
      DoubleOps.add (DoubleOps.of_size a : D) (DoubleOps.of_size b) = DoubleOps.of_size (a + b))
    (hlt : ∀ a, a ≤ n →
      DoubleOps.lt (DoubleOps.of_size a : D) (DoubleOps.of_size n) = decide (a < n))
    (j : Nat) : ∀ k f, k + j = n →
      eval_stmt_for_loop (j + 4 + f) (count_cond n) count_step count_body
          (count_state free out err inp (∑ i ∈ Finset.range k, i) k) =
        .ok () (count_state free out err inp (∑ i ∈ Finset.range n, i) n) := by
  induction j with
  | zero =>
    intro k f hk
    simp only [Nat.add_zero] at hk
    subst hk
    have hc := count_cond_eval k free out err inp (∑ i ∈ Finset.range k, i) k (f + 1)
    rw [hlt k (Nat.le_refl _)] at hc
    simp only [lt_self_iff_false, decide_False] at hc
    rw [show 0 + 4 + f = (f + 1 + 2) + 1 by omega]
    exact eval_stmt_for_loop_false hc
  | succ j ih =>
    intro k f hk
    have hkn : k < n := by omega
    have hsum : (∑ i ∈ Finset.range k, i) + k ≤ (∑ i ∈ Finset.range n, i) := by
      rw [← Finset.sum_range_succ]
      exact Finset.sum_le_sum_of_subset (Finset.range_mono (by omega))
    have hc := count_cond_eval n free out err inp (∑ i ∈ Finset.range k, i) k (j + f + 2)
    rw [hlt k (by omega)] at hc
    simp only [hkn, decide_True] at hc
    have hbody := count_body_eval free out err inp (∑ i ∈ Finset.range k, i) k (j + f + 1)
    rw [hadd _ _ (by omega), ← Finset.sum_range_succ] at hbody
    have hstep := count_step_eval free out err inp (∑ i ∈ Finset.range (k + 1), i) k (j + f + 1)
    rw [hadd _ _ (by omega)] at hstep
    simp only [count_state] at hstep
    have := ih (k + 1) f (by omega)
    rw [show j + 1 + 4 + f = (j + f + 2 + 2) + 1 by omega, eval_stmt_for_loop_true hc,
      show j + f + 2 + 2 = (j + f + 1) + 3 by omega, hbody, Res.bind_ok, hstep, Res.bind_ok,
      show j + f + 1 + 3 = j + 4 + f by omega]
    exact this

/-- C13: let the doubles of the naturals up to `0 + 1 + ... + (n-1) + n` add
exactly and let the doubles of the naturals up to `n` compare with `n` as the
naturals do. Run from a fresh table of at least two slots,
`let sum = 0; let i = 0; for (i = 0; i < n; i ++ 1) sum ++ i; end` returns
without error, in the state where `i = n` and `sum = 0 + 1 + ... + (n-1)`, which
is `n(n-1)/2`. On the way, for every `k < n` the condition is true where `i = k`, the body
followed by the step leads from `i = k`, `sum = 0 + ... + (k-1)` to `i = k+1`,
`sum = 0 + ... + k`, and the condition is false where `i = n`: the body runs
exactly `n` times. -/
theorem C13_counting_for_loop (n m : Nat) (zero : value_t D) (out err : String)
    (inp : List Char)
    (hadd : ∀ a b, a + b ≤ (∑ i ∈ Finset.range n, i) + n →
      DoubleOps.add (DoubleOps.of_size a : D) (DoubleOps.of_size b) = DoubleOps.of_size (a + b))
    (hlt : ∀ a, a ≤ n →
      DoubleOps.lt (DoubleOps.of_size a : D) (DoubleOps.of_size n) = decide (a < n)) :
    (∀ f, eval (n + 8 + f) (count_program n) ⟨env_init (m + 2) zero, out, err, inp⟩ =
        .ok () (count_state (List.replicate m ⟨none, zero⟩) out err inp
          (∑ i ∈ Finset.range n, i) n)) ∧
      var_value (count_state (List.replicate m ⟨none, zero⟩) out err inp
          (∑ i ∈ Finset.range n, i) n) "i" = some (.num (DoubleOps.of_size n)) ∧
      var_value (count_state (List.replicate m ⟨none, zero⟩) out err inp
          (∑ i ∈ Finset.range n, i) n) "sum" =
        some (.num (DoubleOps.of_size (n * (n - 1) / 2))) ∧
      (∀ k f, k < n →
        eval_expr (f + 2) (count_cond n)
            (count_state (List.replicate m ⟨none, zero⟩) out err inp
              (∑ i ∈ Finset.range k, i) k) =
          .ok (.bool_ true)
            (count_state (List.replicate m ⟨none, zero⟩) out err inp
              (∑ i ∈ Finset.range k, i) k) ∧
        eval (f + 4) (count_body ++ count_step)
            (count_state (List.replicate m ⟨none, zero⟩) out err inp
              (∑ i ∈ Finset.range k, i) k) =
          .ok () (count_state (List.replicate m ⟨none, zero⟩) out err inp
            (∑ i ∈ Finset.range (k + 1), i) (k + 1))) ∧
      (∀ f, eval_expr (f + 2) (count_cond n)
          (count_state (List.replicate m ⟨none, zero⟩) out err inp
            (∑ i ∈ Finset.range n, i) n) =
        .ok (.bool_ false)
          (count_state (List.replicate m ⟨none, zero⟩) out err inp
            (∑ i ∈ Finset.range n, i) n)) := by
  refine ⟨?_, ?_, ?_, ?_, ?_⟩
  · intro f
    have hloop := count_loop_eval n (List.replicate m ⟨none, zero⟩) out err inp hadd hlt n 0 f
      (by omega)
    simp only [Finset.range_zero, Finset.sum_empty] at hloop
    have hlets := eval_lets [("sum", value_t.num (DoubleOps.of_size 0 : D)),
      ("i", value_t.num (DoubleOps.of_size 0))] [] (m + 2) zero out err inp (n + 8 + f)
      [.for_ [.expr (.bin_op .BIN_OP_ASSIGN (.id "i") (.val (.num (DoubleOps.of_size 0))))]
        (count_cond n) count_step count_body]
      (by simp) (by simp) (by simp [env_names]) (by simp) (by simp; omega)
    have hprog : count_program n =
        List.map let_literal [("sum", value_t.num (DoubleOps.of_size 0 : D)),
          ("i", value_t.num (DoubleOps.of_size 0))] ++
        [.for_ [.expr (.bin_op .BIN_OP_ASSIGN (.id "i") (.val (.num (DoubleOps.of_size 0))))]
          (count_cond n) count_step count_body] := rfl
    have hstate : (⟨[] ++ List.map slot_of [("sum", value_t.num (DoubleOps.of_size 0 : D)),
          ("i", value_t.num (DoubleOps.of_size 0))] ++
          List.replicate (m + 2 - 2) { name := none, val := zero }, out, err, inp⟩ : State D) =
        count_state (List.replicate m ⟨none, zero⟩) out err inp 0 0 := rfl
    simp only [List.nil_append] at hlets
    rw [hprog, env_init, hlets]
    simp only [List.length_cons, List.length_nil]
    rw [show n + 8 + f - (0 + 1 + 1) = (n + 4 + f + 1) + 1 by omega, eval_cons_for]
    simp only [List.nil_append] at hstate
    rw [hstate]
    simp only [eval_stmt_for]
    rw [show n + 4 + f = (n + f + 1) + 3 by omega, count_init_eval, Res.bind_ok,
      show (n + f + 1) + 3 = n + 4 + f by omega, hloop, Res.bind_ok, eval_nil]
  · simp [var_value, count_state, env_get_var]
  · simp [var_value, count_state, env_get_var, Finset.sum_range_id]
  · intro k f hk
    have hsum : (∑ i ∈ Finset.range k, i) + k ≤ (∑ i ∈ Finset.range n, i) := by
      rw [← Finset.sum_range_succ]
      exact Finset.sum_le_sum_of_subset (Finset.range_mono (by omega))
    refine ⟨?_, ?_⟩
    · rw [count_cond_eval, hlt k (by omega)]
      simp [hk]
    · rw [count_body_step_eval, hadd _ _ (by omega), hadd _ _ (by omega),
        ← Finset.sum_range_succ]
      rfl
  · intro f
    rw [count_cond_eval, hlt n (Nat.le_refl _)]
    simp

end

/-- Witness of C13: with `n = 10` the program leaves `sum = 45` and `i = 10`. -/
theorem C13_counting_for_loop_witness :
    eval 18 (count_program 10) (⟨env_init 2 .nil, "", "", []⟩ : State Int) =
        .ok () (count_state [] "" "" [] 45 10) ∧
      (∀ f, eval (10 + 8 + f) (count_program 10) (⟨env_init (0 + 2) .nil, "", "", []⟩ : State Int) =
        .ok () (count_state (List.replicate 0 ⟨none, .nil⟩) "" "" []
          (∑ i ∈ Finset.range 10, i) 10)) ∧
      (∑ i ∈ Finset.range 10, i) = 45 :=
  ⟨by decide,
    (C13_counting_for_loop 10 0 .nil "" "" [] (fun a b _ => rfl)
      (fun a _ => by simp [DoubleOps.lt, DoubleOps.of_size])).1,
    by simp [Finset.sum_range_id]⟩
section
variable {D : Type} [DoubleOps D]

theorem fprint_value_eq (v : value_t D) (f : FILE) (s : State D) :
    fprint_value v f s = fputs (render v) f s := by
  cases v <;> rfl

omit [DoubleOps D] in
theorem putchar_space (s : State D) : putchar ' ' s = fputs " " .stdout s := rfl

theorem builtin_print_loop_succ_eq_spec (ev : Ev D) (a : expr_t D) (rest : List (expr_t D))
    (i : Nat) (s : State D) :
    builtin_print_loop ev (a :: rest) (i + 1) s =
      print_args_spec ev (a :: rest) (fputs " " .stdout s) := by
  induction rest generalizing a i s with
  | nil =>
    simp only [builtin_print_loop, print_args_spec, fprint_value_eq, gt_iff_lt,
      Nat.zero_lt_succ, if_true, putchar_space]
  | cons b rest ih =>
    rw [builtin_print_loop, print_args_spec]
    simp only [gt_iff_lt, Nat.zero_lt_succ, if_true, putchar_space]
    congr 1
    funext v t
    rw [ih, fprint_value_eq]

theorem builtin_print_loop_eq_spec (ev : Ev D) (args : List (expr_t D)) (s : State D) :
    builtin_print_loop ev args 0 s = print_args_spec ev args s := by
  cases args with
  | nil => rfl
  | cons a rest =>
    cases rest with
    | nil =>
      simp only [builtin_print_loop, print_args_spec, fprint_value_eq, gt_iff_lt,
        Nat.lt_irrefl, if_false]
    | cons b rest =>
      rw [builtin_print_loop, print_args_spec]
      simp only [gt_iff_lt, Nat.lt_irrefl, if_false]
      congr 1
      funext v t
      rw [builtin_print_loop_succ_eq_spec, fprint_value_eq]

end

section
variable {D : Type} [DoubleOps D]

theorem print_args_spec_pure (fuel : Nat) (s : State D) (args : List (expr_t D))
    (vs : List (value_t D))
    (hpure : List.Forall₂ (fun a v => ∀ t : State D, t.vars = s.vars → t.stdin = s.stdin →
      eval_expr fuel a t = .ok v t) args vs) :
    ∀ t : State D, t.vars = s.vars → t.stdin = s.stdin →
      print_args_spec (eval_expr fuel) args t =
        .ok () { t with stdout := t.stdout ++ join_space (vs.map render) } := by
  induction hpure with
  | nil =>
    intro t _ _
    simp [print_args_spec, join_space]
  | @cons a v rest vrest ha hrest ih =>
    intro t hv hi
    cases hrest with
    | nil =>
      simp [print_args_spec, ha t hv hi, join_space, sep_join, fputs]
    | @cons b w rest' vrest' hb hrest' =>
      rw [print_args_spec, ha t hv hi, Res.bind_ok,
        ih (fputs " " .stdout (fputs (render v) .stdout t)) (by simpa using hv)
          (by simpa [fputs] using hi)]
      simp [fputs, join_space, sep_join, String.append_assoc]

/-- C17: `fprint_value` writes `(nil)` for Nil, `true` or `false` for a Bool, the
decimal rendering for a Num and the raw text for a Str. `print(args)` does what
the spec describes (arguments evaluated left to right, each rendering written
right after its argument is evaluated, one space written between consecutive
arguments) and returns Nil; `println(args)` does the same, then writes one
newline, and returns Nil. In particular, when the arguments evaluate to the
values `vs` without changing the state, `print` appends to standard output the
renderings of `vs` separated by single spaces (nothing for no argument) and
`println` appends the same text followed by a newline. -/
theorem C17_print_output (fuel : Nat) (where_ : where_t) (args : List (expr_t D))
    (s : State D) :
    (∀ (v : value_t D) (f : FILE) (t : State D),
      fprint_value v f t = fputs (render v) f t) ∧
    eval_expr (fuel + 1) (.call where_ "print" args) s =
      ((print_args_spec (eval_expr fuel) args s).bind fun _ s1 => .ok .nil s1) ∧
    eval_expr (fuel + 1) (.call where_ "println" args) s =
      ((print_args_spec (eval_expr fuel) args s).bind fun _ s1 =>
        .ok .nil (fputs "\n" .stdout s1)) ∧
    (∀ vs : List (value_t D),
      List.Forall₂ (fun a v => ∀ t : State D, t.vars = s.vars → t.stdin = s.stdin →
        eval_expr fuel a t = .ok v t) args vs →
      eval_expr (fuel + 1) (.call where_ "print" args) s =
        .ok .nil { s with stdout := s.stdout ++ join_space (vs.map render) } ∧
      eval_expr (fuel + 1) (.call where_ "println" args) s =
        .ok .nil { s with stdout := s.stdout ++ join_space (vs.map render) ++ "\n" }) := by
  have hp : eval_expr (fuel + 1) (.call where_ "print" args) s =
      ((print_args_spec (eval_expr fuel) args s).bind fun _ s1 => .ok .nil s1) := by
    show builtin_print (eval_expr fuel) args s = _
    rw [builtin_print, builtin_print_loop_eq_spec]
  have hpl : eval_expr (fuel + 1) (.call where_ "println" args) s =
      ((print_args_spec (eval_expr fuel) args s).bind fun _ s1 =>
        .ok .nil (fputs "\n" .stdout s1)) := by
    show builtin_println (eval_expr fuel) args s = _
    rw [builtin_println, builtin_print, builtin_print_loop_eq_spec]
    cases print_args_spec (eval_expr fuel) args s <;> rfl
  refine ⟨fprint_value_eq, hp, hpl, ?_⟩
  intro vs hpure
  rw [hp, hpl, print_args_spec_pure fuel s args vs hpure s rfl rfl]
  exact ⟨rfl, rfl⟩

end

/-- Witness of C17: `print(1, true, "x", nil)` writes `1 true x (nil)`. -/
theorem C17_print_output_witness :
    eval_expr 2
        (.call where_example "print"
          [.val (.num 1), .val (.bool_ true), .val (.str "x"), .val .nil]) state_x5 =
      .ok .nil { state_x5 with
        stdout := state_x5.stdout ++ join_space ([value_t.num (1 : Int), .bool_ true, .str "x",
          .nil].map render) } ∧
      join_space ([value_t.num (1 : Int), .bool_ true, .str "x", .nil].map render) =
        "1 true x (nil)" :=
  ⟨((C17_print_output 1 where_example
      [.val (.num 1), .val (.bool_ true), .val (.str "x"), .val .nil] state_x5).2.2.2
      [.num 1, .bool_ true, .str "x", .nil]
      (.cons (fun _ _ _ => rfl) (.cons (fun _ _ _ => rfl) (.cons (fun _ _ _ => rfl)
        (.cons (fun _ _ _ => rfl) .nil))))).1,
    by decide⟩
section
variable {D : Type}

theorem Res.done_bind {α β : Type} {r : Res D α} {f : α → State D → Res D β}
    (hr : r.done) (hf : ∀ a s, (f a s).done) : (r.bind f).done := by
  cases r with
  | ok a s => exact hf a s
  | fail e s => trivial
  | out_of_fuel => exact hr

theorem Res.done_iff {α : Type} {r : Res D α} : r.done ↔ r ≠ .out_of_fuel := by
  cases r <;> simp [Res.done]

end

section
variable {D : Type} [DoubleOps D]

theorem builtin_print_loop_done {ev : Ev D} (args : List (expr_t D))
    (hev : ∀ a ∈ args, ∀ s, (ev a s).done) (i : Nat) (s : State D) :
    (builtin_print_loop ev args i s).done := by
  induction args generalizing i s with
  | nil => trivial
  | cons a rest ih =>
    simp only [builtin_print_loop]
    exact Res.done_bind (hev a (List.mem_cons_self _ _) _) fun _ _ =>
      ih (fun b hb => hev b (List.mem_cons_of_mem _ hb)) _ _

theorem builtin_panic_loop_done {ev : Ev D} (args : List (expr_t D))
    (hev : ∀ a ∈ args, ∀ s, (ev a s).done) (s : State D) :
    (builtin_panic_loop ev args s).done := by
  induction args generalizing s with
  | nil => trivial
  | cons a rest ih =>
    simp only [builtin_panic_loop]
    exact Res.done_bind (hev a (List.mem_cons_self _ _) _) fun _ _ =>
      ih (fun b hb => hev b (List.mem_cons_of_mem _ hb)) _

theorem eval_expr_call_done {ev : Ev D} (w : where_t) (name : String) (args : List (expr_t D))
    (hev : ∀ a ∈ args, ∀ s, (ev a s).done) (s : State D) :
    (eval_expr_call ev w name args s).done := by
  unfold eval_expr_call
  split
  · rename_i b _
    cases b.2 <;>
      simp only [builtin_t.func, builtin_println, builtin_print, builtin_readnum,
        builtin_readstr, builtin_panic, builtin_readnum_loop_eq, builtin_readstr_loop_eq]
    case len =>
      unfold builtin_len
      split
      · refine Res.done_bind (hev _ (List.mem_singleton.mpr rfl) _) fun v _ => ?_
        cases v <;> trivial
      · trivial
    all_goals
      repeat' first
        | exact builtin_print_loop_done args hev _ _
        | exact builtin_panic_loop_done args hev _
        | refine Res.done_bind ?_ (fun _ _ => ?_)
        | trivial
  · trivial

theorem eval_expr_bin_op_done {ev : Ev D} (op : bin_op_type_t) (l r : expr_t D)
    (hl : ∀ s, (ev l s).done) (hr : ∀ s, (ev r s).done) (s : State D) :
    (eval_expr_bin_op ev op l r s).done := by
  cases op <;>
  simp only [eval_expr_bin_op, eval_expr_bin_op_equals, eval_expr_bin_op_not_equals,
    eval_expr_bin_op_greater, eval_expr_bin_op_greater_equ, eval_expr_bin_op_less,
    eval_expr_bin_op_less_equ, eval_expr_bin_op_assign, eval_expr_bin_op_inc,
    eval_expr_bin_op_dec, eval_expr_bin_op_xinc, eval_expr_bin_op_xdec, eval_expr_bin_op_add,
    eval_expr_bin_op_sub, eval_expr_bin_op_mul, eval_expr_bin_op_div, eval_expr_bin_op_pow] <;>
  repeat' first
    | exact hl _
    | exact hr _
    | refine Res.done_bind ?_ (fun _ _ => ?_)
    | split
    | trivial

theorem eval_expr_done_of_le {n m : Nat} (h : n ≤ m) {e : expr_t D}
    (hn : ∀ s, (eval_expr n e s).done) (s : State D) : (eval_expr m e s).done := by
  have h1 := hn s
  rcases eval_expr_le h e s with h2 | h2
  · rw [h2] at h1; exact h1.elim
  · rw [← h2]; exact h1

theorem eval_expr_total_aux (k : Nat) : ∀ e : expr_t D, sizeOf e ≤ k →
    ∃ n, ∀ s, (eval_expr n e s).done := by
  induction k with
  | zero =>
    intro e he
    cases e <;> simp at he
  | succ k ih =>
    intro e he
    cases e with
    | id name => exact ⟨1, fun s => by simp only [eval_expr, eval_expr_id]; split <;> trivial⟩
    | val v => exact ⟨1, fun s => trivial⟩
    | bin_op op l r =>
      simp only [expr_t.bin_op.sizeOf_spec] at he
      obtain ⟨nl, hl⟩ := ih l (by omega)
      obtain ⟨nr, hr⟩ := ih r (by omega)
      refine ⟨max nl nr + 1, fun s => ?_⟩
      exact eval_expr_bin_op_done op l r (eval_expr_done_of_le (le_max_left _ _) hl)
        (eval_expr_done_of_le (le_max_right _ _) hr) s
    | call w name args =>
      simp only [expr_t.call.sizeOf_spec] at he
      have hargs : ∃ n, ∀ a ∈ args, ∀ s, (eval_expr n a s).done := by
        have hsz : ∀ a ∈ args, sizeOf a ≤ k := by
          intro a ha
          have := List.sizeOf_lt_of_mem ha
          omega
        clear he
        induction args with
        | nil => exact ⟨0, fun a ha => by simp at ha⟩
        | cons b rest ihl =>
          obtain ⟨n1, h1⟩ := ih b (hsz b (List.mem_cons_self _ _))
          obtain ⟨n2, h2⟩ := ihl fun a ha => hsz a (List.mem_cons_of_mem _ ha)
          refine ⟨max n1 n2, fun a ha => ?_⟩
          rcases List.mem_cons.mp ha with rfl | ha
          · exact eval_expr_done_of_le (le_max_left _ _) h1
          · exact eval_expr_done_of_le (le_max_right _ _) (h2 a ha)
      obtain ⟨n, hn⟩ := hargs
      exact ⟨n + 1, fun s => eval_expr_call_done w name args hn s⟩

/-- Every expression is evaluated to an outcome when the fuel suffices. -/
theorem eval_expr_total (e : expr_t D) :
    ∃ n, ∀ fuel, n ≤ fuel → ∀ s, (eval_expr fuel e s).done := by
  obtain ⟨n, hn⟩ := eval_expr_total_aux (sizeOf e) e (Nat.le_refl _)
  exact ⟨n, fun fuel h s => eval_expr_done_of_le h hn s⟩

end
section
variable {D : Type} [DoubleOps D]

theorem builtin_panic_loop_fail {ev : Ev D} (args : List (expr_t D)) (s sf : State D)
    (e : Error) (h : builtin_panic_loop ev args s = .fail e sf) :
    ∃ a ∈ args, ∃ t, ev a t = .fail e sf := by
  induction args generalizing s with
  | nil => simp [builtin_panic_loop] at h
  | cons a rest ih =>
    simp only [builtin_panic_loop] at h
    cases ha : ev a (fputc ' ' .stderr s) with
    | ok v t =>
      rw [ha] at h
      obtain ⟨b, hb, t', ht'⟩ := ih _ h
      exact ⟨b, List.mem_cons_of_mem _ hb, t', ht'⟩
    | fail e' t =>
      rw [ha] at h
      simp only [Res.bind_fail, Res.fail.injEq] at h
      obtain ⟨rfl, rfl⟩ := h
      exact ⟨a, List.mem_cons_self _ _, _, ha⟩
    | out_of_fuel => rw [ha] at h; simp at h

theorem builtin_panic_not_ok (ev : Ev D) (w : where_t) (args : List (expr_t D))
    (s s' : State D) (v : value_t D) : builtin_panic ev w args s ≠ .ok v s' := by
  unfold builtin_panic
  intro h
  obtain ⟨_, _, _, h2⟩ := Res.bind_eq_ok h
  cases h2

theorem eval_expr_bin_op_succ (fuel : Nat) (op : bin_op_type_t) (l r : expr_t D) (s : State D) :
    eval_expr (fuel + 1) (.bin_op op l r) s = eval_expr_bin_op (eval_expr fuel) op l r s := rfl

/-- C18: evaluating a call of `panic` never returns a value, whatever the
fuel, the arguments and the state. With enough fuel it ends the run with one
failure, which is the explicit panic or an error raised by one of the
arguments. That failure is the outcome of the whole run: the statements after
the call, and a binary operation of which the call is the left or the right
operand, fail with the same error in the same state, so nothing after the call
changes the output or the variables. -/
theorem C18_panic_never_returns (where_ : where_t) (args : List (expr_t D)) (s : State D) :
    (∀ fuel v s', eval_expr fuel (.call where_ "panic" args) s ≠ .ok v s') ∧
    (∃ n e sf, ∀ fuel, n ≤ fuel →
      eval_expr fuel (.call where_ "panic" args) s = .fail e sf) ∧
    (∀ fuel e sf, eval_expr (fuel + 1) (.call where_ "panic" args) s = .fail e sf →
      (e = .ExplicitPanic ∨ ∃ a ∈ args, ∃ t, eval_expr fuel a t = .fail e sf) ∧
      (∀ rest, eval (fuel + 2) (.expr (.call where_ "panic" args) :: rest) s = .fail e sf) ∧
      (∀ op r, op ≠ .BIN_OP_ASSIGN → op ≠ .BIN_OP_INC → op ≠ .BIN_OP_DEC →
        op ≠ .BIN_OP_XINC → op ≠ .BIN_OP_XDEC →
        eval_expr (fuel + 2) (.bin_op op (.call where_ "panic" args) r) s = .fail e sf) ∧
      (∀ op l vl s0, eval_expr (fuel + 1) l s0 = .ok vl s →
        (op ≠ .BIN_OP_ASSIGN ∧ op ≠ .BIN_OP_INC ∧ op ≠ .BIN_OP_DEC ∧ op ≠ .BIN_OP_XINC ∧
          op ≠ .BIN_OP_XDEC) ∨ (∃ x, l = .id x) →
        eval_expr (fuel + 2) (.bin_op op l (.call where_ "panic" args)) s0 = .fail e sf)) := by
  have hnot : ∀ fuel v s', eval_expr fuel (.call where_ "panic" args) s ≠ .ok v s' := by
    intro fuel v s'
    cases fuel with
    | zero => simp [eval_expr]
    | succ n => exact builtin_panic_not_ok (eval_expr n) where_ args s s' v
  refine ⟨hnot, ?_, ?_⟩
  · obtain ⟨n, hn⟩ := eval_expr_total (.call where_ "panic" args : expr_t D)
    have hdone := hn n (Nat.le_refl _) s
    cases hr : eval_expr n (.call where_ "panic" args) s with
    | ok v s' => exact absurd hr (hnot n v s')
    | out_of_fuel => rw [hr] at hdone; exact hdone.elim
    | fail e sf =>
      exact ⟨n, e, sf, fun fuel hle => Res.le_fail (eval_expr_le hle _ s) hr⟩
  · intro fuel e sf h
    refine ⟨?_, ?_, ?_, ?_⟩
    · have h' : builtin_panic (eval_expr fuel) where_ args s = .fail e sf := h
      unfold builtin_panic at h'
      cases hl : builtin_panic_loop (eval_expr fuel) args
          (fputs "panic():" .stderr
            (fputs (where_.path ++ ":" ++ toString where_.row ++ ":" ++ toString where_.col ++
              ": ") .stderr s)) with
      | ok u t =>
        rw [hl] at h'
        simp only [Res.bind_ok, Res.fail.injEq] at h'
        exact Or.inl h'.1.symm
      | fail e' t =>
        rw [hl] at h'
        simp only [Res.bind_fail, Res.fail.injEq] at h'
        obtain ⟨rfl, rfl⟩ := h'
        exact Or.inr (builtin_panic_loop_fail _ _ _ _ hl)
      | out_of_fuel => rw [hl] at h'; simp at h'
    · intro rest
      rw [eval_cons_expr, h, Res.bind_fail]
    · intro op r h1 h2 h3 h4 h5
      rw [eval_expr_bin_op_succ]
      cases op <;>
        first
          | exact absurd rfl h1
          | exact absurd rfl h2
          | exact absurd rfl h3
          | exact absurd rfl h4
          | exact absurd rfl h5
          | simp only [eval_expr_bin_op, eval_expr_bin_op_equals, eval_expr_bin_op_not_equals,
              eval_expr_bin_op_greater, eval_expr_bin_op_greater_equ, eval_expr_bin_op_less,
              eval_expr_bin_op_less_equ, eval_expr_bin_op_add, eval_expr_bin_op_sub,
              eval_expr_bin_op_mul, eval_expr_bin_op_div, eval_expr_bin_op_pow, h,
              Res.bind_fail]
    · intro op l vl s0 hl hop
      rw [eval_expr_bin_op_succ]
      rcases hop with ⟨h1, h2, h3, h4, h5⟩ | ⟨x, rfl⟩
      · cases op <;>
          first
            | exact absurd rfl h1
            | exact absurd rfl h2
            | exact absurd rfl h3
            | exact absurd rfl h4
            | exact absurd rfl h5
            | simp only [eval_expr_bin_op, eval_expr_bin_op_equals,
                eval_expr_bin_op_not_equals, eval_expr_bin_op_greater,
                eval_expr_bin_op_greater_equ, eval_expr_bin_op_less,
                eval_expr_bin_op_less_equ, eval_expr_bin_op_add, eval_expr_bin_op_sub,
                eval_expr_bin_op_mul, eval_expr_bin_op_div, eval_expr_bin_op_pow, hl, h,
                Res.bind_ok, Res.bind_fail]
      · have hs0 : s0 = s := by
          simp only [eval_expr, eval_expr_id] at hl
          split at hl <;> simp at hl
          exact hl.2
        subst hs0
        cases op <;>
          simp only [eval_expr_bin_op, eval_expr_bin_op_equals, eval_expr_bin_op_not_equals,
            eval_expr_bin_op_greater, eval_expr_bin_op_greater_equ, eval_expr_bin_op_less,
            eval_expr_bin_op_less_equ, eval_expr_bin_op_add, eval_expr_bin_op_sub,
            eval_expr_bin_op_mul, eval_expr_bin_op_div, eval_expr_bin_op_pow,
            eval_expr_bin_op_assign, eval_expr_bin_op_inc, eval_expr_bin_op_dec,
            eval_expr_bin_op_xinc, eval_expr_bin_op_xdec, hl, h, Res.bind_ok, Res.bind_fail]

end

/-- Witness of C18: `panic("boom"); println("after");` ends with the explicit
panic, the diagnostic on standard error and nothing on standard output. -/
theorem C18_panic_never_returns_witness :
    eval 3
        [.expr (.call where_example "panic" [.val (.str "boom")]),
          .expr (.call where_example "println" [.val (.str "after")])] state_x5 =
      .fail .ExplicitPanic { state_x5 with stderr := "main.goof:1:1: panic(): boom\n" } :=
  ((C18_panic_never_returns where_example [.val (.str "boom")] state_x5).2.2 1 .ExplicitPanic
    { state_x5 with stderr := "main.goof:1:1: panic(): boom\n" } (by decide)).2.1
    [.expr (.call where_example "println" [.val (.str "after")])]
section
variable {D : Type} [DoubleOps D]

theorem builtin_func_result_type {ev : Ev D} (b : builtin_t) (w : where_t)
    (args : List (expr_t D)) (s s1 : State D) (v : value_t D)
    (h : b.func ev w args s = .ok v s1) : v.type = b.result_type := by
  cases b <;> simp only [builtin_t.func] at h
  · unfold builtin_println at h
    obtain ⟨_, _, _, h2⟩ := Res.bind_eq_ok h
    simp only [Res.ok.injEq] at h2
    rw [← h2.1]; rfl
  · unfold builtin_print at h
    obtain ⟨_, _, _, h2⟩ := Res.bind_eq_ok h
    simp only [Res.ok.injEq] at h2
    rw [← h2.1]; rfl
  · unfold builtin_len at h
    split at h
    · obtain ⟨u, _, _, h2⟩ := Res.bind_eq_ok h
      cases u <;> simp only [Res.ok.injEq, reduceCtorEq] at h2
      rw [← h2.1]; rfl
    · cases h
  · unfold builtin_readnum at h
    obtain ⟨_, _, _, h2⟩ := Res.bind_eq_ok h
    simp only [Res.ok.injEq] at h2
    rw [← h2.1]; rfl
  · unfold builtin_readstr at h
    obtain ⟨_, _, _, h2⟩ := Res.bind_eq_ok h
    simp only [Res.ok.injEq] at h2
    rw [← h2.1]; rfl
  · exact absurd h (builtin_panic_not_ok ev w args s s1 v)

theorem eval_expr_bin_op_result_type {ev : Ev D} (op : bin_op_type_t) (l r : expr_t D)
    (s s1 : State D) (v : value_t D) (h : eval_expr_bin_op ev op l r s = .ok v s1) :
    (∀ t, op.result_type = some t → v.type = t) ∧
      (op.result_type = none → ∃ s0, ev r s = .ok v s0) := by
  cases op <;>
    simp only [eval_expr_bin_op, eval_expr_bin_op_equals, eval_expr_bin_op_not_equals,
      eval_expr_bin_op_greater, eval_expr_bin_op_greater_equ, eval_expr_bin_op_less,
      eval_expr_bin_op_less_equ, eval_expr_bin_op_assign, eval_expr_bin_op_inc,
      eval_expr_bin_op_dec, eval_expr_bin_op_xinc, eval_expr_bin_op_xdec,
      eval_expr_bin_op_add, eval_expr_bin_op_sub, eval_expr_bin_op_mul, eval_expr_bin_op_div,
      eval_expr_bin_op_pow] at h <;>
    simp only [bin_op_type_t.result_type, Option.some.injEq, reduceCtorEq, false_implies,
      forall_eq', true_and, and_true, implies_true, forall_const]
  case BIN_OP_NOT_EQUALS =>
    obtain ⟨val, t3, h0, h⟩ := Res.bind_eq_ok h
    obtain ⟨a, t1, h1, h0⟩ := Res.bind_eq_ok h0
    obtain ⟨b, t2, h2, h0⟩ := Res.bind_eq_ok h0
    repeat' split at h0
    all_goals first
      | simp only [reduceCtorEq] at h0
      | (simp only [Res.ok.injEq] at h0
         obtain ⟨rfl, rfl⟩ := h0
         simp only [Res.ok.injEq] at h
         rw [← h.1]; rfl)
  case BIN_OP_ASSIGN =>
    split at h
    · obtain ⟨val, t1, h1, h⟩ := Res.bind_eq_ok h
      repeat' split at h
      all_goals first
        | simp only [reduceCtorEq] at h
        | (simp only [Res.ok.injEq] at h
           rw [← h.1]
           exact ⟨_, h1⟩)
    · cases h
  case BIN_OP_INC | BIN_OP_DEC | BIN_OP_XINC | BIN_OP_XDEC =>
    split at h
    · obtain ⟨val, t1, h1, h⟩ := Res.bind_eq_ok h
      repeat' split at h
      all_goals first
        | simp only [reduceCtorEq] at h
        | (simp only [Res.ok.injEq] at h
           rw [← h.1]; rfl)
    · cases h
  all_goals
    obtain ⟨a, t1, h1, h⟩ := Res.bind_eq_ok h
    obtain ⟨b, t2, h2, h⟩ := Res.bind_eq_ok h
    repeat' split at h
    all_goals first
      | simp only [reduceCtorEq] at h
      | (simp only [Res.ok.injEq] at h
         rw [← h.1]; rfl)

end

section
variable {D : Type} [DoubleOps D]

omit [DoubleOps D] in
theorem eval_expr_id_ok {x : String} {s s1 : State D} {v : value_t D}
    (h : eval_expr_id x s = .ok v s1) : var_value s x = some v := by
  unfold eval_expr_id at h
  split at h
  · cases h
  · rename_i i var hg
    simp only [Res.ok.injEq] at h
    simp [var_value, hg, h.1]

theorem eval_expr_tag_ext (fuel : Nat) : ∀ (fuel' : Nat) (e : expr_t D) (s s' s1 s1' : State D)
    (v v' : value_t D), TagExt s s' → eval_expr fuel e s = .ok v s1 →
    eval_expr fuel' e s' = .ok v' s1' → v'.type = v.type := by
  induction fuel with
  | zero => intro fuel' e s s' s1 s1' v v' _ h; simp [eval_expr] at h
  | succ n ih =>
    intro fuel' e s s' s1 s1' v v' hext h h'
    cases fuel' with
    | zero => simp [eval_expr] at h'
    | succ n' =>
      cases e with
      | val u =>
        simp only [eval_expr, eval_expr_value, Res.ok.injEq] at h h'
        rw [← h.1, ← h'.1]
      | id x =>
        simp only [eval_expr] at h h'
        obtain ⟨v'', hv'', ht⟩ := hext x v (eval_expr_id_ok h)
        rw [eval_expr_id_ok h'] at hv''
        simp only [Option.some.injEq] at hv''
        rw [hv'']; exact ht
      | call w name args =>
        simp only [eval_expr, eval_expr_call] at h h'
        split at h
        · rename_i b hb
          rw [hb] at h'
          rw [builtin_func_result_type b.2 w args s s1 v h,
            builtin_func_result_type b.2 w args s' s1' v' h']
        · cases h
      | bin_op op l r =>
        rw [eval_expr_bin_op_succ] at h h'
        obtain ⟨ht, hr⟩ := eval_expr_bin_op_result_type op l r s s1 v h
        obtain ⟨ht', hr'⟩ := eval_expr_bin_op_result_type op l r s' s1' v' h'
        cases hop : op.result_type with
        | some t => rw [ht t hop, ht' t hop]
        | none =>
          obtain ⟨s0, h0⟩ := hr hop
          obtain ⟨s0', h0'⟩ := hr' hop
          exact ih n' r s s' s0 s0' v v' hext h0 h0'

omit [DoubleOps D] in
theorem tagExt_of_tagStable {s s1 : State D} (h : TagStable s s1) : TagExt s s1 := by
  intro x v hv
  obtain ⟨i, var, hg, rfl⟩ := var_value_eq_some hv
  obtain ⟨var', hg', ht⟩ := h x i var hg
  exact ⟨var'.val, by simp [var_value, hg'], ht⟩

theorem eval_expr_tagStable {fuel : Nat} {e : expr_t D} {s s1 : State D} {v : value_t D}
    (h : eval_expr fuel e s = .ok v s1) : TagStable s s1 := by
  have h1 := eval_expr_all (R := TagStable) (E := fun _ => True) tagStable_exprStable
    (fun _ _ => trivial) fuel e s
  rw [h] at h1
  exact h1

theorem eval_tagStable {fuel : Nat} {prog : List (stmt_t D)} {s s1 : State D}
    (h : eval fuel prog s = .ok () s1) : TagStable s s1 := by
  have h1 := eval_all (R := TagStable) tagStable_stmtStable fuel prog s
  rw [h] at h1
  exact h1

theorem while_check_tag {fuel : Nat} {e : expr_t D} {s0 s1 : State D} {v : value_t D}
    (h : eval_expr fuel e s0 = .ok v s1) {body : List (stmt_t D)} {fw : Nat} {s : State D}
    {c : value_t D} (hc : while_check e body fw s c) (hs : TagStable s0 s) :
    c.type = v.type := by
  induction hc with
  | first f t t1 c hc =>
    exact eval_expr_tag_ext fuel f e s0 t s1 t1 v c (tagExt_of_tagStable hs) h hc
  | later f t t1 t2 c hcond hbody _ ih =>
    exact ih (tagStable_exprStable.trans _ _ _ hs
      (tagStable_exprStable.trans _ _ _ (eval_expr_tagStable hcond) (eval_tagStable hbody)))

theorem for_check_tag {fuel : Nat} {e : expr_t D} {s0 s1 : State D} {v : value_t D}
    (h : eval_expr fuel e s0 = .ok v s1) {step body : List (stmt_t D)} {fw : Nat} {s : State D}
    {c : value_t D} (hc : for_check e step body fw s c) (hs : TagStable s0 s) :
    c.type = v.type := by
  induction hc with
  | first f t t1 c hc =>
    exact eval_expr_tag_ext fuel f e s0 t s1 t1 v c (tagExt_of_tagStable hs) h hc
  | later f t t1 t2 t3 c hcond hbody hstep _ ih =>
    exact ih (tagStable_exprStable.trans _ _ _ hs
      (tagStable_exprStable.trans _ _ _ (eval_expr_tagStable hcond)
        (tagStable_exprStable.trans _ _ _ (eval_tagStable hbody) (eval_tagStable hstep))))

/-- C20: let the expression `e` evaluate to `v` from state `s`. In every other
run of `e`, with any fuel, from a state `s'` (with any console input) in which
the same names are declared with the same type tags, a value that `e`
evaluates to has the type tag of `v`. Consequently, when `e` is the condition
of a `while` or `for` loop started in `s`, the value it evaluates to at any
check of the loop has the type tag of `v`: a condition that is a Bool at the
first check is a Bool at every later check. The same holds in any state
reached from there by running statements to their end. -/
theorem C20_static_result_type (fuel : Nat) (e : expr_t D) (s s1 : State D) (v : value_t D)
    (h : eval_expr fuel e s = .ok v s1) :
    (∀ fuel' s' v' s1',
      (∀ x, (var_value s x).map value_t.type = (var_value s' x).map value_t.type) →
      eval_expr fuel' e s' = .ok v' s1' → v'.type = v.type) ∧
    (∀ body fw c, while_check e body fw s c → c.type = v.type) ∧
    (∀ step body fw c, for_check e step body fw s c → c.type = v.type) ∧
    (∀ fuel2 prog s2 fuel' v' s3, eval fuel2 prog s1 = .ok () s2 →
      eval_expr fuel' e s2 = .ok v' s3 → v'.type = v.type) := by
  refine ⟨?_, ?_, ?_, ?_⟩
  · intro fuel' s' v' s1' hsame h'
    refine eval_expr_tag_ext fuel fuel' e s s' s1 s1' v v' ?_ h h'
    intro x u hu
    have := hsame x
    rw [hu] at this
    cases hu' : var_value s' x with
    | none => rw [hu'] at this; cases this
    | some u' =>
      rw [hu'] at this
      simp only [Option.map_some', Option.some.injEq] at this
      exact ⟨u', rfl, this.symm⟩
  · intro body fw c hc
    exact while_check_tag h hc (tagStable_exprStable.refl s)
  · intro step body fw c hc
    exact for_check_tag h hc (tagStable_exprStable.refl s)
  · intro fuel2 prog s2 fuel' v' s3 hrun h'
    exact eval_expr_tag_ext fuel fuel' e s s2 s1 s3 v v'
      (tagExt_of_tagStable (tagStable_exprStable.trans _ _ _ (eval_expr_tagStable h)
        (eval_tagStable hrun))) h h'

end

/-- Witness of C20: `x < 9` is a Bool where `x = 5` and where `x = 7`. -/
theorem C20_static_result_type_witness :
    (value_t.bool_ false : value_t Int).type = (value_t.bool_ true : value_t Int).type :=
  (C20_static_result_type 2 (.bin_op .BIN_OP_LESS (.id "x") (.val (.num 6))) state_x5 state_x5
    (.bool_ true) (by decide)).1 2 ⟨[⟨some "x", .num 7⟩, ⟨none, .nil⟩], "", "", ['a']⟩
    (.bool_ false) ⟨[⟨some "x", .num 7⟩, ⟨none, .nil⟩], "", "", ['a']⟩
    (by
      intro x
      by_cases hx : "x" = x <;> simp [var_value, env_get_var, state_x5, hx, value_t.type])
    (by decide)

end GoofScript
